import Mathlib

/-! MythTV: spin-box range list and DiSEqC settings dialogs.

A shallow embedding of `libs/libmythui/mythuispinbox.cpp` and of the parts of
`libs/libmythtv/diseqcsettings.cpp` that decide the properties proved below.

Conventions:
* a C++ `int` is an `Int` in `[-2^31, 2^31)`; the result of `+`/`-` on `int` is
  reduced with `wrapInt` (two's complement), an `uint` is a `Nat` below `2^32`
  and its arithmetic is taken modulo `2^32`;
* a loop that the source does not bound is run with a fuel counter and answers
  `none` when the fuel is used up;
* Qt library calls are either parameters of the definitions (`translate`) or
  small executable models, each marked as such.
-/

namespace MythTV

/-! ## Machine integers -/

/-- Smallest value of a C++ `int`. -/
def INT_MIN : Int := -2147483648

/-- Largest value of a C++ `int`. -/
def INT_MAX : Int := 2147483647

/-- The value is representable as a C++ `int`. -/
def isInt (x : Int) : Prop := INT_MIN ≤ x ∧ x ≤ INT_MAX

instance (x : Int) : Decidable (isInt x) := by
  unfold isInt; infer_instance

/-- Two's-complement reduction of the mathematical result of an `int` operation. -/
def wrapInt (x : Int) : Int := (x + 2147483648) % 4294967296 - 2147483648

/-- Qt's `qAbs` on `int`: `t >= 0 ? t : -t`. -/
def qAbs (t : Int) : Int := if t ≥ 0 then t else wrapInt (-t)

/-! ## MythUISpinBox (mythuispinbox.cpp) -/

/-- One `MythUIButtonListItem`: the label text and the `int` stored as its data. -/
structure MythUIButtonListItem where
  text : String
  data : Int
  deriving DecidableEq, Repr

/-- The fields of `MythUISpinBox` that `SetRange` reads or writes, together with
the item list of its base class `MythUIButtonList`. -/
structure MythUISpinBox where
  m_hasTemplate : Bool
  m_negativeTemplate : String
  m_zeroTemplate : String
  m_positiveTemplate : String
  m_itemList : List MythUIButtonListItem
  deriving DecidableEq, Repr

namespace MythUISpinBox

/-- Modelled from the spec: `MythUIButtonList::Reset` (base class, not among the
sources) empties the list of the widget. -/
def Reset (s : MythUISpinBox) : MythUISpinBox := { s with m_itemList := [] }

/-- Modelled from the spec: `new MythUIButtonListItem(this, text, data)` (base
class, not among the sources) appends one entry to the list of the widget. -/
def newItem (s : MythUISpinBox) (text : String) (data : Int) : MythUISpinBox :=
  { s with m_itemList := s.m_itemList ++ [⟨text, data⟩] }

/-- Lines 36-42 of `SetRange`: the template `temp` picked for `value`; the
empty string when no branch assigns it. -/
def pickTemplate (s : MythUISpinBox) (value : Int) : String :=
  if value < 0 ∧ ¬ s.m_negativeTemplate.isEmpty then s.m_negativeTemplate
  else if value = 0 ∧ ¬ s.m_zeroTemplate.isEmpty then s.m_zeroTemplate
  else if ¬ s.m_positiveTemplate.isEmpty then s.m_positiveTemplate
  else ""

/-- Lines 32-50 of `SetRange`: the label of the entry made for `value`.
`translate temp n` stands for `qApp->translate("ThemeUI", temp, "", codec, n)`. -/
def itemText (translate : String → Int → String) (s : MythUISpinBox) (value : Int) : String :=
  let text :=
    if s.m_hasTemplate then
      let temp := pickTemplate s value
      if ¬ temp.isEmpty then translate temp (qAbs value) else ""
    else ""
  if text.isEmpty then toString value else text

/-- The `while` loop of `SetRange` (lines 30-57), started with `value`; `none`
when `fuel` iterations did not reach the exit. -/
def setRangeLoop (translate : String → Int → String) (reverse : Bool) (high step : Int) :
    Nat → Int → MythUISpinBox → Option MythUISpinBox
  | 0, _, _ => none
  | fuel + 1, value, s =>
    if (reverse ∧ value ≥ high) ∨ (¬ reverse ∧ value ≤ high) then
      let s1 := s.newItem (itemText translate s value) value
      let value1 := if reverse then wrapInt (value - step) else wrapInt (value + step)
      setRangeLoop translate reverse high step fuel value1 s1
    else some s

/-- `MythUISpinBox::SetRange(low, high, step)` (lines 17-60). The closing call of
`SetPositionArrowStates` only redraws the arrows and is left out. -/
def SetRange (translate : String → Int → String) (fuel : Nat) (s : MythUISpinBox)
    (low high step : Int) : Option MythUISpinBox :=
  if high = low ∨ step = 0 then some s
  else
    let reverse : Bool := decide (low > high)
    setRangeLoop translate reverse high step fuel low s.Reset

/-- `MythUISpinBox::ParseElement` on a `template` element (lines 64-75): `type` is
its `type` attribute and `format` its text. Every other element is handed to the
base class and does not touch the templates. -/
def ParseElement (s : MythUISpinBox) (type format : String) : MythUISpinBox :=
  let s1 :=
    if type = "negative" then { s with m_negativeTemplate := format }
    else if type = "zero" then { s with m_zeroTemplate := format }
    else { s with m_positiveTemplate := format }
  { s1 with m_hasTemplate := true }

/-- The `int` values stored in the entries of the list, in order. -/
def values (s : MythUISpinBox) : List Int := s.m_itemList.map (·.data)

/-- The entries the ascending loop appends: `count` values from `value` upwards. -/
def upEntries (tr : String → Int → String) (s : MythUISpinBox) (value step : Int)
    (count : Nat) : List MythUIButtonListItem :=
  (List.range count).map fun (k : Nat) =>
    ⟨itemText tr s (value + (k : Int) * step), value + (k : Int) * step⟩

/-- The entries the descending loop appends: `count` values from `value` downwards. -/
def downEntries (tr : String → Int → String) (s : MythUISpinBox) (value step : Int)
    (count : Nat) : List MythUIButtonListItem :=
  (List.range count).map fun (k : Nat) =>
    ⟨itemText tr s (value - (k : Int) * step), value - (k : Int) * step⟩

/-- The label of an entry as the claim under test words it: the template of the
sign of `v` instantiated with `|v|` when templates are in use and that template is
set, the plain decimal number otherwise. -/
def labelAsClaimed (tr : String → Int → String) (s : MythUISpinBox) (v : Int) : String :=
  let own := if v < 0 then s.m_negativeTemplate
    else if v = 0 then s.m_zeroTemplate else s.m_positiveTemplate
  if s.m_hasTemplate = true ∧ own ≠ "" then tr own |v| else toString v

/-- The label of an entry in the words of the amended claim: the template is the
one of the sign of `v` when that is set and the positive (default) template
otherwise; the label is the template instantiated with `|v|` when templates are in
use, a template was found and the instantiation is not empty, and the plain
decimal number in every other case. -/
def labelByDesign (tr : String → Int → String) (s : MythUISpinBox) (v : Int) : String :=
  let own := if v < 0 then s.m_negativeTemplate
    else if v = 0 then s.m_zeroTemplate else s.m_positiveTemplate
  let temp := if own = "" then s.m_positiveTemplate else own
  if s.m_hasTemplate = true ∧ temp ≠ "" ∧ tr temp |v| ≠ "" then tr temp |v| else toString v

end MythUISpinBox

/-- Substitution of the decimal text `num` for every `%n` of a template. -/
def substN : List Char → List Char → List Char
  | '%' :: 'n' :: rest, num => num ++ substN rest num
  | c :: rest, num => c :: substN rest num
  | [], _ => []

/-- Modelled from the spec: the "numeric placeholder" of a label template. With no
translation loaded `QCoreApplication::translate(ctx, text, "", codec, n)` gives
`text` with each `%n` replaced by the decimal of `n`. -/
def qtTranslate (temp : String) (n : Int) : String :=
  String.mk (substN temp.data (toString n).data)

/-- A spin box without templates and with one stale entry in its list. -/
def plainBox : MythUISpinBox :=
  { m_hasTemplate := false, m_negativeTemplate := "", m_zeroTemplate := "",
    m_positiveTemplate := "", m_itemList := [⟨"old", 42⟩] }

/-- A spin box whose theme has the single element `<template>%n min</template>`,
which `ParseElement` stores as the positive template. -/
def themedBox : MythUISpinBox :=
  MythUISpinBox.ParseElement
    { m_hasTemplate := false, m_negativeTemplate := "", m_zeroTemplate := "",
      m_positiveTemplate := "", m_itemList := [] }
    "" "%n min"


/-! ## Qt text helpers used by diseqcsettings.cpp -/

/-- `DeviceTree::tr` with no translation loaded: the source text itself. -/
def tr (sourceText : String) : String := sourceText

namespace QString

/-- `QString::number(uint)`: the decimal text of an unsigned number. -/
def number (n : Nat) : String := toString n

/-- The value of a decimal digit character, if it is one. -/
def digitValue (c : Char) : Option Nat :=
  if '0' ≤ c ∧ c ≤ '9' then some (c.toNat - 48) else none

/-- Reading of a run of decimal digits, most significant first, onto `acc`;
`none` when a character is not a digit. -/
def parseDecimal : List Char → Nat → Option Nat
  | [], acc => some acc
  | c :: cs, acc =>
    match digitValue c with
    | some d => parseDecimal cs (acc * 10 + d)
    | none => none

/-- Modelled from the spec: `QString::toUInt()` on plain decimal text. The number
read when the text is a non-empty run of digits whose value fits an `uint`; zero for
every other text ("malformed numeric text input falls back to zero"). -/
def toUInt (text : String) : Nat :=
  match text.data with
  | [] => 0
  | cs =>
    match parseDecimal cs 0 with
    | some n => if n < 4294967296 then n else 0
    | none => 0

end QString

/-- Product of two `uint` values as the machine computes it. -/
def uintMul (a b : Nat) : Nat := (a * b) % 4294967296

/-! ## Setting widgets (framework classes, not among the sources) -/

/-- Modelled from the spec: a `LineEditSetting`, "one field widget": its displayed
text and its enabled flag. -/
structure LineEditSetting where
  value : String
  enabled : Bool
  deriving DecidableEq, Repr

/-- Modelled from the spec: a `CheckBoxSetting`: its state and its enabled flag. -/
structure CheckBoxSetting where
  value : Bool
  enabled : Bool
  deriving DecidableEq, Repr

/-- Modelled from the spec: a `ComboBoxSetting` whose selections are fixed by its
constructor: the index of the current selection and the enabled flag. -/
structure ComboBoxSetting where
  current : Nat
  enabled : Bool
  deriving DecidableEq, Repr

/-! ## LNB device, presets and field adapters (diseqcsettings.cpp, lines 664-936) -/

/-- `DiSEqCDevLNB::dvbdev_lnb_t`. -/
inductive dvbdev_lnb_t where
  | kTypeFixed
  | kTypeVoltageControl
  | kTypeVoltageAndToneControl
  | kTypeBandstacked
  deriving DecidableEq, Repr

namespace dvbdev_lnb_t

/-- Modelled from the spec: the `(uint)` value of an LNB kind; the enumerators of
`diseqc.h` (not among the sources) count up from zero in declaration order. -/
def toUInt : dvbdev_lnb_t → Nat
  | kTypeFixed => 0
  | kTypeVoltageControl => 1
  | kTypeVoltageAndToneControl => 2
  | kTypeBandstacked => 3

/-- The cast `(DiSEqCDevLNB::dvbdev_lnb_t) n`; `none` when `n` names no enumerator,
in which case no `case` label of a `switch` matches. -/
def ofUInt : Nat → Option dvbdev_lnb_t
  | 0 => some kTypeFixed
  | 1 => some kTypeVoltageControl
  | 2 => some kTypeVoltageAndToneControl
  | 3 => some kTypeBandstacked
  | _ => none

end dvbdev_lnb_t

/-- The fields of `DiSEqCDevLNB` behind `GetType`, `GetLOFSwitch`, `GetLOFLow`,
`GetLOFHigh` and `IsPolarityInverted` (frequencies in kHz, `uint`). -/
structure DiSEqCDevLNB where
  m_type : dvbdev_lnb_t
  m_lof_switch : Nat
  m_lof_lo : Nat
  m_lof_hi : Nat
  m_pol_inv : Bool
  deriving DecidableEq, Repr

/-- `class lnb_preset` (lines 664-683). -/
structure lnb_preset where
  name : String
  type : dvbdev_lnb_t
  lof_sw : Nat := 0
  lof_lo : Nat := 0
  lof_hi : Nat := 0
  pol_inv : Bool := false
  deriving DecidableEq, Repr

open dvbdev_lnb_t in
/-- The table `lnb_presets[]` (lines 685-703); the last entry has the null name. -/
def lnb_presets : List lnb_preset :=
  [ { name := "Universal (Europe)", type := kTypeVoltageAndToneControl,
      lof_sw := 11700000, lof_lo := 9750000, lof_hi := 10600000 },
    { name := "Single (Europe)", type := kTypeVoltageControl, lof_sw := 0, lof_lo := 9750000 },
    { name := "Circular (N. America)", type := kTypeVoltageControl,
      lof_sw := 0, lof_lo := 11250000 },
    { name := "Linear (N. America)", type := kTypeVoltageControl,
      lof_sw := 0, lof_lo := 10750000 },
    { name := "C Band", type := kTypeVoltageControl, lof_sw := 0, lof_lo := 5150000 },
    { name := "DishPro Bandstacked", type := kTypeBandstacked,
      lof_sw := 0, lof_lo := 11250000, lof_hi := 14350000 },
    { name := "", type := kTypeVoltageControl } ]

namespace LNBLOFSwitchSetting

/-- `LNBLOFSwitchSetting::Load`. -/
def Load (lnb : DiSEqCDevLNB) (w : LineEditSetting) : LineEditSetting :=
  { w with value := QString.number (lnb.m_lof_switch / 1000) }

/-- `LNBLOFSwitchSetting::Save`. -/
def Save (w : LineEditSetting) (lnb : DiSEqCDevLNB) : DiSEqCDevLNB :=
  { lnb with m_lof_switch := uintMul (QString.toUInt w.value) 1000 }

end LNBLOFSwitchSetting

namespace LNBLOFLowSetting

/-- `LNBLOFLowSetting::Load`. -/
def Load (lnb : DiSEqCDevLNB) (w : LineEditSetting) : LineEditSetting :=
  { w with value := QString.number (lnb.m_lof_lo / 1000) }

/-- `LNBLOFLowSetting::Save`. -/
def Save (w : LineEditSetting) (lnb : DiSEqCDevLNB) : DiSEqCDevLNB :=
  { lnb with m_lof_lo := uintMul (QString.toUInt w.value) 1000 }

end LNBLOFLowSetting

namespace LNBLOFHighSetting

/-- `LNBLOFHighSetting::Load`. -/
def Load (lnb : DiSEqCDevLNB) (w : LineEditSetting) : LineEditSetting :=
  { w with value := QString.number (lnb.m_lof_hi / 1000) }

/-- `LNBLOFHighSetting::Save`. -/
def Save (w : LineEditSetting) (lnb : DiSEqCDevLNB) : DiSEqCDevLNB :=
  { lnb with m_lof_hi := uintMul (QString.toUInt w.value) 1000 }

end LNBLOFHighSetting

/-- An LNB as stored, used in the examples. -/
def someLNB : DiSEqCDevLNB :=
  { m_type := .kTypeVoltageAndToneControl, m_lof_switch := 11700000, m_lof_lo := 9750000,
    m_lof_hi := 10600000, m_pol_inv := false }

/-! ## LNBConfig (diseqcsettings.cpp, lines 918-1000) -/

namespace LNBTypeSetting

open dvbdev_lnb_t in
/-- The values given to `addSelection` by the constructor of `LNBTypeSetting`, in
order (lines 762-770). -/
def values : List String :=
  [ QString.number kTypeFixed.toUInt, QString.number kTypeVoltageControl.toUInt,
    QString.number kTypeVoltageAndToneControl.toUInt, QString.number kTypeBandstacked.toUInt ]

/-- Modelled from the spec: `getValue()` of the selector, the value of the current
selection (empty text when there is none). -/
def getValue (w : ComboBoxSetting) : String := values.getD w.current ""

/-- Modelled from the spec: `getValueIndex(value)`, the position of `value` among the
selections; `none` stands for the `-1` of a value that is not offered. -/
def getValueIndex (value : String) : Option Nat :=
  if value ∈ values then some (values.indexOf value) else none

end LNBTypeSetting

/-- The five widgets that `LNBConfig` keeps pointers to. -/
structure LNBConfig where
  m_type : ComboBoxSetting
  m_lof_switch : LineEditSetting
  m_lof_lo : LineEditSetting
  m_lof_hi : LineEditSetting
  m_pol_inv : CheckBoxSetting
  deriving DecidableEq, Repr

namespace LNBConfig

open dvbdev_lnb_t in
/-- `LNBConfig::UpdateType` (lines 973-1000). -/
def UpdateType (s : LNBConfig) : LNBConfig :=
  if ¬ s.m_type.enabled then s
  else
    match dvbdev_lnb_t.ofUInt (QString.toUInt (LNBTypeSetting.getValue s.m_type)) with
    | some kTypeFixed | some kTypeVoltageControl =>
      { s with
        m_lof_switch := { s.m_lof_switch with enabled := false }
        m_lof_hi := { s.m_lof_hi with enabled := false }
        m_lof_lo := { s.m_lof_lo with enabled := true }
        m_pol_inv := { s.m_pol_inv with enabled := true } }
    | some kTypeVoltageAndToneControl =>
      { s with
        m_lof_switch := { s.m_lof_switch with enabled := true }
        m_lof_hi := { s.m_lof_hi with enabled := true }
        m_lof_lo := { s.m_lof_lo with enabled := true }
        m_pol_inv := { s.m_pol_inv with enabled := true } }
    | some kTypeBandstacked =>
      { s with
        m_lof_switch := { s.m_lof_switch with enabled := false }
        m_lof_hi := { s.m_lof_hi with enabled := true }
        m_lof_lo := { s.m_lof_lo with enabled := true }
        m_pol_inv := { s.m_pol_inv with enabled := true } }
    | none => s

/-- Modelled from the spec: `m_type->setValue(which)`. A valid index becomes the
current selection and the widget "emits a change notification", which the
constructor of `LNBConfig` (line 938) connects to `UpdateType`; an index that is
not offered changes nothing. -/
def typeSetValue (s : LNBConfig) (which : Option Nat) : LNBConfig :=
  match which with
  | some k =>
    if k < LNBTypeSetting.values.length then
      UpdateType { s with m_type := { s.m_type with current := k } }
    else s
  | none => s

/-- `LNBConfig::SetPreset` (lines 945-971). -/
def SetPreset (value : String) (s : LNBConfig) : LNBConfig :=
  let index := QString.toUInt value
  if index ≥ lnb_presets.length then s
  else
    match lnb_presets.get? index with
    | none => s
    | some preset =>
      if preset.name.isEmpty then
        UpdateType { s with m_type := { s.m_type with enabled := true } }
      else
        let s1 := typeSetValue s
          (LNBTypeSetting.getValueIndex (QString.number preset.type.toUInt))
        let s2 := { s1 with
          m_lof_switch := { s1.m_lof_switch with value := QString.number (preset.lof_sw / 1000) } }
        let s3 := { s2 with
          m_lof_lo := { s2.m_lof_lo with value := QString.number (preset.lof_lo / 1000) } }
        let s4 := { s3 with
          m_lof_hi := { s3.m_lof_hi with value := QString.number (preset.lof_hi / 1000) } }
        let s5 := { s4 with m_pol_inv := { s4.m_pol_inv with value := preset.pol_inv } }
        let s6 := { s5 with m_type := { s5.m_type with enabled := false } }
        let s7 := { s6 with m_lof_switch := { s6.m_lof_switch with enabled := false } }
        let s8 := { s7 with m_lof_hi := { s7.m_lof_hi with enabled := false } }
        let s9 := { s8 with m_lof_lo := { s8.m_lof_lo with enabled := false } }
        { s9 with m_pol_inv := { s9.m_pol_inv with enabled := false } }

end LNBConfig

/-- An LNB dialog as it stands after loading `someLNB` with every widget enabled. -/
def someDialog : LNBConfig :=
  { m_type := { current := 2, enabled := true }
    m_lof_switch := { value := "11700", enabled := true }
    m_lof_lo := { value := "9750", enabled := true }
    m_lof_hi := { value := "10600", enabled := true }
    m_pol_inv := { value := true, enabled := true } }

/-! ## Rotor position map (diseqcsettings.cpp, lines 387-494) -/

/-- `AngleToString` (lines 389-399). `number` stands for `QString::number(double)`. -/
def AngleToString {α : Type} [Zero α] [Neg α] [LE α] [DecidableRel (α := α) (· ≤ ·)]
    (number : α → String) (angle : α) : String :=
  if (0 : α) ≤ angle then number angle ++ tr "E"
  else number (-angle) ++ tr "W"

/-- `AngleToFloat` (lines 413-435). The characters of a text are its `QChar`s.
`isLetter` and `toUpper` stand for `QChar::isLetter` and `QChar::toUpper` (which know
all of Unicode), `west` for `DeviceTree::tr("W", "Western Hemisphere")[0]`, the first
character of the loaded translation of the hemisphere letter, and `toDouble` for
`QString::toDouble()`. -/
def AngleToFloat {α : Type} [Zero α] [Neg α] (isLetter : Char → Bool) (toUpper : Char → Char)
    (west : Char) (toDouble : String → α) (angle : String) (translated : Bool) : α :=
  if angle.length < 2 then 0
  else
    let suffix := angle.data.getLastD ' '
    if isLetter suffix then
      let pos := toDouble (String.mk angle.data.dropLast)
      if (translated ∧ toUpper suffix = west) ∨
          (¬ translated ∧ toUpper suffix = 'W') then -pos
      else pos
    else toDouble angle

/-- Modelled from the spec: `QString::toDouble()` on the texts used in the examples,
plain unsigned decimal integers; "malformed numeric text input falls back to zero". -/
def decimalToDouble (text : String) : Int := (QString.toUInt text : Int)

/-- The state of a `RotorPosMap` list box: the map `m_posmap` (an
`uint_to_dbl_t`, here the lookup function of the map), the rows of the list as
(label, value) pairs and the index of the selected row. -/
structure RotorPosMap (α : Type) where
  m_posmap : Nat → Option α
  selections : List (String × String)
  current : Nat

namespace RotorPosMap

/-- Modelled from the spec: `uint_to_dbl_t::erase(find(id))`, the map without the
entry of `id`; a map that has no such entry is left as it is. -/
def erase {α : Type} (m : Nat → Option α) (id : Nat) : Nat → Option α :=
  fun k => if k = id then none else m k

/-- Modelled from the spec: `getValue()` of the list box, the value of the selected
row (empty text when there is none). -/
def getValue {α : Type} (s : RotorPosMap α) : String :=
  match s.selections.get? s.current with
  | some row => row.2
  | none => ""

/-- Modelled from the spec: `getValueIndex(value)` as `setCurrentItem` uses it, the
index of the first row with that value; when no row has it the list is left with
its first row current. -/
def getValueIndex {α : Type} (s : RotorPosMap α) (value : String) : Nat :=
  match s.selections.findIdx? (fun row => row.2 == value) with
  | some k => k
  | none => 0

/-- The row that `PopulateList` adds for position `pos` (lines 485-491):
`tr("Position #%1 (%2)").arg(pos).arg(posval)` with value `QString::number(pos)`. -/
def row {α : Type} [Zero α] [Neg α] [LE α] [DecidableRel (α := α) (· ≤ ·)]
    (number : α → String) (m : Nat → Option α) (pos : Nat) : String × String :=
  let posval :=
    match m pos with
    | some angle => AngleToString number angle
    | none => tr "None"
  ("Position #" ++ QString.number pos ++ " (" ++ posval ++ ")", QString.number pos)

/-- `RotorPosMap::PopulateList` (lines 478-494): rows for `pos = 1 .. num_pos - 1`. -/
def PopulateList {α : Type} [Zero α] [Neg α] [LE α] [DecidableRel (α := α) (· ≤ ·)]
    (number : α → String) (s : RotorPosMap α) : RotorPosMap α :=
  let old_sel := s.getValueIndex s.getValue
  let num_pos := 64
  { s with
    selections := (List.range' 1 (num_pos - 1)).map (row number s.m_posmap)
    current := old_sel }

/-- `RotorPosMap::del` (lines 471-476). -/
def del {α : Type} [Zero α] [Neg α] [LE α] [DecidableRel (α := α) (· ≤ ·)]
    (number : α → String) (s : RotorPosMap α) : RotorPosMap α :=
  let id := QString.toUInt s.getValue
  PopulateList number { s with m_posmap := erase s.m_posmap id }

end RotorPosMap

/-- A position map with entries at 5 (13 East) and 7 (30 West), angles in whole
degrees. -/
def somePosMap : Nat → Option Int :=
  fun k => if k = 5 then some 13 else if k = 7 then some (-30) else none

/-- The text of a whole number of degrees, standing in for `QString::number(double)`
in the examples. -/
def degreesText (angle : Int) : String := toString angle

/-- The list box loaded with `somePosMap`, row 5 (index 4) selected. -/
def someRotorList : RotorPosMap Int :=
  { RotorPosMap.PopulateList degreesText ⟨somePosMap, [], 0⟩ with current := 4 }

/-- The dialog `someDialog` with the four advanced fields disabled beforehand. -/
def lockedDialog : LNBConfig :=
  { m_type := { current := 2, enabled := true }
    m_lof_switch := { value := "11700", enabled := false }
    m_lof_lo := { value := "9750", enabled := false }
    m_lof_hi := { value := "10600", enabled := false }
    m_pol_inv := { value := true, enabled := false } }

/-! ## SwitchConfig (diseqcsettings.cpp, lines 139-291) -/

/-- `DiSEqCDevSwitch::dvbdev_switch_t`. -/
inductive dvbdev_switch_t where
  | kTypeTone
  | kTypeDiSEqCCommitted
  | kTypeDiSEqCUncommitted
  | kTypeLegacySW21
  | kTypeLegacySW42
  | kTypeLegacySW64
  | kTypeVoltage
  | kTypeMiniDiSEqC
  deriving DecidableEq, Repr

namespace dvbdev_switch_t

/-- Modelled from the spec: the `(uint)` value of a switch kind; the enumerators of
`diseqc.h` (not among the sources) count up from zero in declaration order. -/
def toUInt : dvbdev_switch_t → Nat
  | kTypeTone => 0
  | kTypeDiSEqCCommitted => 1
  | kTypeDiSEqCUncommitted => 2
  | kTypeLegacySW21 => 3
  | kTypeLegacySW42 => 4
  | kTypeLegacySW64 => 5
  | kTypeVoltage => 6
  | kTypeMiniDiSEqC => 7

/-- The cast `(DiSEqCDevSwitch::dvbdev_switch_t) n`; `none` when `n` names no
enumerator, in which case no `case` label of a `switch` matches. -/
def ofUInt : Nat → Option dvbdev_switch_t
  | 0 => some kTypeTone
  | 1 => some kTypeDiSEqCCommitted
  | 2 => some kTypeDiSEqCUncommitted
  | 3 => some kTypeLegacySW21
  | 4 => some kTypeLegacySW42
  | 5 => some kTypeLegacySW64
  | 6 => some kTypeVoltage
  | 7 => some kTypeMiniDiSEqC
  | _ => none

end dvbdev_switch_t

namespace SwitchTypeSetting

open dvbdev_switch_t in
/-- The values given to `addSelection` by the constructor of `SwitchTypeSetting`, in
order (lines 149-166). -/
def values : List String :=
  [ QString.number kTypeTone.toUInt, QString.number kTypeVoltage.toUInt,
    QString.number kTypeMiniDiSEqC.toUInt, QString.number kTypeDiSEqCCommitted.toUInt,
    QString.number kTypeDiSEqCUncommitted.toUInt, QString.number kTypeLegacySW21.toUInt,
    QString.number kTypeLegacySW42.toUInt, QString.number kTypeLegacySW64.toUInt ]

/-- Modelled from the spec: `getValue()` of the selector, the value of the current
selection (empty text when there is none). -/
def getValue (w : ComboBoxSetting) : String := values.getD w.current ""

/-- Modelled from the spec: `getValueIndex(value)`, the position of `value` among the
selections; `none` stands for the `-1` of a value that is not offered. -/
def getValueIndex (value : String) : Option Nat :=
  if value ∈ values then some (values.indexOf value) else none

end SwitchTypeSetting

/-- The three widgets that `SwitchConfig` keeps pointers to. -/
structure SwitchConfig where
  m_type : ComboBoxSetting
  m_address : LineEditSetting
  m_ports : LineEditSetting
  deriving DecidableEq, Repr

namespace SwitchConfig

/-- The kind that `update` switches on:
`(DiSEqCDevSwitch::dvbdev_switch_t) m_type->getValue().toUInt()`. -/
def kind (s : SwitchConfig) : Option dvbdev_switch_t :=
  dvbdev_switch_t.ofUInt (QString.toUInt (SwitchTypeSetting.getValue s.m_type))

open dvbdev_switch_t in
/-- `SwitchConfig::update` (lines 265-291). -/
def update (s : SwitchConfig) : SwitchConfig :=
  match s.kind with
  | some kTypeTone | some kTypeVoltage | some kTypeMiniDiSEqC
  | some kTypeLegacySW21 | some kTypeLegacySW42 =>
    { s with
      m_address := { value := "0x10", enabled := false }
      m_ports := { value := "2", enabled := false } }
  | some kTypeLegacySW64 =>
    { s with
      m_address := { value := "0x10", enabled := false }
      m_ports := { value := "3", enabled := false } }
  | some kTypeDiSEqCCommitted | some kTypeDiSEqCUncommitted =>
    { s with
      m_address := { s.m_address with enabled := true }
      m_ports := { s.m_ports with enabled := true } }
  | none => s

end SwitchConfig

/-- A switch dialog standing on the selection of kind `t`, address and port count
shown as `0x22` and `8`, both with the given enabled flag. -/
def switchDialog (t : dvbdev_switch_t) (en : Bool) : SwitchConfig :=
  { m_type := { current :=
      match SwitchTypeSetting.getValueIndex (QString.number t.toUInt) with
      | some k => k
      | none => 0, enabled := true }
    m_address := { value := "0x22", enabled := en }
    m_ports := { value := "8", enabled := en } }

/-! ## FindPreset (diseqcsettings.cpp, lines 705-720) -/

/-- The test in the body of the loop of `FindPreset`: the preset equals the LNB in
type, LOF switch, LOF low, LOF high and inverted polarity. -/
def presetMatches (preset : lnb_preset) (lnb : DiSEqCDevLNB) : Prop :=
  preset.type = lnb.m_type ∧ preset.lof_sw = lnb.m_lof_switch ∧
  preset.lof_lo = lnb.m_lof_lo ∧ preset.lof_hi = lnb.m_lof_hi ∧
  preset.pol_inv = lnb.m_pol_inv

instance (preset : lnb_preset) (lnb : DiSEqCDevLNB) : Decidable (presetMatches preset lnb) := by
  unfold presetMatches; infer_instance

/-- The `for` loop of `FindPreset` from index `i` on, `presets` being the entries
`lnb_presets[i]`, `lnb_presets[i+1]`, ...: it stops at the first entry whose name is
empty or that matches. The table ends with an empty name, so its end is not reached. -/
def findPresetLoop (lnb : DiSEqCDevLNB) : List lnb_preset → Nat → Nat
  | [], i => i
  | preset :: rest, i =>
    if preset.name.isEmpty then i
    else if presetMatches preset lnb then i
    else findPresetLoop lnb rest (i + 1)

/-- `FindPreset` (lines 705-720). -/
def FindPreset (lnb : DiSEqCDevLNB) : Nat := findPresetLoop lnb lnb_presets 0

/-- An LNB with the values of "C Band" and one that differs from every preset. -/
def cBandLNB : DiSEqCDevLNB :=
  { m_type := .kTypeVoltageControl, m_lof_switch := 0, m_lof_lo := 5150000, m_lof_hi := 0,
    m_pol_inv := false }

/-- An LNB that equals "C Band" except for the inverted polarity. -/
def invertedCBandLNB : DiSEqCDevLNB := { cBandLNB with m_pol_inv := true }

/-! ## The device tree (`diseqc.h` and `diseqc.cpp` are not among the sources) -/

/-- `DiSEqCDevDevice::dvbdev_t`, in the order of the rows of `RunTypeDialog`. -/
inductive dvbdev_t where
  | kTypeSwitch
  | kTypeRotor
  | kTypeSCR
  | kTypeLNB
  deriving DecidableEq, Repr

/-- `DiSEqCDevRotor::dvbdev_rotor_t`. -/
inductive dvbdev_rotor_t where
  | kTypeDiSEqC_1_2
  | kTypeDiSEqC_1_3
  deriving DecidableEq, Repr

/-- The three device classes that have child slots, a rotor with its kind. -/
inductive ParentKind where
  | Switch
  | Rotor (type : dvbdev_rotor_t)
  | SCR
  deriving DecidableEq, Repr

mutual
/-- Modelled from the spec: a device node, "variant over {Switch, Rotor, SCR, LNB}"
with "an identifier, a description string" and "an ordered list of child slots". A
switch has one slot per port, a rotor and an SCR unit have one slot, an LNB is a leaf
without slots. The parent reference and the ordinal of a device are its place in the
tree. -/
inductive DiSEqCDevDevice where
  | node (m_devid : Nat) (m_desc : String) (kind : ParentKind) (m_children : ChildList)
  | lnb (m_devid : Nat) (m_desc : String)
  deriving DecidableEq, Repr
/-- Modelled from the spec: a `DiSEqCDevDevice *` as stored in a child slot or as the
root, `NULL` ("unconnected") or a device. -/
inductive DevicePtr where
  | null
  | dev (d : DiSEqCDevDevice)
  deriving DecidableEq, Repr
/-- Modelled from the spec: the child slots `0 .. N-1` of a device, in order. -/
inductive ChildList where
  | nil
  | cons (child : DevicePtr) (rest : ChildList)
  deriving DecidableEq, Repr
end

namespace ChildList

/-- The number of slots. -/
def length : ChildList → Nat
  | nil => 0
  | cons _ rest => rest.length + 1

/-- The pointer in slot `ordinal`, if there is such a slot. -/
def get? : ChildList → Nat → Option DevicePtr
  | nil, _ => none
  | cons child _, 0 => some child
  | cons _ rest, ordinal + 1 => rest.get? ordinal

/-- The slots with `device` stored in slot `ordinal`; `none` when there is no such
slot. -/
def set : ChildList → Nat → DevicePtr → Option ChildList
  | nil, _, _ => none
  | cons _ rest, 0, device => some (cons device rest)
  | cons child rest, ordinal + 1, device =>
    match rest.set ordinal device with
    | some rest1 => some (cons child rest1)
    | none => none

end ChildList

namespace DiSEqCDevDevice

/-- `GetDeviceID()`. -/
def GetDeviceID : DiSEqCDevDevice → Nat
  | node m_devid _ _ _ => m_devid
  | lnb m_devid _ => m_devid

/-- `GetDescription()`. -/
def GetDescription : DiSEqCDevDevice → String
  | node _ m_desc _ _ => m_desc
  | lnb _ m_desc => m_desc

/-- `GetDeviceType()`. -/
def GetDeviceType : DiSEqCDevDevice → dvbdev_t
  | node _ _ .Switch _ => .kTypeSwitch
  | node _ _ (.Rotor _) _ => .kTypeRotor
  | node _ _ .SCR _ => .kTypeSCR
  | lnb _ _ => .kTypeLNB

/-- The child slots of a device; an LNB has none. -/
def children : DiSEqCDevDevice → ChildList
  | node _ _ _ m_children => m_children
  | lnb _ _ => .nil

/-- `GetChildCount()`. -/
def GetChildCount (d : DiSEqCDevDevice) : Nat := d.children.length

/-- `GetChild(ordinal)`: `NULL` for an empty slot and for an ordinal out of range. -/
def GetChild (d : DiSEqCDevDevice) (ordinal : Nat) : DevicePtr :=
  match d.children.get? ordinal with
  | some child => child
  | none => .null

/-- The device with its child slots replaced. -/
def withChildren : DiSEqCDevDevice → ChildList → DiSEqCDevDevice
  | node m_devid m_desc kind _, cs => node m_devid m_desc kind cs
  | lnb m_devid m_desc, _ => lnb m_devid m_desc

end DiSEqCDevDevice

/-- A pointer to a device or slot of the tree, held as the child numbers that lead
from the root to it; the empty path is the root. -/
abbrev DevPath := List Nat

/-- The pointer stored at the end of `path` below `root`; `none` when the path leaves
the tree. -/
def ptrAt : DevPath → DevicePtr → Option DevicePtr
  | [], root => some root
  | _ :: _, .null => none
  | ordinal :: rest, .dev d =>
    match d.children.get? ordinal with
    | some child => ptrAt rest child
    | none => none

/-- The tree below `root` with `device` stored at the end of `path`; `none` when the
path names no slot of the tree. -/
def setAt : DevPath → DevicePtr → DevicePtr → Option DevicePtr
  | [], _, device => some device
  | _ :: _, .null, _ => none
  | ordinal :: rest, .dev d, device =>
    match d.children.get? ordinal with
    | none => none
    | some child =>
      match setAt rest child device with
      | none => none
      | some child1 =>
        match d.children.set ordinal child1 with
        | some cs => some (.dev (d.withChildren cs))
        | none => none

mutual
/-- Modelled from the spec: `DiSEqCDevDevice::FindDevice(dev_id)`, "node lookup by id":
the device itself or the first match below its child slots, taken in order. -/
def DiSEqCDevDevice.FindDevice : DiSEqCDevDevice → Nat → Option DevPath
  | .node m_devid _ _ m_children, dev_id =>
    if m_devid = dev_id then some [] else m_children.FindDevice 0 dev_id
  | .lnb m_devid _, dev_id => if m_devid = dev_id then some [] else none
/-- The lookup below one child pointer. -/
def DevicePtr.FindDevice : DevicePtr → Nat → Option DevPath
  | .null, _ => none
  | .dev d, dev_id => d.FindDevice dev_id
/-- The lookup through the child slots from slot `ch` on. -/
def ChildList.FindDevice : ChildList → Nat → Nat → Option DevPath
  | .nil, _, _ => none
  | .cons child rest, ch, dev_id =>
    match child.FindDevice dev_id with
    | some path => some (ch :: path)
    | none => rest.FindDevice (ch + 1) dev_id
end

/-- Modelled from the spec: `DiSEqCDevTree`, "exactly one root device or none". -/
structure DiSEqCDevTree where
  m_root : DevicePtr
  deriving DecidableEq, Repr

namespace DiSEqCDevTree

/-- `Root()`. -/
def Root (tree : DiSEqCDevTree) : DevicePtr := tree.m_root

/-- `SetRoot(root)`: the old root, if any, is deleted. -/
def SetRoot (_tree : DiSEqCDevTree) (root : DevicePtr) : DiSEqCDevTree := { m_root := root }

/-- `DiSEqCDevTree::FindDevice(dev_id)`. -/
def FindDevice (tree : DiSEqCDevTree) (dev_id : Nat) : Option DevPath :=
  tree.m_root.FindDevice dev_id

/-- Modelled from the spec: `parent->SetChild(ordinal, device)`, "child-slot
assignment", for the device `parent` of the tree: the slot takes `device` (what it
held is deleted) and the answer is the new tree, or `none` for the `false` of an
ordinal that names no slot of `parent`. -/
def SetChild (tree : DiSEqCDevTree) (parent : DevPath) (ordinal : Nat) (device : DevicePtr) :
    Option DiSEqCDevTree :=
  match setAt (parent ++ [ordinal]) tree.m_root device with
  | some root => some { m_root := root }
  | none => none

end DiSEqCDevTree

/-- Modelled from the spec: `dev->GetParent()`, "parent/child navigation", for a device
of the tree: the path without its last step; `none` is the `NULL` of the root. -/
def GetParent (dev : DevPath) : Option DevPath :=
  if dev = [] then none else some dev.dropLast

/-- Modelled from the spec: `dev->GetOrdinal()` for a device of the tree: the number of
the slot of its parent that it sits in, the last step of its path. -/
def GetOrdinal (dev : DevPath) : Nat := dev.getLastD 0

/-! ## DeviceTree, the tree browser (diseqcsettings.cpp, lines 1002-1232) -/

/-- The state of the `DeviceTree` list box: the tree it shows, its rows as (label,
value) pairs and the index of the selected row. -/
structure DeviceTree where
  m_tree : DiSEqCDevTree
  selections : List (String × String)
  current : Nat
  deriving DecidableEq, Repr

/-- What the tree browser asks of the user and of the device factory while one slot
runs: the answer of the type popup (`none` when it is rejected), the device that
`DiSEqCDevDevice::CreateByType` makes for a type (`NULL` when it fails), and the
outcome of the configuration dialog of a device (`none` when it is cancelled, the
device as saved when it is accepted). -/
structure DialogEnv where
  RunTypeDialog : Option dvbdev_t
  CreateByType : dvbdev_t → DevicePtr
  exec : DiSEqCDevDevice → Option DiSEqCDevDevice

/-- `indent.fill(' ', 8 * depth)`. -/
def indentOf (depth : Nat) : String := String.mk (List.replicate (8 * depth) ' ')

mutual
/-- `DeviceTree::PopulateTree(node, parent, childnum, depth)` (lines 1207-1232); `rows`
are the selections added so far and `addSelection` puts one more at their end. -/
def PopulateTreeNode : DevicePtr → DevicePtr → Nat → Nat → List (String × String) →
    List (String × String)
  | .dev d, _, _, depth, rows => PopulateTreeDevice d depth rows
  | .null, parent, childnum, depth, rows =>
    let id :=
      (match parent with
        | .dev p => QString.number p.GetDeviceID
        | .null => "") ++ (":" ++ QString.number childnum)
    rows ++ [(indentOf depth ++ "(Unconnected)", id)]
/-- The branch `if (node)` of `PopulateTree`. -/
def PopulateTreeDevice : DiSEqCDevDevice → Nat → List (String × String) →
    List (String × String)
  | .node m_devid m_desc kind m_children, depth, rows =>
    PopulateTreeChildren m_children (.node m_devid m_desc kind m_children) 0 (depth + 1)
      (rows ++ [(indentOf depth ++ m_desc, QString.number m_devid)])
  | .lnb m_devid m_desc, depth, rows =>
    rows ++ [(indentOf depth ++ m_desc, QString.number m_devid)]
/-- The loop `for (ch = 0; ch < num_ch; ch++)` of `PopulateTree` from `ch` on, over the
slots not yet visited. -/
def PopulateTreeChildren : ChildList → DiSEqCDevDevice → Nat → Nat → List (String × String) →
    List (String × String)
  | .nil, _, _, _, rows => rows
  | .cons child rest, node, ch, depth, rows =>
    PopulateTreeChildren rest node (ch + 1) depth
      (PopulateTreeNode child (.dev node) ch depth rows)
end

namespace DeviceTree

/-- Modelled from the spec: `getValue()` of the list box, the value of the selected
row (empty text when there is none). -/
def getValue (s : DeviceTree) : String :=
  match s.selections.get? s.current with
  | some row => row.2
  | none => ""

/-- Modelled from the spec: `getValueIndex(value)` as `setCurrentItem` uses it, the
index of the first row with that value; when no row has it the list is left with
its first row current. -/
def getValueIndex (s : DeviceTree) (value : String) : Nat :=
  match s.selections.findIdx? (fun row => row.2 == value) with
  | some k => k
  | none => 0

/-- `DeviceTree::PopulateTree(void)` (lines 1199-1205); the recursive overload starts
with its default arguments `parent = NULL`, `childnum = 0`, `depth = 0`. -/
def PopulateTree (s : DeviceTree) : DeviceTree :=
  let old_sel := s.getValueIndex s.getValue
  { s with
    selections := PopulateTreeNode s.m_tree.Root .null 0 0 []
    current := old_sel }

/-- `DeviceTree::EditNodeDialog(nodeid)` (lines 1023-1088): the flag `changed` and the
browser afterwards. The four `case` branches differ only in the class of the dialog
that `exec` stands for; an accepted dialog has saved its fields into the device. -/
def EditNodeDialog (env : DialogEnv) (s : DeviceTree) (nodeid : Nat) : Bool × DeviceTree :=
  match s.m_tree.FindDevice nodeid with
  | none => (false, s)
  | some path =>
    match ptrAt path s.m_tree.m_root with
    | some (.dev dev) =>
      match env.exec dev with
      | some saved =>
        match setAt path s.m_tree.m_root (.dev saved) with
        | some root => (true, PopulateTree { s with m_tree := { m_root := root } })
        | none => (true, PopulateTree s)
      | none => (false, s)
    | _ => (false, s)

/-- `DeviceTree::CreateRootNodeDialog` (lines 1114-1130). -/
def CreateRootNodeDialog (env : DialogEnv) (s : DeviceTree) : DeviceTree :=
  match env.RunTypeDialog with
  | none => s
  | some type =>
    match env.CreateByType type with
    | .null => s
    | .dev dev =>
      let s1 := { s with m_tree := s.m_tree.SetRoot (.dev dev) }
      let edited := EditNodeDialog env s1 dev.GetDeviceID
      let s2 :=
        if edited.1 = false then { edited.2 with m_tree := edited.2.m_tree.SetRoot .null }
        else edited.2
      PopulateTree s2

/-- `DeviceTree::CreateNewNodeDialog(parentid, child_num)` (lines 1132-1156). -/
def CreateNewNodeDialog (env : DialogEnv) (s : DeviceTree) (parentid child_num : Nat) :
    DeviceTree :=
  match s.m_tree.FindDevice parentid with
  | none => s
  | some parent =>
    match env.RunTypeDialog with
    | none => s
    | some type =>
      match env.CreateByType type with
      | .null => s
      | .dev dev =>
        match s.m_tree.SetChild parent child_num (.dev dev) with
        | some tree1 =>
          let edited := EditNodeDialog env { s with m_tree := tree1 } dev.GetDeviceID
          let s2 :=
            if edited.1 = false then
              match edited.2.m_tree.SetChild parent child_num .null with
              | some tree2 => { edited.2 with m_tree := tree2 }
              | none => edited.2
            else edited.2
          PopulateTree s2
        | none => s

/-- `DeviceTree::del` (lines 1176-1197); `id.indexOf(':') == -1` says that the text
has no colon. -/
def del (s : DeviceTree) : DeviceTree :=
  let id := s.getValue
  if ':' ∉ id.data then
    let nodeid := QString.toUInt id
    match s.m_tree.FindDevice nodeid with
    | some dev =>
      let tree1 :=
        match GetParent dev with
        | some parent =>
          match s.m_tree.SetChild parent (GetOrdinal dev) .null with
          | some tree2 => tree2
          | none => s.m_tree
        | none => s.m_tree.SetRoot .null
      PopulateTree { s with m_tree := tree1 }
    | none => s
  else s

end DeviceTree

mutual
/-- The rows of a real node at depth `depth`, in the words of the specification: one
row with the indented description and the decimal device id as key, then the rows of
its child slots `0 .. N-1` in order at `depth + 1`. -/
def rowsOfDevice : DiSEqCDevDevice → Nat → List (String × String)
  | .node m_devid m_desc _ m_children, depth =>
    (indentOf depth ++ m_desc, QString.number m_devid)
      :: rowsOfSlots m_children m_devid 0 (depth + 1)
  | .lnb m_devid m_desc, depth => [(indentOf depth ++ m_desc, QString.number m_devid)]
/-- The rows of child slot `c` of the parent with id `p`: the rows of the device in
it, or the single row "(Unconnected)" with key `p:c` when it is empty. -/
def rowsOfSlot : DevicePtr → Nat → Nat → Nat → List (String × String)
  | .dev d, _, _, depth => rowsOfDevice d depth
  | .null, p, c, depth =>
    [(indentOf depth ++ "(Unconnected)", QString.number p ++ ":" ++ QString.number c)]
/-- The rows of the child slots `c, c+1, ...` of the parent with id `p`. -/
def rowsOfSlots : ChildList → Nat → Nat → Nat → List (String × String)
  | .nil, _, _, _ => []
  | .cons child rest, p, c, depth =>
    rowsOfSlot child p c depth ++ rowsOfSlots rest p (c + 1) depth
end

/-- The rows of a whole tree: those of the root, or the single row with key `:0` for
an absent root. -/
def rowsOfTree : DevicePtr → List (String × String)
  | .dev d => rowsOfDevice d 0
  | .null => [("(Unconnected)", ":0")]

/-- What one sees of a slot without looking below it: nothing for an empty slot,
else the id, description and type of the device and the number of its child slots. -/
def slotInfo : DevicePtr → Option (Nat × String × dvbdev_t × Nat)
  | .null => none
  | .dev d => some (d.GetDeviceID, d.GetDescription, d.GetDeviceType, d.GetChildCount)

/-- The view `slotInfo` of the slot at the end of `path`; `none` when the path leaves
the tree. -/
def slotInfoAt (path : DevPath) (root : DevicePtr) :
    Option (Option (Nat × String × dvbdev_t × Nat)) :=
  (ptrAt path root).map slotInfo

/-- A small tree: a two-port switch (id 1) with a rotor (id 2) on port 0 that carries
an LNB (id 3), port 1 unconnected. -/
def sampleRoot : DevicePtr :=
  .dev (.node 1 "Switch" .Switch
    (.cons (.dev (.node 2 "Rotor" (.Rotor .kTypeDiSEqC_1_2) (.cons (.dev (.lnb 3 "LNB")) .nil)))
      (.cons .null .nil)))

/-- The tree browser showing `sampleRoot`, row `k` selected. -/
def sampleBrowser (k : Nat) : DeviceTree :=
  { DeviceTree.PopulateTree { m_tree := { m_root := sampleRoot }, selections := [], current := 0 }
    with current := k }

/-- A user who picks "LNB" in the type popup and then cancels the configuration
dialog; new devices get the id 9. -/
def cancellingUser : DialogEnv :=
  { RunTypeDialog := some .kTypeLNB
    CreateByType := fun type =>
      match type with
      | .kTypeLNB => .dev (.lnb 9 "LNB")
      | .kTypeSwitch => .dev (.node 9 "Switch" .Switch (.cons .null (.cons .null .nil)))
      | .kTypeRotor => .dev (.node 9 "Rotor" (.Rotor .kTypeDiSEqC_1_3) (.cons .null .nil))
      | .kTypeSCR => .dev (.node 9 "Unicable" .SCR (.cons .null .nil))
    exec := fun _ => none }

/-! ## DTVDeviceConfigGroup (diseqcsettings.cpp, lines 1418-1521) -/

/-- The class of the widget that `AddNodes` creates for a device. -/
inductive SettingClass where
  | SwitchSetting
  | RotorSetting
  | USALSRotorSetting
  | SCRPositionSetting
  deriving DecidableEq, Repr

/-- Modelled from the spec: the widgets that `AddNodes` builds. A label stands in for
a device without widget; the widget of a device keeps the device id, its class and its
enabled flag; a group keeps whether it is a `TriggeredConfigurationGroup`, its children
and, when triggered, its targets with their trigger values. The frame and spacing
arguments of the group constructors are display only and left out. -/
inductive Setting where
  | TransLabelSetting
  | deviceSetting (devid : Nat) (cls : SettingClass) (enabled : Bool)
  | group (triggered : Bool) (children : List Setting) (targets : List (String × Setting))

/-- A configuration group under construction. -/
structure ConfigurationGroup where
  triggered : Bool
  children : List Setting
  targets : List (String × Setting)

namespace ConfigurationGroup

/-- The group as a widget of its parent group. -/
def toSetting (g : ConfigurationGroup) : Setting := .group g.triggered g.children g.targets

/-- `group->addChild(setting)`. -/
def addChild (g : ConfigurationGroup) (setting : Setting) : ConfigurationGroup :=
  { g with children := g.children ++ [setting] }

/-- `grp->addTarget(trigger, setting)`. -/
def addTarget (g : ConfigurationGroup) (trigger : String) (setting : Setting) :
    ConfigurationGroup :=
  { g with targets := g.targets ++ [(trigger, setting)] }

end ConfigurationGroup

/-- `devid_to_setting_t`, the type of `m_devs`: for a device id the widget bound to it
(here its class), if there is one. -/
abbrev devid_to_setting_t := Nat → Option SettingClass

/-- `m_devs[devid] = setting`. -/
def devid_to_setting_t.insert (m : devid_to_setting_t) (devid : Nat) (cls : SettingClass) :
    devid_to_setting_t :=
  fun k => if k = devid then some cls else m k

namespace DTVDeviceConfigGroup

/-- `DTVDeviceConfigGroup::AddChild` (lines 1510-1521). -/
def AddChild (group : ConfigurationGroup) (trigger : String) (setting : Setting) :
    ConfigurationGroup :=
  if group.triggered ∧ ¬ trigger.isEmpty then group.addTarget trigger setting
  else group.addChild setting

mutual
/-- `DTVDeviceConfigGroup::AddNodes(group, trigger, node)` (lines 1437-1508): the group
and `m_devs` afterwards. -/
def AddNodes (m_switches_enabled : Bool) :
    DevicePtr → ConfigurationGroup → String → devid_to_setting_t →
    ConfigurationGroup × devid_to_setting_t
  | .null, group, _, m_devs => (group, m_devs)
  | .dev d, group, trigger, m_devs => AddNodesDevice m_switches_enabled d group trigger m_devs
/-- The body of `AddNodes` for `node != NULL`. -/
def AddNodesDevice (m_switches_enabled : Bool) :
    DiSEqCDevDevice → ConfigurationGroup → String → devid_to_setting_t →
    ConfigurationGroup × devid_to_setting_t
  | .lnb _ _, group, trigger, m_devs => (AddChild group trigger .TransLabelSetting, m_devs)
  | .node m_devid _ kind m_children, group, trigger, m_devs =>
    match kind with
    | .Switch =>
      let setting := Setting.deviceSetting m_devid .SwitchSetting m_switches_enabled
      let cgrp : ConfigurationGroup := { triggered := true, children := [setting], targets := [] }
      let done := AddNodesChildren m_switches_enabled true m_children 0 cgrp
        (m_devs.insert m_devid .SwitchSetting)
      (AddChild group trigger done.1.toSetting, done.2)
    | .Rotor type =>
      let cls := if type = .kTypeDiSEqC_1_2 then SettingClass.RotorSetting
        else SettingClass.USALSRotorSetting
      let setting := Setting.deviceSetting m_devid cls true
      if m_children.length = 0 then (AddChild group trigger setting, m_devs.insert m_devid cls)
      else
        let cgrp := AddChild { triggered := false, children := [], targets := [] } "" setting
        let done := AddNodesChildren m_switches_enabled false m_children 0 cgrp
          (m_devs.insert m_devid cls)
        (AddChild group trigger done.1.toSetting, done.2)
    | .SCR =>
      let setting := Setting.deviceSetting m_devid .SCRPositionSetting true
      if m_children.length = 0 then
        (AddChild group trigger setting, m_devs.insert m_devid .SCRPositionSetting)
      else
        let cgrp := AddChild { triggered := false, children := [], targets := [] } "" setting
        let done := AddNodesChildren m_switches_enabled false m_children 0 cgrp
          (m_devs.insert m_devid .SCRPositionSetting)
        (AddChild group trigger done.1.toSetting, done.2)
/-- The loops `for (i = 0; i < num_ch; i++) AddNodes(cgrp, ..., node->GetChild(i))` from
`i` on; `byPort` tells the loop of a switch, whose trigger is `QString::number(i)`,
from the loop of the other devices, whose trigger is the null text. -/
def AddNodesChildren (m_switches_enabled : Bool) (byPort : Bool) :
    ChildList → Nat → ConfigurationGroup → devid_to_setting_t →
    ConfigurationGroup × devid_to_setting_t
  | .nil, _, cgrp, m_devs => (cgrp, m_devs)
  | .cons child rest, i, cgrp, m_devs =>
    let done := AddNodes m_switches_enabled child cgrp
      (if byPort then QString.number i else "") m_devs
    AddNodesChildren m_switches_enabled byPort rest (i + 1) done.1 done.2
end

/-- The constructor of `DTVDeviceConfigGroup` (lines 1418-1431) after `m_tree.Load`:
`AddNodes(this, QString::null, m_tree.Root())` on the empty group and the empty
`m_devs`. -/
def create (m_tree : DiSEqCDevTree) (switches_enabled : Bool) :
    ConfigurationGroup × devid_to_setting_t :=
  AddNodes switches_enabled m_tree.Root { triggered := false, children := [], targets := [] } ""
    (fun _ => none)

end DTVDeviceConfigGroup

mutual
/-- The devices reachable from a device through non-empty child slots, itself first. -/
def DiSEqCDevDevice.devices : DiSEqCDevDevice → List DiSEqCDevDevice
  | .node m_devid m_desc kind m_children =>
    .node m_devid m_desc kind m_children :: m_children.devices
  | .lnb m_devid m_desc => [.lnb m_devid m_desc]
/-- The devices reachable from a child pointer. -/
def DevicePtr.devices : DevicePtr → List DiSEqCDevDevice
  | .null => []
  | .dev d => d.devices
/-- The devices reachable from a list of child slots. -/
def ChildList.devices : ChildList → List DiSEqCDevDevice
  | .nil => []
  | .cons child rest => child.devices ++ rest.devices
end

/-- The widget that the specification names for a device: the port selector for a
switch, the position list for a DiSEqC 1.2 rotor, the longitude and hemisphere pair
for every other rotor, the A/B selector for an SCR unit, none for an LNB. -/
def settingClassOf : DiSEqCDevDevice → Option SettingClass
  | .node _ _ .Switch _ => some .SwitchSetting
  | .node _ _ (.Rotor .kTypeDiSEqC_1_2) _ => some .RotorSetting
  | .node _ _ (.Rotor .kTypeDiSEqC_1_3) _ => some .USALSRotorSetting
  | .node _ _ .SCR _ => some .SCRPositionSetting
  | .lnb _ _ => none

/-- The map `m` after `m[id] = widget` for the devices of a list that get a widget,
in the order of the list. -/
def insertDevices (m : devid_to_setting_t) : List DiSEqCDevDevice → devid_to_setting_t
  | [] => m
  | d :: rest =>
    insertDevices
      (match settingClassOf d with
        | some cls => m.insert d.GetDeviceID cls
        | none => m) rest

/-- A tree with all four device classes: a switch (id 1) with a DiSEqC 1.2 rotor (2)
carrying an LNB (3) on port 0 and an SCR unit (4) carrying a USALS rotor (5) with an
LNB (6) on port 1. -/
def fullRoot : DevicePtr :=
  .dev (.node 1 "Switch" .Switch
    (.cons (.dev (.node 2 "Rotor" (.Rotor .kTypeDiSEqC_1_2) (.cons (.dev (.lnb 3 "LNB")) .nil)))
      (.cons (.dev (.node 4 "Unicable" .SCR
        (.cons (.dev (.node 5 "Rotor" (.Rotor .kTypeDiSEqC_1_3)
          (.cons (.dev (.lnb 6 "LNB")) .nil))) .nil))) .nil)))

/-- An LNB whose stored LOF low is not a whole number of MHz. -/
def oddLNB : DiSEqCDevLNB := { someLNB with m_lof_lo := 9750500 }

/-! ## Saving the LNB dialog -/

namespace LNBTypeSetting

/-- `LNBTypeSetting::Load` (lines 778-781). -/
def Load (lnb : DiSEqCDevLNB) (w : ComboBoxSetting) : ComboBoxSetting :=
  match getValueIndex (QString.number lnb.m_type.toUInt) with
  | some k => { w with current := k }
  | none => w

/-- `LNBTypeSetting::Save` (lines 783-786). The selector only holds the four values
of `values` (or no text at all, which reads as 0), so the cast always names an
enumerator; the `none` branch keeps the kind and is never taken. -/
def Save (w : ComboBoxSetting) (lnb : DiSEqCDevLNB) : DiSEqCDevLNB :=
  match dvbdev_lnb_t.ofUInt (QString.toUInt (getValue w)) with
  | some t => { lnb with m_type := t }
  | none => lnb

end LNBTypeSetting

namespace LNBPolarityInvertedSetting

/-- `LNBPolarityInvertedSetting::Load` (lines 901-904). -/
def Load (lnb : DiSEqCDevLNB) (w : CheckBoxSetting) : CheckBoxSetting :=
  { w with value := lnb.m_pol_inv }

/-- `LNBPolarityInvertedSetting::Save` (lines 906-909). -/
def Save (w : CheckBoxSetting) (lnb : DiSEqCDevLNB) : DiSEqCDevLNB :=
  { lnb with m_pol_inv := w.value }

end LNBPolarityInvertedSetting

/-- Modelled from the spec: saving the dialog saves its adapters (`ConfigurationGroup`
is not among the sources). The five adapters that write a field of the LNB are taken
in the order in which the constructor of `LNBConfig` adds them (lines 921-933);
`LNBPresetSetting::Save` (line 739) does nothing. -/
def LNBConfig.Save (s : LNBConfig) (lnb : DiSEqCDevLNB) : DiSEqCDevLNB :=
  let lnb1 := LNBTypeSetting.Save s.m_type lnb
  let lnb2 := LNBLOFSwitchSetting.Save s.m_lof_switch lnb1
  let lnb3 := LNBLOFLowSetting.Save s.m_lof_lo lnb2
  let lnb4 := LNBLOFHighSetting.Save s.m_lof_hi lnb3
  LNBPolarityInvertedSetting.Save s.m_pol_inv lnb4

/-- The five fields that `FindPreset` compares, read from a preset. -/
def lnb_preset.fields (p : lnb_preset) : DiSEqCDevLNB :=
  { m_type := p.type, m_lof_switch := p.lof_sw, m_lof_lo := p.lof_lo, m_lof_hi := p.lof_hi,
    m_pol_inv := p.pol_inv }

/-! ## `DeviceTree::edit` -/

/-- The pieces of a text between the occurrences of `sep`, in order, empty pieces
kept; a text without `sep` is its own single piece. -/
def splitChars (sep : Char) : List Char → List (List Char)
  | [] => [[]]
  | c :: cs =>
    if c = sep then [] :: splitChars sep cs
    else
      match splitChars sep cs with
      | piece :: rest => (c :: piece) :: rest
      | [] => [[c]]

/-- `QString::split(sep)` with its default behaviour of keeping empty parts. -/
def QString.split (text : String) (sep : Char) : List String :=
  (splitChars sep text.data).map String.mk

/-- `DeviceTree::edit` (lines 1158-1174): the browser after the dialog that the key
of the selected row leads to. `vals[k]` is read with the empty text for a missing
piece; `setFocus` only moves the keyboard focus. -/
def DeviceTree.edit (env : DialogEnv) (s : DeviceTree) : DeviceTree :=
  let id := s.getValue
  if ':' ∉ id.data then
    (DeviceTree.EditNodeDialog env s (QString.toUInt id)).2
  else
    let vals := QString.split id ':'
    if (vals.getD 0 "").isEmpty then DeviceTree.CreateRootNodeDialog env s
    else
      DeviceTree.CreateNewNodeDialog env s (QString.toUInt (vals.getD 0 ""))
        (QString.toUInt (vals.getD 1 ""))

/-! ## USALSRotorSetting (diseqcsettings.cpp, lines 1330-1380) -/

/-- `AngleToEdit` (lines 401-411): the value to show and the hemisphere letter left
in `hemi`. -/
def AngleToEdit {α : Type} [Zero α] [Neg α] [LT α] [DecidableRel (α := α) (· < ·)]
    (angle : α) : α × String :=
  if (0 : α) < angle then (angle, "E") else (-angle, "W")

/-- The two widgets of a `USALSRotorSetting`: the longitude text and the hemisphere
selector. -/
structure USALSRotorSetting where
  numeric : LineEditSetting
  hemisphere : ComboBoxSetting
  deriving DecidableEq, Repr

namespace USALSRotorSetting

/-- The values given to `addSelection` by the constructor, in order (lines
1348-1349). -/
def values : List String := ["E", "W"]

/-- Modelled from the spec: `getValue()` of the hemisphere selector, the value of the
current selection (empty text when there is none). -/
def getValue (w : ComboBoxSetting) : String := values.getD w.current ""

/-- Modelled from the spec: `getValueIndex(value)`, the position of `value` among the
selections; `none` stands for the `-1` of a value that is not offered. -/
def getValueIndex (value : String) : Option Nat :=
  if value ∈ values then some (values.indexOf value) else none

/-- `USALSRotorSetting::Load` (lines 1358-1365). `number` stands for
`QString::number(double)`, `m_settings` for the per-card values behind
`m_settings.GetValue`, `devid` for `m_node.GetDeviceID()`. -/
def Load {α : Type} [Zero α] [Neg α] [LT α] [DecidableRel (α := α) (· < ·)]
    (number : α → String) (m_settings : Nat → α) (devid : Nat) (w : USALSRotorSetting) :
    USALSRotorSetting :=
  let val := m_settings devid
  let edited := AngleToEdit val
  let w1 := { w with numeric := { w.numeric with value := number edited.1 } }
  match getValueIndex edited.2 with
  | some k => { w1 with hemisphere := { w1.hemisphere with current := k } }
  | none => w1

/-- `USALSRotorSetting::Save` (lines 1367-1372): the per-card values after
`m_settings.SetValue`. `toDouble` stands for `QString::toDouble()`; `isLetter`,
`toUpper` and `west` are those of `AngleToFloat`. -/
def Save {α : Type} [Zero α] [Neg α] (isLetter : Char → Bool) (toUpper : Char → Char)
    (west : Char) (number : α → String) (toDouble : String → α)
    (w : USALSRotorSetting) (m_settings : Nat → α) (devid : Nat) : Nat → α :=
  let val := number (toDouble w.numeric.value) ++ getValue w.hemisphere
  fun k =>
    if k = devid then AngleToFloat isLetter toUpper west toDouble val false
    else m_settings k

end USALSRotorSetting

/-! ## Facts about the embedding -/

theorem wrapInt_eq_self {x : Int} (h : isInt x) : wrapInt x = x := by
  unfold isInt INT_MIN INT_MAX at h
  unfold wrapInt
  omega

theorem wrapInt_isInt (x : Int) : isInt (wrapInt x) := by
  unfold isInt INT_MIN INT_MAX wrapInt
  omega

namespace QString

theorem digitValue_digitChar {m : Nat} (hm : m < 10) : digitValue (Nat.digitChar m) = some m := by
  interval_cases m <;> decide

/-- The value read from a run of digit characters, as a left fold. -/
theorem parseDecimal_append_digit (l : List Char) (m : Nat) (hm : m < 10) :
    ∀ (acc v : Nat), parseDecimal l acc = some v →
      parseDecimal (l ++ [Nat.digitChar m]) acc = some (v * 10 + m) := by
  induction l with
  | nil =>
    intro acc v h
    simp only [parseDecimal, Option.some.injEq] at h
    simp [parseDecimal, digitValue_digitChar hm, h]
  | cons c cs ih =>
    intro acc v h
    simp only [parseDecimal, List.cons_append] at h ⊢
    cases hc : digitValue c with
    | none => simp [hc] at h
    | some d =>
      simp only [hc] at h ⊢
      exact ih _ _ h

/-- What `Nat.toDigitsCore` puts in front of its accumulator reads back as `n`. -/
theorem toDigitsCore_parse :
    ∀ (fuel n : Nat) (ds : List Char), n < fuel →
      ∃ l, Nat.toDigitsCore 10 fuel n ds = l ++ ds ∧ l ≠ [] ∧ parseDecimal l 0 = some n := by
  intro fuel
  induction fuel with
  | zero => intro n ds h; omega
  | succ f ih =>
    intro n ds hn
    rw [Nat.toDigitsCore]
    by_cases h0 : n / 10 = 0
    · have hlt : n < 10 := by omega
      refine ⟨[Nat.digitChar (n % 10)], by simp [h0], by simp, ?_⟩
      rw [Nat.mod_eq_of_lt hlt]
      simp [parseDecimal, digitValue_digitChar hlt]
    · obtain ⟨l, hl, hne, hp⟩ := ih (n / 10) (Nat.digitChar (n % 10) :: ds) (by omega)
      refine ⟨l ++ [Nat.digitChar (n % 10)], by simp [h0, hl], by simp, ?_⟩
      rw [parseDecimal_append_digit l (n % 10) (Nat.mod_lt n (by decide)) 0 (n / 10) hp]
      congr 1
      omega

/-- The decimal text of a number is a run of digits that reads back as the number. -/
theorem parseDecimal_number (n : Nat) : parseDecimal (number n).data 0 = some n := by
  obtain ⟨l, hl, -, hp⟩ := toDigitsCore_parse (n + 1) n [] (by omega)
  have hdata : (number n).data = l := by
    simp [number, toString, Nat.repr, Nat.toDigits, hl, List.asString]
  rw [hdata, hp]

/-- A text that reads as a run of digits has no colon. -/
theorem no_colon_of_parseDecimal : ∀ (l : List Char) (acc v : Nat),
    parseDecimal l acc = some v → ':' ∉ l := by
  intro l
  induction l with
  | nil => intro acc v _; simp
  | cons c cs ih =>
    intro acc v h
    simp only [parseDecimal] at h
    cases hc : digitValue c with
    | none => simp [hc] at h
    | some d =>
      simp only [hc] at h
      have hne : ':' ≠ c := by
        intro e
        subst e
        have hcolon : digitValue ':' = none := by decide
        rw [hcolon] at hc
        cases hc
      simp only [List.mem_cons, not_or]
      exact ⟨hne, ih _ _ h⟩

/-- The decimal text of a number has no colon. -/
theorem no_colon_number (n : Nat) : ':' ∉ (number n).data :=
  no_colon_of_parseDecimal _ 0 n (parseDecimal_number n)

/-- Reading the decimal text of an `uint` gives the number back. -/
theorem toUInt_number {n : Nat} (h : n < 4294967296) : toUInt (number n) = n := by
  obtain ⟨l, hl, hne, hp⟩ := toDigitsCore_parse (n + 1) n [] (by omega)
  have hdata : (number n).data = l := by
    simp [number, toString, Nat.repr, Nat.toDigits, hl, List.asString]
  unfold toUInt
  rw [hdata]
  cases l with
  | nil => exact absurd rfl hne
  | cons c cs => simp [hp, h]

end QString

namespace MythUISpinBox

theorem pickTemplate_newItem (s : MythUISpinBox) (t : String) (d v : Int) :
    pickTemplate (s.newItem t d) v = pickTemplate s v := rfl

theorem itemText_newItem (tr : String → Int → String) (s : MythUISpinBox) (t : String)
    (d v : Int) : itemText tr (s.newItem t d) v = itemText tr s v := rfl

theorem upEntries_succ (tr : String → Int → String) (s : MythUISpinBox) (value step : Int)
    (count : Nat) :
    upEntries tr s value step (count + 1) =
      ⟨itemText tr s value, value⟩ :: upEntries tr s (value + step) step count := by
  unfold upEntries
  rw [List.range_succ_eq_map]
  simp only [List.map_cons, List.map_map, Nat.cast_zero, zero_mul, add_zero]
  congr 1
  apply List.map_congr_left
  intro k _
  have h : value + ((k + 1 : Nat) : Int) * step = value + step + (k : Int) * step := by
    push_cast; ring
  simp only [Function.comp, Nat.succ_eq_add_one, h]

theorem downEntries_succ (tr : String → Int → String) (s : MythUISpinBox) (value step : Int)
    (count : Nat) :
    downEntries tr s value step (count + 1) =
      ⟨itemText tr s value, value⟩ :: downEntries tr s (value - step) step count := by
  unfold downEntries
  rw [List.range_succ_eq_map]
  simp only [List.map_cons, List.map_map, Nat.cast_zero, zero_mul, sub_zero]
  congr 1
  apply List.map_congr_left
  intro k _
  have h : value - ((k + 1 : Nat) : Int) * step = value - step - (k : Int) * step := by
    push_cast; ring
  simp only [Function.comp, Nat.succ_eq_add_one, h]

/-- The ascending loop, when no addition leaves the `int` range: `n + 1` entries are
appended and the loop exits. -/
theorem setRangeLoop_up (tr : String → Int → String) (high step : Int) (hstep : 0 < step) :
    ∀ (n : Nat) (value : Int) (s : MythUISpinBox) (fuel : Nat),
      INT_MIN ≤ value → value + (n : Int) * step ≤ high →
      high < value + ((n : Int) + 1) * step → value + ((n : Int) + 1) * step ≤ INT_MAX →
      n + 2 ≤ fuel →
      setRangeLoop tr false high step fuel value s =
        some { s with m_itemList := s.m_itemList ++ upEntries tr s value step (n + 1) } := by
  intro n
  induction n with
  | zero =>
    intro value s fuel hmin hle hlt hmax hfuel
    obtain ⟨f, rfl⟩ : ∃ f, fuel = f + 2 := ⟨fuel - 2, by omega⟩
    simp only [Nat.cast_zero, zero_mul, add_zero, zero_add, one_mul] at hle hlt hmax
    have hw : wrapInt (value + step) = value + step :=
      wrapInt_eq_self ⟨by omega, hmax⟩
    have hex : ¬ (value + step ≤ high) := by omega
    simp [setRangeLoop, hle, hw, hex, upEntries, newItem, List.range_succ]
  | succ n ih =>
    intro value s fuel hmin hle hlt hmax hfuel
    obtain ⟨f, rfl⟩ : ∃ f, fuel = f + 1 := ⟨fuel - 1, by omega⟩
    have hn : (0 : Int) ≤ (n : Int) * step := by positivity
    push_cast at hle hlt hmax
    have hw : wrapInt (value + step) = value + step :=
      wrapInt_eq_self ⟨by omega, by unfold INT_MAX at *; nlinarith⟩
    have hv : value ≤ high := by nlinarith
    have hrec := ih (value + step) (s.newItem (itemText tr s value) value) f (by omega)
      (by nlinarith) (by nlinarith) (by nlinarith) (by omega)
    rw [upEntries_succ tr s value step (n + 1)]
    simp only [setRangeLoop, hv, hw, Bool.false_eq_true, false_and, not_false_eq_true,
      true_and, false_or, if_true, if_false, hrec]
    simp [newItem, upEntries, itemText_newItem, itemText, pickTemplate]

/-- The descending loop, when no subtraction leaves the `int` range: `n + 1` entries
are appended and the loop exits. -/
theorem setRangeLoop_down (tr : String → Int → String) (high step : Int) (hstep : 0 < step) :
    ∀ (n : Nat) (value : Int) (s : MythUISpinBox) (fuel : Nat),
      value ≤ INT_MAX → high ≤ value - (n : Int) * step →
      value - ((n : Int) + 1) * step < high → INT_MIN ≤ value - ((n : Int) + 1) * step →
      n + 2 ≤ fuel →
      setRangeLoop tr true high step fuel value s =
        some { s with m_itemList := s.m_itemList ++ downEntries tr s value step (n + 1) } := by
  intro n
  induction n with
  | zero =>
    intro value s fuel hmax hle hlt hmin hfuel
    obtain ⟨f, rfl⟩ : ∃ f, fuel = f + 2 := ⟨fuel - 2, by omega⟩
    simp only [Nat.cast_zero, zero_mul, sub_zero, zero_add, one_mul] at hle hlt hmin
    have hw : wrapInt (value - step) = value - step :=
      wrapInt_eq_self ⟨hmin, by omega⟩
    have hex : ¬ (high ≤ value - step) := by omega
    simp [setRangeLoop, hle, hw, hex, downEntries, newItem, List.range_succ]
  | succ n ih =>
    intro value s fuel hmax hle hlt hmin hfuel
    obtain ⟨f, rfl⟩ : ∃ f, fuel = f + 1 := ⟨fuel - 1, by omega⟩
    have hn : (0 : Int) ≤ (n : Int) * step := by positivity
    push_cast at hle hlt hmin
    have hw : wrapInt (value - step) = value - step :=
      wrapInt_eq_self ⟨by unfold INT_MIN at *; nlinarith, by omega⟩
    have hv : high ≤ value := by nlinarith
    have hrec := ih (value - step) (s.newItem (itemText tr s value) value) f (by omega)
      (by nlinarith) (by nlinarith) (by nlinarith) (by omega)
    rw [downEntries_succ tr s value step (n + 1)]
    simp only [setRangeLoop, hv, hw, ge_iff_le, true_and, true_or, if_true, hrec]
    simp [newItem, downEntries, itemText_newItem, itemText, pickTemplate]

/-- Whatever the loop returns is its starting widget with entries appended, each
labelled by `itemText` and holding an `int`. -/
theorem setRangeLoop_shape (tr : String → Int → String) (reverse : Bool) (high step : Int) :
    ∀ (fuel : Nat) (value : Int) (s s' : MythUISpinBox), isInt value →
      setRangeLoop tr reverse high step fuel value s = some s' →
      ∃ l, s' = { s with m_itemList := s.m_itemList ++ l } ∧
        ∀ it ∈ l, it.text = itemText tr s it.data ∧ isInt it.data := by
  intro fuel
  induction fuel with
  | zero => intro value s s' _ h; simp [setRangeLoop] at h
  | succ f ih =>
    intro value s s' hv h
    rw [setRangeLoop] at h
    split at h
    · have hv1 : isInt (if reverse = true then wrapInt (value - step)
          else wrapInt (value + step)) := by
        split <;> exact wrapInt_isInt _
      obtain ⟨l, hl, hall⟩ := ih _ _ _ hv1 h
      refine ⟨⟨itemText tr s value, value⟩ :: l, ?_, ?_⟩
      · rw [hl]; simp [newItem]
      · intro it hit
        rcases List.mem_cons.mp hit with rfl | hmem
        · exact ⟨rfl, hv⟩
        · exact hall it hmem
    · refine ⟨[], ?_, by simp⟩
      cases h
      simp

theorem qAbs_eq_abs {v : Int} (hv : isInt v) (hmin : v ≠ INT_MIN) : qAbs v = |v| := by
  unfold isInt INT_MIN INT_MAX at *
  unfold qAbs
  split
  · rw [abs_of_nonneg (by omega)]
  · rw [wrapInt_eq_self (by unfold isInt INT_MIN INT_MAX; omega), abs_of_neg (by omega)]

theorem itemText_eq_labelByDesign (tr : String → Int → String) (s : MythUISpinBox) {v : Int}
    (hv : isInt v) (hmin : v ≠ INT_MIN) : itemText tr s v = labelByDesign tr s v := by
  unfold itemText labelByDesign pickTemplate
  rw [qAbs_eq_abs hv hmin]
  simp only [String.isEmpty_iff]
  by_cases ht : s.m_hasTemplate = true <;> by_cases h1 : v < 0 <;> by_cases h2 : v = 0 <;>
    by_cases hn : s.m_negativeTemplate = "" <;> by_cases hz : s.m_zeroTemplate = "" <;>
    by_cases hp : s.m_positiveTemplate = "" <;>
    simp [ht, h1, h2, hn, hz, hp]

theorem values_mk_up (tr : String → Int → String) (s t : MythUISpinBox) (low step : Int)
    (count : Nat) :
    values { t with m_itemList := upEntries tr s low step count } =
      (List.range count).map fun (k : Nat) => low + (k : Int) * step := by
  simp [values, upEntries, Function.comp_def]

theorem values_mk_down (tr : String → Int → String) (s t : MythUISpinBox) (low step : Int)
    (count : Nat) :
    values { t with m_itemList := downEntries tr s low step count } =
      (List.range count).map fun (k : Nat) => low - (k : Int) * step := by
  simp [values, downEntries, Function.comp_def]

/-- One turn of the ascending loop while `value <= high`. -/
theorem setRangeLoop_step_up (tr : String → Int → String) (high step : Int) (fuel : Nat)
    (value : Int) (s : MythUISpinBox) (h : value ≤ high) :
    setRangeLoop tr false high step (fuel + 1) value s =
      setRangeLoop tr false high step fuel (wrapInt (value + step))
        (s.newItem (itemText tr s value) value) := by
  simp [setRangeLoop, h]

/-- With `high = INT_MAX` the exit test `value <= high` of the ascending loop holds
for every `int`, so the loop never leaves. -/
theorem setRangeLoop_up_stuck (tr : String → Int → String) (step : Int) :
    ∀ (fuel : Nat) (value : Int) (s : MythUISpinBox), value ≤ INT_MAX →
      setRangeLoop tr false INT_MAX step fuel value s = none := by
  intro fuel
  induction fuel with
  | zero => intro value s _; rfl
  | succ f ih =>
    intro value s hv
    have h1 := (wrapInt_isInt (value + step)).2
    simp [setRangeLoop, hv, ih _ _ h1]

end MythUISpinBox

/-! ### Angle texts and the rotor position list -/

/-- `Char.toUpper`, which agrees with `QChar::toUpper` on the ASCII letters, gives `W`
exactly for the two cases of that letter. -/
theorem toUpper_eq_W (c : Char) : c.toUpper = 'W' ↔ c = 'W' ∨ c = 'w' := by
  constructor
  · intro h
    unfold Char.toUpper at h
    simp only at h
    split at h
    · rename_i hr
      right
      obtain ⟨n, hn⟩ : ∃ n, c.toNat = n := ⟨_, rfl⟩
      have hc : c = Char.ofNat n := by rw [← hn, Char.ofNat_toNat]
      rw [hn] at h hr
      obtain ⟨h1, h2⟩ := hr
      subst hc
      interval_cases n <;> first | rfl | exact absurd h (by decide)
    · left; exact h
  · rintro (rfl | rfl) <;> decide

/-- `AngleToFloat` on a text that ends in the character `c` after a non-empty `body`. -/
theorem AngleToFloat_concat {α : Type} [Zero α] [Neg α] (isLetter : Char → Bool)
    (toUpper : Char → Char) (west : Char) (toDouble : String → α)
    (body : List Char) (c : Char) (hbody : body ≠ []) :
    AngleToFloat isLetter toUpper west toDouble (String.mk (body ++ [c])) true =
      if isLetter c then
        (if toUpper c = west then -toDouble (String.mk body) else toDouble (String.mk body))
      else toDouble (String.mk (body ++ [c])) := by
  have hlen : ¬ (String.mk (body ++ [c])).length < 2 := by
    cases body with
    | nil => exact absurd rfl hbody
    | cons b bs => simp [String.length]
  unfold AngleToFloat
  rw [if_neg hlen]
  simp

/-- The row of position `i` (`1 ≤ i ≤ 63`) is row `i - 1` of a populated list. -/
theorem PopulateList_row {α : Type} [Zero α] [Neg α] [LE α] [DecidableRel (α := α) (· ≤ ·)]
    (number : α → String) (s : RotorPosMap α) (i : Nat) (h1 : 1 ≤ i) (h63 : i ≤ 63) :
    (RotorPosMap.PopulateList number s).selections.get? (i - 1) =
      some (RotorPosMap.row number s.m_posmap i) := by
  obtain ⟨j, rfl⟩ : ∃ j, i = j + 1 := ⟨i - 1, by omega⟩
  have hj : j < 63 := by omega
  simp [RotorPosMap.PopulateList, List.getElem?_range', hj, Nat.add_comm]

/-! ### LNB presets -/

/-- The entries of `lnb_presets` with a name are those at the indices 0 to 5. -/
theorem named_preset_index {i : Nat} {p : lnb_preset} (hp : lnb_presets.get? i = some p)
    (hname : p.name ≠ "") : i ≤ 5 := by
  by_contra hlt
  obtain ⟨j, rfl⟩ : ∃ j, i = j + 6 := ⟨i - 6, by omega⟩
  cases j with
  | zero =>
    simp [lnb_presets] at hp
    subst hp
    exact hname rfl
  | succ j => simp [lnb_presets] at hp

theorem UpdateType_type (s : LNBConfig) : (LNBConfig.UpdateType s).m_type = s.m_type := by
  unfold LNBConfig.UpdateType
  split
  · rfl
  · split <;> rfl

/-- Selecting the entry of kind `t` in the type selector. -/
theorem typeSetValue_type (s : LNBConfig) (t : dvbdev_lnb_t) :
    (LNBConfig.typeSetValue s (LNBTypeSetting.getValueIndex (QString.number t.toUInt))).m_type
      = { s.m_type with current := t.toUInt } := by
  have hidx : LNBTypeSetting.getValueIndex (QString.number t.toUInt) = some t.toUInt := by
    cases t <;> decide
  have hlt : t.toUInt < LNBTypeSetting.values.length := by cases t <;> decide
  simp [LNBConfig.typeSetValue, hidx, hlt, UpdateType_type]

/-- The kind read back from the type selector when it stands on the entry of `t`. -/
theorem type_of_selection (t : dvbdev_lnb_t) (en : Bool) :
    dvbdev_lnb_t.ofUInt (QString.toUInt
      (LNBTypeSetting.getValue { current := t.toUInt, enabled := en })) = some t := by
  cases t <;> cases en <;> decide

/-- The dialog after `SetPreset` with the index of a named preset. -/
theorem SetPreset_named_eq (i : Nat) (p : lnb_preset) (s : LNBConfig)
    (hp : lnb_presets.get? i = some p) (hname : p.name ≠ "") :
    LNBConfig.SetPreset (QString.number i) s =
      { m_type := { current := p.type.toUInt, enabled := false }
        m_lof_switch := { value := QString.number (p.lof_sw / 1000), enabled := false }
        m_lof_lo := { value := QString.number (p.lof_lo / 1000), enabled := false }
        m_lof_hi := { value := QString.number (p.lof_hi / 1000), enabled := false }
        m_pol_inv := { value := p.pol_inv, enabled := false } } := by
  have hi : i ≤ 5 := named_preset_index hp hname
  have hread : QString.toUInt (QString.number i) = i := QString.toUInt_number (by omega)
  have hlen : ¬ (i ≥ lnb_presets.length) := by simp [lnb_presets]; omega
  have hne : p.name.isEmpty = false := by
    rw [Bool.eq_false_iff, ne_eq, String.isEmpty_iff]; exact hname
  simp only [LNBConfig.SetPreset, hread, hlen, if_false, hp, hne, Bool.false_eq_true,
    typeSetValue_type]

/-! ## The claims about `MythUISpinBox::SetRange` -/

open MythUISpinBox

/-- C1 (as stated, refuted): with `low = 2147483646`, `high = 2147483647`, `step = 1`
the call never returns the list `[2147483646, 2147483647]` that the claim
prescribes: the increment past `INT_MAX` wraps and the loop goes on. -/
theorem C1_counterexample :
    ¬ ∃ (fuel : Nat) (s' : MythUISpinBox),
        SetRange qtTranslate fuel plainBox 2147483646 2147483647 1 = some s' ∧
        values s' = [2147483646, 2147483647] := by
  rintro ⟨fuel, s', h, -⟩
  have hs := setRangeLoop_up_stuck qtTranslate 1 fuel 2147483646 plainBox.Reset
    (by unfold INT_MAX; omega)
  simp [SetRange, INT_MAX] at h hs
  rw [hs] at h
  cases h

/-- C1 (amended): for `int` bounds `low ≠ high` and a step `> 0` such that the first
value past `high` is still an `int`, `SetRange` returns (given enough fuel) and the
stored values of the new list are exactly `low + k*step`, `k = 0..(high-low)/step`,
when `low < high`, and `low - k*step`, `k = 0..(low-high)/step`, when `low > high`. -/
theorem C1_SetRange_values (tr : String → Int → String) (s : MythUISpinBox)
    (low high step : Int) (fuel : Nat)
    (hlow : isInt low) (hne : low ≠ high) (hstep : 0 < step)
    (hup : low < high → low + ((high - low) / step + 1) * step ≤ INT_MAX)
    (hdown : high < low → INT_MIN ≤ low - ((low - high) / step + 1) * step)
    (hfuel : (|high - low| / step).toNat + 2 ≤ fuel) :
    ∃ s', SetRange tr fuel s low high step = some s' ∧
      values s' =
        if low < high then
          (List.range (((high - low) / step).toNat + 1)).map fun (k : Nat) => low + (k : Int) * step
        else
          (List.range (((low - high) / step).toNat + 1)).map fun (k : Nat) => low - (k : Int) * step := by
  have hs0 : step ≠ 0 := by omega
  rcases lt_or_gt_of_ne hne with hlt | hgt
  · have hq : 0 ≤ (high - low) / step := Int.ediv_nonneg (by omega) (by omega)
    have hn : (((high - low) / step).toNat : Int) = (high - low) / step := Int.toNat_of_nonneg hq
    have h1 := Int.ediv_mul_le (high - low) hs0
    have h2 := Int.lt_ediv_add_one_mul_self (high - low) hstep
    have habs : |high - low| = high - low := abs_of_nonneg (by omega)
    rw [habs] at hfuel
    have hloop := setRangeLoop_up tr high step hstep ((high - low) / step).toNat low s.Reset fuel
      hlow.1 (by rw [hn]; omega) (by rw [hn]; omega) (by rw [hn]; exact hup hlt) hfuel
    have hset : SetRange tr fuel s low high step =
        setRangeLoop tr false high step fuel low s.Reset := by
      simp [SetRange, hne.symm, hs0, not_lt.mpr hlt.le]
    refine ⟨_, hset.trans hloop, ?_⟩
    · rw [if_pos hlt]
      simp only [Reset, List.nil_append]
      exact values_mk_up tr _ _ low step _
  · have hq : 0 ≤ (low - high) / step := Int.ediv_nonneg (by omega) (by omega)
    have hn : (((low - high) / step).toNat : Int) = (low - high) / step := Int.toNat_of_nonneg hq
    have h1 := Int.ediv_mul_le (low - high) hs0
    have h2 := Int.lt_ediv_add_one_mul_self (low - high) hstep
    have habs : |high - low| = low - high := by rw [abs_of_neg (by omega)]; ring
    rw [habs] at hfuel
    have hloop := setRangeLoop_down tr high step hstep ((low - high) / step).toNat low s.Reset
      fuel hlow.2 (by rw [hn]; omega) (by rw [hn]; omega) (by rw [hn]; exact hdown hgt) hfuel
    have hset : SetRange tr fuel s low high step =
        setRangeLoop tr true high step fuel low s.Reset := by
      simp [SetRange, hne.symm, hs0, hgt]
    refine ⟨_, hset.trans hloop, ?_⟩
    · rw [if_neg (by omega)]
      simp only [Reset, List.nil_append]
      exact values_mk_down tr _ _ low step _

/-- C1 (witness): the two ranges of the specification, `(0, 10, 2)` and `(5, 0, 1)`. -/
theorem C1_SetRange_values_witness :
    (∃ s', SetRange qtTranslate 7 plainBox 0 10 2 = some s' ∧
      values s' = [0, 2, 4, 6, 8, 10]) ∧
    (∃ s', SetRange qtTranslate 7 plainBox 5 0 1 = some s' ∧
      values s' = [5, 4, 3, 2, 1, 0]) := by
  constructor
  · obtain ⟨s', h, hv⟩ := C1_SetRange_values qtTranslate plainBox 0 10 2 7 (by decide)
      (by decide) (by decide) (by decide) (by decide) (by decide)
    exact ⟨s', h, hv.trans (by decide)⟩
  · obtain ⟨s', h, hv⟩ := C1_SetRange_values qtTranslate plainBox 5 0 1 7 (by decide)
      (by decide) (by decide) (by decide) (by decide) (by decide)
    exact ⟨s', h, hv.trans (by decide)⟩

/-- C2 (the code at the failing input): with `low = 0`, `high = 1`, `step = -1` no
run of `SetRange` returns a list whose values all lie between `low` and `high`; the
second entry created is already `-1`. -/
theorem C2_negative_step_leaves_range :
    ¬ ∃ (fuel : Nat) (s' : MythUISpinBox),
        SetRange qtTranslate fuel plainBox 0 1 (-1) = some s' ∧
        ∀ v ∈ values s', 0 ≤ v ∧ v ≤ 1 := by
  rintro ⟨fuel, s', h, hall⟩
  match fuel, h with
  | 0, h => simp [SetRange, setRangeLoop] at h
  | 1, h => simp [SetRange, setRangeLoop] at h
  | f + 2, h =>
    have hw : wrapInt (0 + -1) = -1 := by decide
    have hstart : SetRange qtTranslate (f + 2) plainBox 0 1 (-1) =
        setRangeLoop qtTranslate false 1 (-1) (f + 2) 0 plainBox.Reset := by
      simp [SetRange]
    rw [hstart, setRangeLoop_step_up qtTranslate 1 (-1) (f + 1) 0 _ (by decide),
      setRangeLoop_step_up qtTranslate 1 (-1) f _ _ (by decide), hw] at h
    obtain ⟨l, hl, -⟩ := setRangeLoop_shape qtTranslate false 1 (-1) f _ _ s'
      (wrapInt_isInt _) h
    have hmem : (-1 : Int) ∈ values s' := by
      rw [hl]
      simp [values, newItem, Reset, plainBox]
    have := hall (-1) hmem
    omega

/-- C3: when `step = 0` or `low = high`, `SetRange` returns at once, whatever the
fuel, and the widget (its list included) is exactly as before the call. -/
theorem C3_SetRange_noop (tr : String → Int → String) (fuel : Nat) (s : MythUISpinBox)
    (low high step : Int) (h : step = 0 ∨ low = high) :
    SetRange tr fuel s low high step = some s := by
  have h' : high = low ∨ step = 0 := by
    rcases h with h | h
    · exact Or.inr h
    · exact Or.inl h.symm
  simp [SetRange, h']

/-- C3 (witness): `SetRange(3, 9, 0)` on a box holding one entry keeps that entry. -/
theorem C3_SetRange_noop_witness :
    ((0 : Int) = 0 ∨ (3 : Int) = 9) ∧
      SetRange qtTranslate 0 plainBox 3 9 0 = some plainBox ∧
      plainBox.m_itemList = [⟨"old", 42⟩] :=
  ⟨Or.inl rfl, C3_SetRange_noop qtTranslate 0 plainBox 3 9 0 (Or.inl rfl), rfl⟩

/-- C4 (as stated, refuted): in a box whose theme sets only the positive template,
`SetRange(-1, 1, 1)` labels the entry `-1` with the positive template (`"1 min"`),
not with the plain number the claim prescribes for a sign without template. -/
theorem C4_counterexample :
    ∃ (s' : MythUISpinBox) (it : MythUIButtonListItem),
      SetRange qtTranslate 4 themedBox (-1) 1 1 = some s' ∧ it ∈ s'.m_itemList ∧
      it.text = "1 min" ∧ labelAsClaimed qtTranslate themedBox it.data = "-1" ∧
      it.text ≠ labelAsClaimed qtTranslate themedBox it.data :=
  ⟨{ themedBox with m_itemList := [⟨"1 min", -1⟩, ⟨"0 min", 0⟩, ⟨"1 min", 1⟩] },
    ⟨"1 min", -1⟩, by decide, by decide, by decide, by decide, by decide⟩

/-- C4 (amended): every entry that `SetRange` creates (for `low ≠ high`, `step ≠ 0`)
with a value `v` other than `INT_MIN` is labelled as follows: the template is the one
of the sign of `v` when that is non-empty and the positive template otherwise; when
templates are in use, the template is non-empty and its instantiation with `|v|` is
non-empty, the label is that instantiation; otherwise it is the decimal number `v`. -/
theorem C4_SetRange_labels (tr : String → Int → String) (fuel : Nat) (s s' : MythUISpinBox)
    (low high step : Int) (hlow : isInt low) (hne : low ≠ high) (hstep : step ≠ 0)
    (h : SetRange tr fuel s low high step = some s') :
    ∀ it ∈ s'.m_itemList, it.data ≠ INT_MIN → it.text = labelByDesign tr s it.data := by
  have hset : SetRange tr fuel s low high step =
      setRangeLoop tr (decide (low > high)) high step fuel low s.Reset := by
    simp [SetRange, hne.symm, hstep]
  rw [hset] at h
  obtain ⟨l, hl, hall⟩ := setRangeLoop_shape tr _ high step fuel low _ s' hlow h
  intro it hit hmin
  rw [hl] at hit
  simp only [Reset, List.nil_append] at hit
  obtain ⟨htext, hint⟩ := hall it hit
  rw [htext, itemText_eq_labelByDesign tr _ hint hmin]
  rfl

/-- C4 (witness): the themed box over `-1..1`; every label comes from the positive
template, the only one set. -/
theorem C4_SetRange_labels_witness :
    isInt (-1) ∧ (-1 : Int) ≠ 1 ∧ (1 : Int) ≠ 0 ∧
      SetRange qtTranslate 4 themedBox (-1) 1 1 =
        some { themedBox with m_itemList := [⟨"1 min", -1⟩, ⟨"0 min", 0⟩, ⟨"1 min", 1⟩] } ∧
      ∀ it ∈ [(⟨"1 min", -1⟩ : MythUIButtonListItem), ⟨"0 min", 0⟩, ⟨"1 min", 1⟩],
        it.data ≠ INT_MIN → it.text = labelByDesign qtTranslate themedBox it.data :=
  ⟨by decide, by decide, by decide, by decide,
    C4_SetRange_labels qtTranslate 4 themedBox
      { themedBox with m_itemList := [⟨"1 min", -1⟩, ⟨"0 min", 0⟩, ⟨"1 min", 1⟩] }
      (-1) 1 1 (by decide) (by decide) (by decide) (by decide)⟩

/-! ## The claims about the DiSEqC settings dialogs -/

/-- C5 (as stated, refuted): `4294968` is an unsigned 32-bit MHz value, yet saving the
text `4294968` stores `704` kHz in each of the three LOF fields (the product by 1000
wraps), and the following `Load` displays `0`. -/
theorem C5_counterexample :
    (4294968 : Nat) < 4294967296 ∧
    (LNBLOFSwitchSetting.Save ⟨QString.number 4294968, true⟩ someLNB).m_lof_switch = 704 ∧
    (LNBLOFLowSetting.Save ⟨QString.number 4294968, true⟩ someLNB).m_lof_lo = 704 ∧
    (LNBLOFHighSetting.Save ⟨QString.number 4294968, true⟩ someLNB).m_lof_hi = 704 ∧
    (LNBLOFLowSetting.Load (LNBLOFLowSetting.Save ⟨QString.number 4294968, true⟩ someLNB)
      ⟨QString.number 4294968, true⟩).value = "0" ∧
    uintMul 4294968 1000 / 1000 ≠ 4294968 := by
  decide

/-- C5 (amended): for every MHz value `v ≤ 4294967` (so that `v * 1000` fits an `uint`)
each of the three LOF fields showing the text of `v` saves `v * 1000` kHz, and the
following `Load` displays the text of `v` again. -/
theorem C5_LOF_roundtrip (v : Nat) (hv : v ≤ 4294967) (lnb : DiSEqCDevLNB)
    (w : LineEditSetting) :
    (LNBLOFSwitchSetting.Save { w with value := QString.number v } lnb).m_lof_switch
        = v * 1000 ∧
    (LNBLOFSwitchSetting.Load
        (LNBLOFSwitchSetting.Save { w with value := QString.number v } lnb) w).value
        = QString.number v ∧
    (LNBLOFLowSetting.Save { w with value := QString.number v } lnb).m_lof_lo = v * 1000 ∧
    (LNBLOFLowSetting.Load
        (LNBLOFLowSetting.Save { w with value := QString.number v } lnb) w).value
        = QString.number v ∧
    (LNBLOFHighSetting.Save { w with value := QString.number v } lnb).m_lof_hi = v * 1000 ∧
    (LNBLOFHighSetting.Load
        (LNBLOFHighSetting.Save { w with value := QString.number v } lnb) w).value
        = QString.number v := by
  have hread : QString.toUInt (QString.number v) = v := QString.toUInt_number (by omega)
  have hmul : uintMul v 1000 = v * 1000 := by
    unfold uintMul
    exact Nat.mod_eq_of_lt (by omega)
  have hdiv : v * 1000 / 1000 = v := by omega
  simp [LNBLOFSwitchSetting.Save, LNBLOFSwitchSetting.Load, LNBLOFLowSetting.Save,
    LNBLOFLowSetting.Load, LNBLOFHighSetting.Save, LNBLOFHighSetting.Load, hread, hmul, hdiv]

/-- C5 (witness): 5150 MHz, the C band offset, in the three fields. -/
theorem C5_LOF_roundtrip_witness :
    (5150 : Nat) ≤ 4294967 ∧
    (LNBLOFLowSetting.Save { (⟨"", true⟩ : LineEditSetting) with value := QString.number 5150 }
        someLNB).m_lof_lo = 5150 * 1000 ∧
    (LNBLOFLowSetting.Load
        (LNBLOFLowSetting.Save
          { (⟨"", true⟩ : LineEditSetting) with value := QString.number 5150 } someLNB)
        ⟨"", true⟩).value = QString.number 5150 :=
  ⟨by decide,
    (C5_LOF_roundtrip 5150 (by decide) someLNB ⟨"", true⟩).2.2.1,
    (C5_LOF_roundtrip 5150 (by decide) someLNB ⟨"", true⟩).2.2.2.1⟩

/-- C7 (as stated, refuted): the single digit `5` is a number with no trailing
letter, yet `AngleToFloat` answers `0` for it, not `5`, whatever `QChar::isLetter`,
`QChar::toUpper` and the translation of the hemisphere letter are. -/
theorem C7_counterexample :
    decimalToDouble "5" = 5 ∧
    ∀ (isLetter : Char → Bool) (toUpper : Char → Char) (west : Char),
      AngleToFloat isLetter toUpper west decimalToDouble "5" true = 0 :=
  ⟨by decide, fun _ _ _ => rfl⟩

/-- C7 (amended): every text shorter than two characters (a single digit included)
yields `0`. For a text of at least two characters, `body` followed by `c`, the trailing
letter is optional: if `c` is no letter (`QChar::isLetter`) the whole text is
converted; if `c` is a letter the text before it is converted, and it is negated
exactly when the upper case of `c` (`QChar::toUpper`) is the first character of the
translation of `W`. With `W` as that character, `W` and `w` letters and the only
characters whose upper case is `W`: a trailing `W` or `w` gives the negated number and
any other trailing letter gives the number not negated. -/
theorem C7_AngleToFloat_letter {α : Type} [Zero α] [Neg α] (isLetter : Char → Bool)
    (toUpper : Char → Char) (west : Char) (toDouble : String → α)
    (body : List Char) (c : Char) (hbody : body ≠ []) :
    (∀ t : String, t.length < 2 → AngleToFloat isLetter toUpper west toDouble t true = 0) ∧
    (isLetter c = false →
      AngleToFloat isLetter toUpper west toDouble (String.mk (body ++ [c])) true
        = toDouble (String.mk (body ++ [c]))) ∧
    (isLetter c = true → toUpper c = west →
      AngleToFloat isLetter toUpper west toDouble (String.mk (body ++ [c])) true
        = -toDouble (String.mk body)) ∧
    (isLetter c = true → toUpper c ≠ west →
      AngleToFloat isLetter toUpper west toDouble (String.mk (body ++ [c])) true
        = toDouble (String.mk body)) ∧
    (west = 'W' → isLetter 'W' = true → isLetter 'w' = true →
      (∀ x, toUpper x = 'W' ↔ x = 'W' ∨ x = 'w') →
      (c = 'W' ∨ c = 'w' →
        AngleToFloat isLetter toUpper west toDouble (String.mk (body ++ [c])) true
          = -toDouble (String.mk body)) ∧
      (isLetter c = true → c ≠ 'W' → c ≠ 'w' →
        AngleToFloat isLetter toUpper west toDouble (String.mk (body ++ [c])) true
          = toDouble (String.mk body))) := by
  have hyes : isLetter c = true → toUpper c = west →
      AngleToFloat isLetter toUpper west toDouble (String.mk (body ++ [c])) true
        = -toDouble (String.mk body) := by
    intro hal hup
    rw [AngleToFloat_concat isLetter toUpper west toDouble body c hbody]
    simp [hup, hal]
  have hno : isLetter c = true → toUpper c ≠ west →
      AngleToFloat isLetter toUpper west toDouble (String.mk (body ++ [c])) true
        = toDouble (String.mk body) := by
    intro hal hup
    rw [AngleToFloat_concat isLetter toUpper west toDouble body c hbody]
    simp [hup, hal]
  refine ⟨?_, ?_, hyes, hno, ?_⟩
  · intro t ht
    simp [AngleToFloat, ht]
  · intro hc
    rw [AngleToFloat_concat isLetter toUpper west toDouble body c hbody]
    simp [hc]
  · intro hwest hW hw hupper
    refine ⟨fun hc => hyes ?_ ?_, fun hal h1 h2 => hno hal ?_⟩
    · rcases hc with rfl | rfl
      · exact hW
      · exact hw
    · rw [hwest]
      exact (hupper c).mpr hc
    · rw [hwest]
      intro h
      rcases (hupper c).mp h with h | h
      · exact h1 h
      · exact h2 h

/-- C7 (witness): with the ASCII letters and `W` untranslated, `15w` is 15 degrees
West, `15` and `15E` are 15 degrees East, and the one-character text `7` gives 0. -/
theorem C7_AngleToFloat_letter_witness :
    ['1', '5'] ≠ [] ∧ ['1'] ≠ [] ∧
    Char.isAlpha 'W' = true ∧ Char.isAlpha 'w' = true ∧ Char.isAlpha 'E' = true ∧
    Char.isAlpha '5' = false ∧
    AngleToFloat Char.isAlpha Char.toUpper 'W' decimalToDouble "15w" true = -15 ∧
    AngleToFloat Char.isAlpha Char.toUpper 'W' decimalToDouble "15" true = 15 ∧
    AngleToFloat Char.isAlpha Char.toUpper 'W' decimalToDouble "15E" true = 15 ∧
    AngleToFloat Char.isAlpha Char.toUpper 'W' decimalToDouble "7" true = 0 :=
  ⟨by decide, by decide, by decide, by decide, by decide, by decide,
    ((C7_AngleToFloat_letter Char.isAlpha Char.toUpper 'W' decimalToDouble ['1', '5'] 'w'
      (by decide)).2.2.2.2 rfl (by decide) (by decide) toUpper_eq_W).1 (Or.inr rfl),
    (C7_AngleToFloat_letter Char.isAlpha Char.toUpper 'W' decimalToDouble ['1'] '5'
      (by decide)).2.1 (by decide),
    ((C7_AngleToFloat_letter Char.isAlpha Char.toUpper 'W' decimalToDouble ['1', '5'] 'E'
      (by decide)).2.2.2.2 rfl (by decide) (by decide) toUpper_eq_W).2
      (by decide) (by decide) (by decide),
    (C7_AngleToFloat_letter Char.isAlpha Char.toUpper 'W' decimalToDouble ['1', '5'] 'w'
      (by decide)).1 "7" (by decide)⟩

/-- C8: with the row of index `i` (`1 ≤ i ≤ 63`) selected, `RotorPosMap::del` leaves a
map without key `i` in which every other key has the angle it had (the same map if
`i` had no entry); in the re-populated list the row of `i` reads "None" and every
other row is what re-populating the old map gives. -/
theorem C8_del_removes_only_selected {α : Type} [Zero α] [Neg α] [LE α]
    [DecidableRel (α := α) (· ≤ ·)] (number : α → String) (s : RotorPosMap α) (i : Nat)
    (h1 : 1 ≤ i) (h63 : i ≤ 63) (hsel : s.getValue = QString.number i) :
    (RotorPosMap.del number s).m_posmap i = none ∧
    (∀ k, k ≠ i → (RotorPosMap.del number s).m_posmap k = s.m_posmap k) ∧
    (s.m_posmap i = none → (RotorPosMap.del number s).m_posmap = s.m_posmap) ∧
    (RotorPosMap.del number s).selections.get? (i - 1) =
      some ("Position #" ++ QString.number i ++ " (None)", QString.number i) ∧
    (∀ k, 1 ≤ k → k ≤ 63 → k ≠ i →
      (RotorPosMap.del number s).selections.get? (k - 1) =
        (RotorPosMap.PopulateList number s).selections.get? (k - 1)) := by
  have hid : QString.toUInt s.getValue = i := by
    rw [hsel]; exact QString.toUInt_number (by omega)
  have hmap : (RotorPosMap.del number s).m_posmap = RotorPosMap.erase s.m_posmap i := by
    simp [RotorPosMap.del, RotorPosMap.PopulateList, hid]
  have hdel : RotorPosMap.del number s =
      RotorPosMap.PopulateList number { s with m_posmap := RotorPosMap.erase s.m_posmap i } := by
    simp [RotorPosMap.del, hid]
  refine ⟨?_, ?_, ?_, ?_, ?_⟩
  · rw [hmap]; simp [RotorPosMap.erase]
  · intro k hk
    rw [hmap]; simp [RotorPosMap.erase, hk]
  · intro hnone
    rw [hmap]
    funext k
    by_cases hk : k = i
    · simp [RotorPosMap.erase, hk, hnone]
    · simp [RotorPosMap.erase, hk]
  · rw [hdel, PopulateList_row number _ i h1 h63]
    simp only [RotorPosMap.row, RotorPosMap.erase, tr, if_true, String.append_assoc]
    rfl
  · intro k hk1 hk63 hki
    rw [hdel, PopulateList_row number _ k hk1 hk63, PopulateList_row number _ k hk1 hk63]
    simp [RotorPosMap.row, RotorPosMap.erase, hki]

/-- C8 (witness): deleting position 5 from a map with entries at 5 and 7. -/
theorem C8_del_removes_only_selected_witness :
    1 ≤ 5 ∧ 5 ≤ 63 ∧ someRotorList.getValue = QString.number 5 ∧
    someRotorList.m_posmap 5 = some 13 ∧
    (RotorPosMap.del degreesText someRotorList).m_posmap 5 = none ∧
    (RotorPosMap.del degreesText someRotorList).m_posmap 7 = some (-30) ∧
    (RotorPosMap.del degreesText someRotorList).selections.get? (5 - 1) =
      some ("Position #" ++ QString.number 5 ++ " (None)", QString.number 5) :=
  ⟨by decide, by decide, by decide, by decide,
    (C8_del_removes_only_selected degreesText someRotorList 5 (by decide) (by decide)
      (by decide)).1,
    ((C8_del_removes_only_selected degreesText someRotorList 5 (by decide) (by decide)
      (by decide)).2.1 7 (by decide)).trans (by decide),
    (C8_del_removes_only_selected degreesText someRotorList 5 (by decide) (by decide)
      (by decide)).2.2.2.1⟩

/-- C9: for every named preset (index `i` in 0..5 of `lnb_presets`), `SetPreset(i)`
leaves the type selector on the preset's type, the three LOF fields on the preset's
kHz values divided by 1000, the polarity box on the preset's flag, and the type
selector and all four advanced fields disabled. -/
theorem C9_SetPreset_named (i : Nat) (p : lnb_preset) (s : LNBConfig)
    (hp : lnb_presets.get? i = some p) (hname : p.name ≠ "") :
    i ≤ 5 ∧
    dvbdev_lnb_t.ofUInt (QString.toUInt
      (LNBTypeSetting.getValue (LNBConfig.SetPreset (QString.number i) s).m_type))
        = some p.type ∧
    (LNBConfig.SetPreset (QString.number i) s).m_lof_switch.value
        = QString.number (p.lof_sw / 1000) ∧
    (LNBConfig.SetPreset (QString.number i) s).m_lof_lo.value
        = QString.number (p.lof_lo / 1000) ∧
    (LNBConfig.SetPreset (QString.number i) s).m_lof_hi.value
        = QString.number (p.lof_hi / 1000) ∧
    (LNBConfig.SetPreset (QString.number i) s).m_pol_inv.value = p.pol_inv ∧
    (LNBConfig.SetPreset (QString.number i) s).m_type.enabled = false ∧
    (LNBConfig.SetPreset (QString.number i) s).m_lof_switch.enabled = false ∧
    (LNBConfig.SetPreset (QString.number i) s).m_lof_lo.enabled = false ∧
    (LNBConfig.SetPreset (QString.number i) s).m_lof_hi.enabled = false ∧
    (LNBConfig.SetPreset (QString.number i) s).m_pol_inv.enabled = false := by
  rw [SetPreset_named_eq i p s hp hname]
  exact ⟨named_preset_index hp hname, type_of_selection p.type _, rfl, rfl, rfl, rfl, rfl,
    rfl, rfl, rfl, rfl⟩

/-- C9 (witness): "C Band" is preset 4; it gives kind voltage-control and LOF low
`5150`, everything disabled. -/
theorem C9_SetPreset_named_witness :
    lnb_presets.get? 4 = some ⟨"C Band", .kTypeVoltageControl, 0, 5150000, 0, false⟩ ∧
    ("C Band" : String) ≠ "" ∧
    dvbdev_lnb_t.ofUInt (QString.toUInt
      (LNBTypeSetting.getValue (LNBConfig.SetPreset (QString.number 4) someDialog).m_type))
        = some .kTypeVoltageControl ∧
    (LNBConfig.SetPreset (QString.number 4) someDialog).m_lof_lo.value
        = QString.number (5150000 / 1000) ∧
    QString.number (5150000 / 1000) = "5150" ∧
    (LNBConfig.SetPreset (QString.number 4) someDialog).m_lof_switch.enabled = false :=
  ⟨by decide, by decide,
    (C9_SetPreset_named 4 ⟨"C Band", .kTypeVoltageControl, 0, 5150000, 0, false⟩ someDialog
      (by decide) (by decide)).2.1,
    (C9_SetPreset_named 4 ⟨"C Band", .kTypeVoltageControl, 0, 5150000, 0, false⟩ someDialog
      (by decide) (by decide)).2.2.2.1,
    by decide,
    (C9_SetPreset_named 4 ⟨"C Band", .kTypeVoltageControl, 0, 5150000, 0, false⟩ someDialog
      (by decide) (by decide)).2.2.2.2.2.2.2.1⟩

/-- C10 (as stated, refuted): after "C Band" (preset 4) and then "Custom" (entry 6,
the one with the empty name), LOF switch and LOF high are still disabled. -/
theorem C10_counterexample :
    (lnb_presets.get? 4).map (·.name) = some "C Band" ∧
    (lnb_presets.get? 6).map (·.name) = some "" ∧
    (LNBConfig.SetPreset "6" (LNBConfig.SetPreset "4" someDialog)).m_lof_switch.enabled
      = false ∧
    (LNBConfig.SetPreset "6" (LNBConfig.SetPreset "4" someDialog)).m_lof_hi.enabled
      = false := by
  decide

/-- C10 (amended): after a named preset `p` has been applied, selecting "Custom"
(index 6) enables the type selector again and gives the advanced fields the enabled
state that `UpdateType` prescribes for the kind of `p`: LOF low and polarity are
enabled; LOF high is enabled exactly for voltage-and-tone and bandstacked; LOF switch
is enabled exactly for voltage-and-tone. -/
theorem C10_Custom_after_preset (i : Nat) (p : lnb_preset) (s : LNBConfig)
    (hp : lnb_presets.get? i = some p) (hname : p.name ≠ "") :
    (LNBConfig.SetPreset (QString.number 6)
      (LNBConfig.SetPreset (QString.number i) s)).m_type.enabled = true ∧
    (LNBConfig.SetPreset (QString.number 6)
      (LNBConfig.SetPreset (QString.number i) s)).m_lof_lo.enabled = true ∧
    (LNBConfig.SetPreset (QString.number 6)
      (LNBConfig.SetPreset (QString.number i) s)).m_pol_inv.enabled = true ∧
    ((LNBConfig.SetPreset (QString.number 6)
      (LNBConfig.SetPreset (QString.number i) s)).m_lof_hi.enabled = true ↔
        p.type = .kTypeVoltageAndToneControl ∨ p.type = .kTypeBandstacked) ∧
    ((LNBConfig.SetPreset (QString.number 6)
      (LNBConfig.SetPreset (QString.number i) s)).m_lof_switch.enabled = true ↔
        p.type = .kTypeVoltageAndToneControl) := by
  rw [SetPreset_named_eq i p s hp hname]
  have hread : QString.toUInt (QString.number 6) = 6 := by decide
  have h6 : lnb_presets.get? 6 = some ⟨"", .kTypeVoltageControl, 0, 0, 0, false⟩ := by decide
  have hlen : ¬ (6 ≥ lnb_presets.length) := by decide
  have hemp : ("" : String).isEmpty = true := by decide
  simp only [LNBConfig.SetPreset, hread, hlen, if_false, h6, hemp, if_true,
    LNBConfig.UpdateType, not_true_eq_false, type_of_selection]
  cases h : p.type <;> simp

/-- C10 (witness): "Universal (Europe)" (voltage-and-tone) then "Custom" enables all
four advanced fields; this is the one kind for which that happens. -/
theorem C10_Custom_after_preset_witness :
    lnb_presets.get? 0 = some ⟨"Universal (Europe)", .kTypeVoltageAndToneControl,
      11700000, 9750000, 10600000, false⟩ ∧
    ("Universal (Europe)" : String) ≠ "" ∧
    (LNBConfig.SetPreset (QString.number 6)
      (LNBConfig.SetPreset (QString.number 0) someDialog)).m_lof_lo.enabled = true ∧
    (LNBConfig.SetPreset (QString.number 6)
      (LNBConfig.SetPreset (QString.number 0) someDialog)).m_lof_switch.enabled = true :=
  ⟨by decide, by decide,
    (C10_Custom_after_preset 0 ⟨"Universal (Europe)", .kTypeVoltageAndToneControl,
      11700000, 9750000, 10600000, false⟩ someDialog (by decide) (by decide)).2.1,
    (C10_Custom_after_preset 0 ⟨"Universal (Europe)", .kTypeVoltageAndToneControl,
      11700000, 9750000, 10600000, false⟩ someDialog (by decide) (by decide)).2.2.2.2.mpr rfl⟩

/-- Whatever the type selector stands on is read as one of the four kinds (an index
outside the list reads as the empty text, hence as kind 0). -/
theorem selector_has_kind (w : ComboBoxSetting) :
    ∃ t, dvbdev_lnb_t.ofUInt (QString.toUInt (LNBTypeSetting.getValue w)) = some t := by
  obtain ⟨c, e⟩ := w
  have hval : LNBTypeSetting.getValue ⟨c, e⟩ = LNBTypeSetting.values.getD c "" := rfl
  rw [hval]
  match c with
  | 0 => exact ⟨.kTypeFixed, by decide⟩
  | 1 => exact ⟨.kTypeVoltageControl, by decide⟩
  | 2 => exact ⟨.kTypeVoltageAndToneControl, by decide⟩
  | 3 => exact ⟨.kTypeBandstacked, by decide⟩
  | n + 4 =>
    refine ⟨.kTypeFixed, ?_⟩
    have : LNBTypeSetting.values.getD (n + 4) "" = "" := by
      simp [LNBTypeSetting.values]
    rw [this]
    decide

/-- `UpdateType` writes enabled flags only: every displayed value stays. -/
theorem UpdateType_values (s : LNBConfig) :
    (LNBConfig.UpdateType s).m_type.current = s.m_type.current ∧
    (LNBConfig.UpdateType s).m_lof_switch.value = s.m_lof_switch.value ∧
    (LNBConfig.UpdateType s).m_lof_lo.value = s.m_lof_lo.value ∧
    (LNBConfig.UpdateType s).m_lof_hi.value = s.m_lof_hi.value ∧
    (LNBConfig.UpdateType s).m_pol_inv.value = s.m_pol_inv.value := by
  unfold LNBConfig.UpdateType
  split
  · exact ⟨rfl, rfl, rfl, rfl, rfl⟩
  · split <;> exact ⟨rfl, rfl, rfl, rfl, rfl⟩

/-- `UpdateType` with the type selector enabled and standing on kind `t`. -/
theorem UpdateType_enabled_eq (s : LNBConfig) (t : dvbdev_lnb_t)
    (hen : s.m_type.enabled = true)
    (hk : dvbdev_lnb_t.ofUInt (QString.toUInt (LNBTypeSetting.getValue s.m_type)) = some t) :
    LNBConfig.UpdateType s =
      { s with
        m_lof_switch := { s.m_lof_switch with
          enabled := decide (t = .kTypeVoltageAndToneControl) }
        m_lof_hi := { s.m_lof_hi with
          enabled := decide (t = .kTypeVoltageAndToneControl ∨ t = .kTypeBandstacked) }
        m_lof_lo := { s.m_lof_lo with enabled := true }
        m_pol_inv := { s.m_pol_inv with enabled := true } } := by
  unfold LNBConfig.UpdateType
  rw [hk]
  cases t <;> simp [hen]

/-- C11: `SetPreset` with the "Custom" index (6, the entry with the empty name)
changes no value in any dialog state: the selection of the type selector, the texts
of LOF switch, LOF low and LOF high and the state of the polarity box are as before. -/
theorem C11_Custom_keeps_values (s : LNBConfig) :
    (lnb_presets.get? 6).map (·.name) = some "" ∧
    (LNBConfig.SetPreset (QString.number 6) s).m_type.current = s.m_type.current ∧
    (LNBConfig.SetPreset (QString.number 6) s).m_lof_switch.value = s.m_lof_switch.value ∧
    (LNBConfig.SetPreset (QString.number 6) s).m_lof_lo.value = s.m_lof_lo.value ∧
    (LNBConfig.SetPreset (QString.number 6) s).m_lof_hi.value = s.m_lof_hi.value ∧
    (LNBConfig.SetPreset (QString.number 6) s).m_pol_inv.value = s.m_pol_inv.value := by
  have hread : QString.toUInt (QString.number 6) = 6 := by decide
  have h6 : lnb_presets.get? 6 = some ⟨"", .kTypeVoltageControl, 0, 0, 0, false⟩ := by decide
  have hlen : ¬ (6 ≥ lnb_presets.length) := by decide
  have hemp : ("" : String).isEmpty = true := by decide
  have hset : LNBConfig.SetPreset (QString.number 6) s =
      LNBConfig.UpdateType { s with m_type := { s.m_type with enabled := true } } := by
    simp only [LNBConfig.SetPreset, hread, hlen, if_false, h6, hemp, if_true]
  rw [hset]
  exact ⟨by decide, UpdateType_values _⟩

/-- C12: with the type selector enabled, `UpdateType` sets the enabled flags from the
kind alone: fixed and voltage-control disable LOF switch and LOF high and enable LOF
low; voltage-and-tone enables all three; bandstacked disables only LOF switch;
polarity is enabled for every kind. -/
theorem C12_UpdateType_by_kind (s : LNBConfig) (t : dvbdev_lnb_t)
    (hen : s.m_type.enabled = true)
    (hk : dvbdev_lnb_t.ofUInt (QString.toUInt (LNBTypeSetting.getValue s.m_type)) = some t) :
    (t = .kTypeFixed ∨ t = .kTypeVoltageControl →
      (LNBConfig.UpdateType s).m_lof_switch.enabled = false ∧
      (LNBConfig.UpdateType s).m_lof_hi.enabled = false ∧
      (LNBConfig.UpdateType s).m_lof_lo.enabled = true) ∧
    (t = .kTypeVoltageAndToneControl →
      (LNBConfig.UpdateType s).m_lof_switch.enabled = true ∧
      (LNBConfig.UpdateType s).m_lof_hi.enabled = true ∧
      (LNBConfig.UpdateType s).m_lof_lo.enabled = true) ∧
    (t = .kTypeBandstacked →
      (LNBConfig.UpdateType s).m_lof_switch.enabled = false ∧
      (LNBConfig.UpdateType s).m_lof_hi.enabled = true ∧
      (LNBConfig.UpdateType s).m_lof_lo.enabled = true) ∧
    (LNBConfig.UpdateType s).m_pol_inv.enabled = true := by
  rw [UpdateType_enabled_eq s t hen hk]
  cases t <;> simp

/-- C12 (witness): a dialog standing on "Universal (Voltage & Tone)". -/
theorem C12_UpdateType_by_kind_witness :
    someDialog.m_type.enabled = true ∧
    dvbdev_lnb_t.ofUInt (QString.toUInt (LNBTypeSetting.getValue someDialog.m_type))
      = some .kTypeVoltageAndToneControl ∧
    (LNBConfig.UpdateType someDialog).m_lof_switch.enabled = true ∧
    (LNBConfig.UpdateType someDialog).m_lof_hi.enabled = true ∧
    (LNBConfig.UpdateType someDialog).m_lof_lo.enabled = true ∧
    (LNBConfig.UpdateType someDialog).m_pol_inv.enabled = true :=
  ⟨by decide, by decide,
    ((C12_UpdateType_by_kind someDialog .kTypeVoltageAndToneControl (by decide)
      (by decide)).2.1 rfl).1,
    ((C12_UpdateType_by_kind someDialog .kTypeVoltageAndToneControl (by decide)
      (by decide)).2.1 rfl).2.1,
    ((C12_UpdateType_by_kind someDialog .kTypeVoltageAndToneControl (by decide)
      (by decide)).2.1 rfl).2.2,
    (C12_UpdateType_by_kind someDialog .kTypeVoltageAndToneControl (by decide)
      (by decide)).2.2.2⟩

/-- C13 (as stated, refuted): two dialog states with the same selected kind
(voltage-and-tone), one freshly loaded and one left by the preset "Universal
(Europe)" with the type selector disabled, end `UpdateType` with different enabled
flags: the second keeps all four fields disabled. -/
theorem C13_counterexample :
    LNBTypeSetting.getValue someDialog.m_type
      = LNBTypeSetting.getValue (LNBConfig.SetPreset "0" someDialog).m_type ∧
    (LNBConfig.UpdateType someDialog).m_lof_lo.enabled = true ∧
    (LNBConfig.UpdateType (LNBConfig.SetPreset "0" someDialog)).m_lof_lo.enabled = false ∧
    (LNBConfig.UpdateType someDialog).m_pol_inv.enabled
      ≠ (LNBConfig.UpdateType (LNBConfig.SetPreset "0" someDialog)).m_pol_inv.enabled := by
  decide

/-- C13 (amended): for two dialog states in which the type selector is enabled and
stands on the same kind, `UpdateType` ends with the same enabled flags of LOF switch,
LOF low, LOF high and polarity, whatever the flags were before; in a state whose type
selector is disabled `UpdateType` changes nothing. -/
theorem C13_UpdateType_kind_only (s1 s2 : LNBConfig)
    (h1 : s1.m_type.enabled = true) (h2 : s2.m_type.enabled = true)
    (hkind : LNBTypeSetting.getValue s1.m_type = LNBTypeSetting.getValue s2.m_type) :
    (LNBConfig.UpdateType s1).m_lof_switch.enabled
      = (LNBConfig.UpdateType s2).m_lof_switch.enabled ∧
    (LNBConfig.UpdateType s1).m_lof_lo.enabled = (LNBConfig.UpdateType s2).m_lof_lo.enabled ∧
    (LNBConfig.UpdateType s1).m_lof_hi.enabled = (LNBConfig.UpdateType s2).m_lof_hi.enabled ∧
    (LNBConfig.UpdateType s1).m_pol_inv.enabled
      = (LNBConfig.UpdateType s2).m_pol_inv.enabled ∧
    (∀ s : LNBConfig, s.m_type.enabled = false → LNBConfig.UpdateType s = s) := by
  obtain ⟨t, ht⟩ := selector_has_kind s1.m_type
  have ht2 : dvbdev_lnb_t.ofUInt (QString.toUInt (LNBTypeSetting.getValue s2.m_type))
      = some t := by rw [← hkind]; exact ht
  rw [UpdateType_enabled_eq s1 t h1 ht, UpdateType_enabled_eq s2 t h2 ht2]
  refine ⟨rfl, rfl, rfl, rfl, ?_⟩
  intro s hs
  simp [LNBConfig.UpdateType, hs]

/-- C13 (witness): the loaded dialog and the same dialog with every advanced field
disabled beforehand agree after `UpdateType`. -/
theorem C13_UpdateType_kind_only_witness :
    someDialog.m_type.enabled = true ∧ lockedDialog.m_type.enabled = true ∧
    LNBTypeSetting.getValue someDialog.m_type = LNBTypeSetting.getValue lockedDialog.m_type ∧
    lockedDialog.m_lof_lo.enabled = false ∧
    (LNBConfig.UpdateType someDialog).m_lof_lo.enabled
      = (LNBConfig.UpdateType lockedDialog).m_lof_lo.enabled :=
  ⟨by decide, by decide, by decide, by decide,
    (C13_UpdateType_kind_only someDialog lockedDialog (by decide) (by decide)
      (by decide)).2.1⟩

/-- C14: whatever the widgets showed before, after `SwitchConfig::update` on kind `t`
the address and the port-count field are enabled exactly when `t` is DiSEqC committed
or uncommitted; for the simple kinds both are disabled, the address reads `0x10` and
the port count `2`, for legacy SW64 `3`. -/
theorem C14_update_by_kind (s : SwitchConfig) (t : dvbdev_switch_t)
    (hk : s.kind = some t) :
    ((SwitchConfig.update s).m_address.enabled = true ↔
      t = .kTypeDiSEqCCommitted ∨ t = .kTypeDiSEqCUncommitted) ∧
    ((SwitchConfig.update s).m_ports.enabled = true ↔
      t = .kTypeDiSEqCCommitted ∨ t = .kTypeDiSEqCUncommitted) ∧
    (t = .kTypeTone ∨ t = .kTypeVoltage ∨ t = .kTypeMiniDiSEqC ∨ t = .kTypeLegacySW21 ∨
        t = .kTypeLegacySW42 ∨ t = .kTypeLegacySW64 →
      (SwitchConfig.update s).m_address = { value := "0x10", enabled := false } ∧
      (SwitchConfig.update s).m_ports =
        { value := if t = .kTypeLegacySW64 then "3" else "2", enabled := false }) := by
  unfold SwitchConfig.update
  rw [hk]
  cases t <;> simp

/-- C14 (witness): a dialog on "Legacy SW64" with both fields enabled beforehand, and
one on "DiSEqC" with both disabled beforehand. -/
theorem C14_update_by_kind_witness :
    (switchDialog .kTypeLegacySW64 true).kind = some .kTypeLegacySW64 ∧
    (SwitchConfig.update (switchDialog .kTypeLegacySW64 true)).m_ports
      = { value := "3", enabled := false } ∧
    (switchDialog .kTypeDiSEqCCommitted false).kind = some .kTypeDiSEqCCommitted ∧
    (SwitchConfig.update (switchDialog .kTypeDiSEqCCommitted false)).m_address.enabled
      = true :=
  ⟨by decide,
    ((C14_update_by_kind (switchDialog .kTypeLegacySW64 true) .kTypeLegacySW64
      (by decide)).2.2 (by decide)).2,
    by decide,
    (C14_update_by_kind (switchDialog .kTypeDiSEqCCommitted false) .kTypeDiSEqCCommitted
      (by decide)).1.mpr (Or.inl rfl)⟩

/-- The loop of `FindPreset` on any table: it answers the position of the first entry
that has an empty name or matches, counted from `i`, or the end of the table. -/
theorem findPresetLoop_spec (lnb : DiSEqCDevLNB) :
    ∀ (presets : List lnb_preset) (i : Nat),
      i ≤ findPresetLoop lnb presets i ∧
      findPresetLoop lnb presets i ≤ i + presets.length ∧
      (∀ j p, i + j < findPresetLoop lnb presets i → presets.get? j = some p →
        p.name ≠ "" ∧ ¬ presetMatches p lnb) ∧
      (∀ p, presets.get? (findPresetLoop lnb presets i - i) = some p →
        p.name = "" ∨ presetMatches p lnb) := by
  intro presets
  induction presets with
  | nil => intro i; simp [findPresetLoop]
  | cons q rest ih =>
    intro i
    by_cases hq : q.name.isEmpty = true
    · have hn : q.name = "" := (String.isEmpty_iff _).mp hq
      have e : findPresetLoop lnb (q :: rest) i = i := by simp [findPresetLoop, hq]
      rw [e]
      refine ⟨le_refl _, by simp, fun j p hj _ => by omega, ?_⟩
      intro p hp
      simp at hp
      subst hp
      exact Or.inl hn
    · have hn : q.name ≠ "" := fun h => hq ((String.isEmpty_iff _).mpr h)
      by_cases hm : presetMatches q lnb
      · have e : findPresetLoop lnb (q :: rest) i = i := by simp [findPresetLoop, hq, hm]
        rw [e]
        refine ⟨le_refl _, by simp, fun j p hj _ => by omega, ?_⟩
        intro p hp
        simp at hp
        subst hp
        exact Or.inr hm
      · obtain ⟨h1, h2, h3, h4⟩ := ih (i + 1)
        have e : findPresetLoop lnb (q :: rest) i = findPresetLoop lnb rest (i + 1) := by
          simp [findPresetLoop, hq, hm]
        rw [e]
        refine ⟨by omega, by simp only [List.length_cons]; omega, ?_, ?_⟩
        · intro j p hj hp
          cases j with
          | zero =>
            simp at hp
            subst hp
            exact ⟨hn, hm⟩
          | succ j =>
            simp at hp
            exact h3 j p (by omega) (by simpa using hp)
        · intro p hp
          have hsub : findPresetLoop lnb rest (i + 1) - i
              = (findPresetLoop lnb rest (i + 1) - (i + 1)) + 1 := by omega
          rw [hsub] at hp
          simp at hp
          exact h4 p (by simpa using hp)

/-- C15: for every LNB, `FindPreset` answers at most 6; every preset before the
answer differs from the LNB in one of the five fields; an answer below 6 is a named
preset equal to the LNB in all five fields (so it is the smallest such index); and
the answer is 6, the entry with the empty name, exactly when none of the presets
0..5 equals the LNB in all five fields. -/
theorem C15_FindPreset_first_match (lnb : DiSEqCDevLNB) :
    FindPreset lnb ≤ 6 ∧
    (lnb_presets.get? 6).map (·.name) = some "" ∧
    (∀ j p, j < FindPreset lnb → lnb_presets.get? j = some p →
      p.name ≠ "" ∧ ¬ presetMatches p lnb) ∧
    (FindPreset lnb < 6 →
      ∃ p, lnb_presets.get? (FindPreset lnb) = some p ∧ p.name ≠ "" ∧ presetMatches p lnb) ∧
    (FindPreset lnb = 6 ↔
      ∀ j p, j < 6 → lnb_presets.get? j = some p → ¬ presetMatches p lnb) := by
  obtain ⟨-, -, h3', h4'⟩ := findPresetLoop_spec lnb lnb_presets 0
  simp only [Nat.zero_add, Nat.sub_zero] at h3' h4'
  have h3 : ∀ j p, j < FindPreset lnb → lnb_presets.get? j = some p →
      p.name ≠ "" ∧ ¬ presetMatches p lnb := h3'
  have h4 : ∀ p, lnb_presets.get? (FindPreset lnb) = some p →
      p.name = "" ∨ presetMatches p lnb := h4'
  have hle : FindPreset lnb ≤ 6 := by
    by_contra hgt
    have := (h3 6 ⟨"", .kTypeVoltageControl, 0, 0, 0, false⟩ (by omega) (by decide)).1
    exact this rfl
  have hnamed : ∀ j p, j < 6 → lnb_presets.get? j = some p → p.name ≠ "" := by
    intro j p hj hp
    interval_cases j <;> simp [lnb_presets] at hp <;> subst hp <;> decide
  have hlt : FindPreset lnb < 6 →
      ∃ p, lnb_presets.get? (FindPreset lnb) = some p ∧ p.name ≠ "" ∧ presetMatches p lnb := by
    intro hlt
    have hsome : ∃ p, lnb_presets.get? (FindPreset lnb) = some p := by
      have : FindPreset lnb < lnb_presets.length := by
        have : lnb_presets.length = 7 := by decide
        omega
      exact ⟨_, List.get?_eq_get this⟩
    obtain ⟨p, hp⟩ := hsome
    have hpn := hnamed _ p hlt hp
    rcases h4 p hp with h | h
    · exact absurd h hpn
    · exact ⟨p, hp, hpn, h⟩
  refine ⟨hle, by decide, fun j p hj hp => h3 j p hj hp, hlt, ?_⟩
  constructor
  · intro h6 j p hj hp
    exact (h3 j p (by omega) hp).2
  · intro hnone
    by_contra hne
    obtain ⟨p, hp, -, hm⟩ := hlt (by omega)
    exact hnone _ p (by omega) hp hm

/-- The stored "C Band" values are found as preset 4; with the polarity inverted no
preset matches and the answer is the "Custom" entry 6. -/
theorem FindPreset_examples : FindPreset cBandLNB = 4 ∧ FindPreset invertedCBandLNB = 6 := by
  decide

/-- C19: for every position map, `PopulateList` leaves exactly 63 rows, their keys are
the decimal texts of 1, 2, ..., 63 in this order, the row of index `p` shows
`AngleToString` of the angle stored for `p` or "None" when `p` has no entry, and the
rows do not depend on what the map holds outside 1..63. -/
theorem C19_PopulateList_rows {α : Type} [Zero α] [Neg α] [LE α]
    [DecidableRel (α := α) (· ≤ ·)] (number : α → String) (s : RotorPosMap α) :
    (RotorPosMap.PopulateList number s).selections.length = 63 ∧
    (RotorPosMap.PopulateList number s).selections.map (·.2)
      = (List.range' 1 63).map QString.number ∧
    (∀ p, 1 ≤ p → p ≤ 63 →
      (RotorPosMap.PopulateList number s).selections.get? (p - 1) =
        some ("Position #" ++ QString.number p ++ " (" ++
            (match s.m_posmap p with
              | some angle => AngleToString number angle
              | none => "None") ++ ")",
          QString.number p)) ∧
    (∀ s2 : RotorPosMap α, (∀ p, 1 ≤ p → p ≤ 63 → s2.m_posmap p = s.m_posmap p) →
      (RotorPosMap.PopulateList number s2).selections
        = (RotorPosMap.PopulateList number s).selections) := by
  refine ⟨?_, ?_, ?_, ?_⟩
  · simp [RotorPosMap.PopulateList]
  · simp [RotorPosMap.PopulateList, RotorPosMap.row, Function.comp_def]
  · intro p h1 h63
    rw [PopulateList_row number s p h1 h63]
    rfl
  · intro s2 h
    simp only [RotorPosMap.PopulateList]
    apply List.map_congr_left
    intro p hp
    have hp' := List.mem_range'_1.mp hp
    simp only [RotorPosMap.row, h p (by omega) (by omega)]

/-! ### The device tree -/

mutual
/-- The recursive `PopulateTree` adds the rows of the device after the rows it was
given. -/
theorem PopulateTreeDevice_eq : ∀ (d : DiSEqCDevDevice) (depth : Nat)
    (rows : List (String × String)),
    PopulateTreeDevice d depth rows = rows ++ rowsOfDevice d depth
  | .node m_devid m_desc kind m_children, depth, rows => by
    rw [PopulateTreeDevice, rowsOfDevice,
      PopulateTreeChildren_eq m_children (.node m_devid m_desc kind m_children) 0 (depth + 1)]
    simp [DiSEqCDevDevice.GetDeviceID]
  | .lnb m_devid m_desc, depth, rows => by
    rw [PopulateTreeDevice, rowsOfDevice]
/-- The recursive `PopulateTree` on a child slot of `node`. -/
theorem PopulateTreeNode_eq : ∀ (child : DevicePtr) (node : DiSEqCDevDevice) (ch depth : Nat)
    (rows : List (String × String)),
    PopulateTreeNode child (.dev node) ch depth rows
      = rows ++ rowsOfSlot child node.GetDeviceID ch depth
  | .dev d, node, ch, depth, rows => by
    rw [PopulateTreeNode, rowsOfSlot, PopulateTreeDevice_eq d depth rows]
  | .null, node, ch, depth, rows => by
    rw [PopulateTreeNode, rowsOfSlot]
    simp [String.append_assoc]
/-- The loop of `PopulateTree` over the child slots of `node`. -/
theorem PopulateTreeChildren_eq : ∀ (cs : ChildList) (node : DiSEqCDevDevice) (ch depth : Nat)
    (rows : List (String × String)),
    PopulateTreeChildren cs node ch depth rows
      = rows ++ rowsOfSlots cs node.GetDeviceID ch depth
  | .nil, node, ch, depth, rows => by
    rw [PopulateTreeChildren, rowsOfSlots, List.append_nil]
  | .cons child rest, node, ch, depth, rows => by
    rw [PopulateTreeChildren, rowsOfSlots, PopulateTreeNode_eq child node ch depth rows,
      PopulateTreeChildren_eq rest node (ch + 1) depth, List.append_assoc]
end

/-- The rows of the slots `c0, c0+1, ...` are the rows of slot 0, slot 1, ... one
after the other. -/
theorem rowsOfSlots_eq_flatMap : ∀ (cs : ChildList) (p c0 depth : Nat),
    rowsOfSlots cs p c0 depth =
      (List.range cs.length).flatMap fun j =>
        rowsOfSlot (match cs.get? j with
          | some child => child
          | none => .null) p (c0 + j) depth
  | .nil, p, c0, depth => by simp [rowsOfSlots, ChildList.length]
  | .cons child rest, p, c0, depth => by
    rw [rowsOfSlots, rowsOfSlots_eq_flatMap rest p (c0 + 1) depth, ChildList.length,
      List.range_succ_eq_map, List.flatMap_cons, List.flatMap_map]
    simp only [ChildList.get?, Nat.add_zero, Function.comp, Nat.succ_eq_add_one]
    congr 1
    apply List.flatMap_congr
    intro j _
    rw [Nat.add_assoc, Nat.add_comm 1 j]

/-- The rows that `PopulateTree` leaves in the browser are those of its tree. -/
theorem PopulateTree_rows (s : DeviceTree) :
    (DeviceTree.PopulateTree s).selections = rowsOfTree s.m_tree.m_root := by
  cases hroot : s.m_tree.m_root with
  | null =>
    simp only [DeviceTree.PopulateTree, DiSEqCDevTree.Root, hroot, PopulateTreeNode, rowsOfTree]
    decide
  | dev d =>
    simp only [DeviceTree.PopulateTree, DiSEqCDevTree.Root, hroot, PopulateTreeNode,
      rowsOfTree, PopulateTreeDevice_eq, List.nil_append]

/-- C16: `DeviceTree::PopulateTree` leaves the rows of a depth-first pre-order walk.
A real node at depth `d` gives the row of its description behind `8*d` spaces with
its decimal device id as key, followed by the rows of its child slots `0..N-1` in
order at depth `d+1`; an empty slot `c` of the parent with id `p` gives the single
row "(Unconnected)" behind the spaces of its depth with key `p:c`; an absent root
gives the single row with key `:0`. -/
theorem C16_PopulateTree_preorder (s : DeviceTree) :
    (DeviceTree.PopulateTree s).selections = rowsOfTree s.m_tree.m_root ∧
    rowsOfTree .null = [("(Unconnected)", ":0")] ∧
    (∀ d, rowsOfTree (.dev d) = rowsOfDevice d 0) ∧
    (∀ d depth, rowsOfDevice d depth =
      (String.mk (List.replicate (8 * depth) ' ') ++ d.GetDescription,
          QString.number d.GetDeviceID) ::
        (List.range d.GetChildCount).flatMap fun c =>
          rowsOfSlot (d.GetChild c) d.GetDeviceID c (depth + 1)) ∧
    (∀ d p c depth, rowsOfSlot (.dev d) p c depth = rowsOfDevice d depth) ∧
    (∀ p c depth, rowsOfSlot .null p c depth =
      [(String.mk (List.replicate (8 * depth) ' ') ++ "(Unconnected)",
        QString.number p ++ ":" ++ QString.number c)]) := by
  refine ⟨?_, rfl, fun d => rfl, ?_, fun d p c depth => by rw [rowsOfSlot],
    fun p c depth => by rw [rowsOfSlot]; rfl⟩
  · exact PopulateTree_rows s
  · intro d depth
    cases d with
    | node m_devid m_desc kind m_children =>
      rw [rowsOfDevice, rowsOfSlots_eq_flatMap]
      simp [DiSEqCDevDevice.GetDescription, DiSEqCDevDevice.GetDeviceID,
        DiSEqCDevDevice.GetChildCount, DiSEqCDevDevice.GetChild, DiSEqCDevDevice.children,
        indentOf]
    | lnb m_devid m_desc =>
      rw [rowsOfDevice]
      simp [DiSEqCDevDevice.GetDescription, DiSEqCDevDevice.GetDeviceID,
        DiSEqCDevDevice.GetChildCount, DiSEqCDevDevice.children, ChildList.length, indentOf]

namespace ChildList

theorem get?_set_eq : ∀ (cs : ChildList) (k : Nat) (v : DevicePtr) (cs1 : ChildList),
    cs.set k v = some cs1 → cs1.get? k = some v
  | .nil, _, _, _, h => by simp [set] at h
  | .cons c rest, 0, v, cs1, h => by
    simp only [set, Option.some.injEq] at h
    subst h
    rfl
  | .cons c rest, k + 1, v, cs1, h => by
    simp only [set] at h
    cases hr : rest.set k v with
    | none => simp [hr] at h
    | some rest1 =>
      simp only [hr, Option.some.injEq] at h
      subst h
      simpa [get?] using get?_set_eq rest k v rest1 hr

theorem get?_set_ne : ∀ (cs : ChildList) (k j : Nat) (v : DevicePtr) (cs1 : ChildList),
    cs.set k v = some cs1 → j ≠ k → cs1.get? j = cs.get? j
  | .nil, _, _, _, _, h, _ => by simp [set] at h
  | .cons c rest, 0, j, v, cs1, h, hj => by
    simp only [set, Option.some.injEq] at h
    subst h
    cases j with
    | zero => exact absurd rfl hj
    | succ j => rfl
  | .cons c rest, k + 1, j, v, cs1, h, hj => by
    simp only [set] at h
    cases hr : rest.set k v with
    | none => simp [hr] at h
    | some rest1 =>
      simp only [hr, Option.some.injEq] at h
      subst h
      cases j with
      | zero => rfl
      | succ j => simpa [get?] using get?_set_ne rest k j v rest1 hr (by omega)

theorem set_set : ∀ (cs : ChildList) (k : Nat) (v w : DevicePtr) (cs1 : ChildList),
    cs.set k v = some cs1 → cs1.set k w = cs.set k w
  | .nil, _, _, _, _, h => by simp [set] at h
  | .cons c rest, 0, v, w, cs1, h => by
    simp only [set, Option.some.injEq] at h
    subst h
    rfl
  | .cons c rest, k + 1, v, w, cs1, h => by
    simp only [set] at h
    cases hr : rest.set k v with
    | none => simp [hr] at h
    | some rest1 =>
      simp only [hr, Option.some.injEq] at h
      subst h
      simp only [set, set_set rest k v w rest1 hr]

theorem set_get? : ∀ (cs : ChildList) (k : Nat) (c : DevicePtr),
    cs.get? k = some c → cs.set k c = some cs
  | .nil, _, _, h => by simp [get?] at h
  | .cons c0 rest, 0, c, h => by
    simp only [get?, Option.some.injEq] at h
    subst h
    rfl
  | .cons c0 rest, k + 1, c, h => by
    simp only [get?] at h
    simp only [set, set_get? rest k c h]

theorem set_isSome : ∀ (cs : ChildList) (k : Nat) (c v : DevicePtr),
    cs.get? k = some c → ∃ cs1, cs.set k v = some cs1
  | .nil, _, _, _, h => by simp [get?] at h
  | .cons c0 rest, 0, c, v, _ => ⟨_, rfl⟩
  | .cons c0 rest, k + 1, c, v, h => by
    simp only [get?] at h
    obtain ⟨rest1, hr⟩ := set_isSome rest k c v h
    exact ⟨.cons c0 rest1, by simp only [set, hr]⟩

theorem length_set : ∀ (cs : ChildList) (k : Nat) (v : DevicePtr) (cs1 : ChildList),
    cs.set k v = some cs1 → cs1.length = cs.length
  | .nil, _, _, _, h => by simp [set] at h
  | .cons c rest, 0, v, cs1, h => by
    simp only [set, Option.some.injEq] at h
    subst h
    rfl
  | .cons c rest, k + 1, v, cs1, h => by
    simp only [set] at h
    cases hr : rest.set k v with
    | none => simp [hr] at h
    | some rest1 =>
      simp only [hr, Option.some.injEq] at h
      subst h
      simp only [length, length_set rest k v rest1 hr]

end ChildList

namespace DiSEqCDevDevice

/-- A device one of whose slots can be read is not an LNB: putting slots back into it
gives a device with those slots. -/
theorem children_withChildren (d : DiSEqCDevDevice) (k : Nat) (c : DevicePtr)
    (h : d.children.get? k = some c) (cs : ChildList) : (d.withChildren cs).children = cs := by
  cases d with
  | node _ _ _ _ => rfl
  | lnb _ _ => simp [children, ChildList.get?] at h

theorem withChildren_children (d : DiSEqCDevDevice) : d.withChildren d.children = d := by
  cases d <;> rfl

theorem withChildren_withChildren (d : DiSEqCDevDevice) (cs cs1 : ChildList) :
    (d.withChildren cs).withChildren cs1 = d.withChildren cs1 := by
  cases d <;> rfl

theorem GetDeviceID_withChildren (d : DiSEqCDevDevice) (cs : ChildList) :
    (d.withChildren cs).GetDeviceID = d.GetDeviceID := by
  cases d <;> rfl

theorem GetDescription_withChildren (d : DiSEqCDevDevice) (cs : ChildList) :
    (d.withChildren cs).GetDescription = d.GetDescription := by
  cases d <;> rfl

theorem GetDeviceType_withChildren (d : DiSEqCDevDevice) (cs : ChildList) :
    (d.withChildren cs).GetDeviceType = d.GetDeviceType := by
  cases d with
  | node _ _ kind _ => cases kind <;> rfl
  | lnb _ _ => rfl

end DiSEqCDevDevice

/-- What `setAt` stored is what `ptrAt` reads at the same path. -/
theorem ptrAt_setAt_eq : ∀ (path : DevPath) (root v root1 : DevicePtr),
    setAt path root v = some root1 → ptrAt path root1 = some v := by
  intro path
  induction path with
  | nil =>
    intro root v root1 h
    simp only [setAt, Option.some.injEq] at h
    subst h
    rfl
  | cons k rest ih =>
    intro root v root1 h
    cases root with
    | null => simp [setAt] at h
    | dev d =>
      simp only [setAt] at h
      cases hc : d.children.get? k with
      | none => simp [hc] at h
      | some c =>
        simp only [hc] at h
        cases hs : setAt rest c v with
        | none => simp [hs] at h
        | some c1 =>
          simp only [hs] at h
          cases hcs : d.children.set k c1 with
          | none => simp [hcs] at h
          | some cs =>
            simp only [hcs, Option.some.injEq] at h
            subst h
            simp only [ptrAt, DiSEqCDevDevice.children_withChildren d k c hc,
              ChildList.get?_set_eq _ _ _ _ hcs]
            exact ih c v c1 hs

/-- A slot that can be read can be written. -/
theorem setAt_isSome : ∀ (path : DevPath) (root w v : DevicePtr),
    ptrAt path root = some w → ∃ root1, setAt path root v = some root1 := by
  intro path
  induction path with
  | nil => intro root w v _; exact ⟨v, rfl⟩
  | cons k rest ih =>
    intro root w v h
    cases root with
    | null => simp [ptrAt] at h
    | dev d =>
      simp only [ptrAt] at h
      cases hc : d.children.get? k with
      | none => simp [hc] at h
      | some c =>
        simp only [hc] at h
        obtain ⟨c1, hc1⟩ := ih c w v h
        obtain ⟨cs, hcs⟩ := ChildList.set_isSome d.children k c c1 hc
        exact ⟨.dev (d.withChildren cs), by simp only [setAt, hc, hc1, hcs]⟩

/-- Writing back what a slot held undoes a write to that slot. -/
theorem setAt_undo : ∀ (path : DevPath) (root w v root1 : DevicePtr),
    ptrAt path root = some w → setAt path root v = some root1 →
    setAt path root1 w = some root := by
  intro path
  induction path with
  | nil =>
    intro root w v root1 hp _
    simp only [ptrAt, Option.some.injEq] at hp
    subst hp
    rfl
  | cons k rest ih =>
    intro root w v root1 hp h
    cases root with
    | null => simp [ptrAt] at hp
    | dev d =>
      simp only [ptrAt] at hp
      simp only [setAt] at h
      cases hc : d.children.get? k with
      | none => simp [hc] at hp
      | some c =>
        simp only [hc] at hp h
        cases hs : setAt rest c v with
        | none => simp [hs] at h
        | some c1 =>
          simp only [hs] at h
          cases hcs : d.children.set k c1 with
          | none => simp [hcs] at h
          | some cs =>
            simp only [hcs, Option.some.injEq] at h
            subst h
            have hback := ih c w v c1 hp hs
            simp only [setAt, DiSEqCDevDevice.children_withChildren d k c hc,
              ChildList.get?_set_eq _ _ _ _ hcs, hback,
              ChildList.set_set _ _ _ c _ hcs, ChildList.set_get? _ _ _ hc,
              DiSEqCDevDevice.withChildren_withChildren,
              DiSEqCDevDevice.withChildren_children]

/-- A write at `path` is not seen at any slot that does not lie at or below `path`. -/
theorem slotInfoAt_setAt : ∀ (path : DevPath) (root v root1 : DevicePtr) (q : DevPath),
    setAt path root v = some root1 → ¬ path <+: q →
    slotInfoAt q root1 = slotInfoAt q root := by
  intro path
  induction path with
  | nil => intro root v root1 q _ hq; exact absurd List.nil_prefix hq
  | cons k rest ih =>
    intro root v root1 q h hq
    cases root with
    | null => simp [setAt] at h
    | dev d =>
      simp only [setAt] at h
      cases hc : d.children.get? k with
      | none => simp [hc] at h
      | some c =>
        simp only [hc] at h
        cases hs : setAt rest c v with
        | none => simp [hs] at h
        | some c1 =>
          simp only [hs] at h
          cases hcs : d.children.set k c1 with
          | none => simp [hcs] at h
          | some cs =>
            simp only [hcs, Option.some.injEq] at h
            subst h
            cases q with
            | nil =>
              simp [slotInfoAt, ptrAt, slotInfo, DiSEqCDevDevice.GetDeviceID_withChildren,
                DiSEqCDevDevice.GetDescription_withChildren,
                DiSEqCDevDevice.GetDeviceType_withChildren, DiSEqCDevDevice.GetChildCount,
                DiSEqCDevDevice.children_withChildren d k c hc,
                ChildList.length_set _ _ _ _ hcs]
            | cons j qrest =>
              simp only [slotInfoAt, ptrAt, DiSEqCDevDevice.children_withChildren d k c hc]
              by_cases hjk : j = k
              · subst hjk
                rw [ChildList.get?_set_eq _ _ _ _ hcs, hc]
                have hrest : ¬ rest <+: qrest := fun hp =>
                  hq ((List.prefix_cons_inj j).mpr hp)
                exact ih c v c1 qrest hs hrest
              · rw [ChildList.get?_set_ne _ _ _ _ _ hcs hjk]

mutual
/-- The path that `FindDevice` answers leads to a device with the id asked for. -/
theorem DiSEqCDevDevice.FindDevice_valid_device : ∀ (d : DiSEqCDevDevice) (dev_id : Nat)
    (path : DevPath), d.FindDevice dev_id = some path →
    ∃ x, ptrAt path (.dev d) = some (.dev x) ∧ x.GetDeviceID = dev_id
  | .node m_devid m_desc kind m_children, dev_id, path, h => by
    rw [DiSEqCDevDevice.FindDevice] at h
    by_cases hid : m_devid = dev_id
    · simp only [hid, if_true, Option.some.injEq] at h
      subst h
      exact ⟨_, rfl, hid⟩
    · simp only [hid, if_false] at h
      obtain ⟨j, rest, c, x, hp, hc, hx, hxid⟩ :=
        ChildList.FindDevice_valid_slots m_children 0 dev_id path h
      subst hp
      refine ⟨x, ?_, hxid⟩
      simp only [ptrAt, DiSEqCDevDevice.children, Nat.zero_add, hc, hx]
  | .lnb m_devid m_desc, dev_id, path, h => by
    rw [DiSEqCDevDevice.FindDevice] at h
    by_cases hid : m_devid = dev_id
    · simp only [hid, if_true, Option.some.injEq] at h
      subst h
      exact ⟨_, rfl, hid⟩
    · simp [hid] at h
/-- The same for the lookup below a child pointer. -/
theorem DevicePtr.FindDevice_valid_ptr : ∀ (c : DevicePtr) (dev_id : Nat) (path : DevPath),
    c.FindDevice dev_id = some path →
    ∃ x, ptrAt path c = some (.dev x) ∧ x.GetDeviceID = dev_id
  | .null, _, _, h => by simp [DevicePtr.FindDevice] at h
  | .dev d, dev_id, path, h => by
    rw [DevicePtr.FindDevice] at h
    exact DiSEqCDevDevice.FindDevice_valid_device d dev_id path h
/-- The same for the lookup through child slots numbered from `ch`. -/
theorem ChildList.FindDevice_valid_slots : ∀ (cs : ChildList) (ch dev_id : Nat) (path : DevPath),
    cs.FindDevice ch dev_id = some path →
    ∃ j rest c x, path = (ch + j) :: rest ∧ cs.get? j = some c ∧
      ptrAt rest c = some (.dev x) ∧ x.GetDeviceID = dev_id
  | .nil, _, _, _, h => by simp [ChildList.FindDevice] at h
  | .cons child tail, ch, dev_id, path, h => by
    rw [ChildList.FindDevice] at h
    cases hc : child.FindDevice dev_id with
    | some p =>
      simp only [hc, Option.some.injEq] at h
      obtain ⟨x, hx, hxid⟩ := DevicePtr.FindDevice_valid_ptr child dev_id p hc
      exact ⟨0, p, child, x, by simp [← h], rfl, hx, hxid⟩
    | none =>
      simp only [hc] at h
      obtain ⟨j, rest, c, x, hp, hget, hx, hxid⟩ :=
        ChildList.FindDevice_valid_slots tail (ch + 1) dev_id path h
      exact ⟨j + 1, rest, c, x, by rw [hp]; congr 1; omega, by simpa [ChildList.get?] using hget,
        hx, hxid⟩
end

/-- A device that has a parent sits in the slot `GetOrdinal` of `GetParent`. -/
theorem parent_ordinal (dev parent : DevPath) (h : GetParent dev = some parent) :
    parent ++ [GetOrdinal dev] = dev := by
  unfold GetParent at h
  split at h
  · cases h
  · rename_i hne
    simp only [Option.some.injEq] at h
    subst h
    unfold GetOrdinal
    rw [List.getLastD_eq_getLast?, List.getLast?_eq_getLast _ hne]
    exact List.dropLast_append_getLast hne

/-- `EditNodeDialog` that answers `false` has left the browser as it was. -/
theorem EditNodeDialog_false (env : DialogEnv) (s : DeviceTree) (nodeid : Nat)
    (h : (DeviceTree.EditNodeDialog env s nodeid).1 = false) :
    (DeviceTree.EditNodeDialog env s nodeid).2 = s := by
  unfold DeviceTree.EditNodeDialog at h ⊢
  cases hf : s.m_tree.FindDevice nodeid with
  | none => simp only [hf]
  | some path =>
    simp only [hf] at h ⊢
    cases hp : ptrAt path s.m_tree.m_root with
    | none => simp only [hp]
    | some ptr =>
      cases ptr with
      | null => simp only [hp]
      | dev dev =>
        simp only [hp] at h ⊢
        cases hex : env.exec dev with
        | none => simp only [hex]
        | some saved =>
          simp only [hex] at h
          cases hset : setAt path s.m_tree.m_root (.dev saved) with
          | none => simp [hset] at h
          | some r => simp [hset] at h

/-- A cancelled configuration dialog makes `EditNodeDialog` answer `false`. -/
theorem EditNodeDialog_cancel (env : DialogEnv) (s : DeviceTree) (nodeid : Nat)
    (hcancel : ∀ d, env.exec d = none) : (DeviceTree.EditNodeDialog env s nodeid).1 = false := by
  unfold DeviceTree.EditNodeDialog
  cases hf : s.m_tree.FindDevice nodeid with
  | none => simp only [hf]
  | some path =>
    simp only [hf]
    cases hp : ptrAt path s.m_tree.m_root with
    | none => simp only [hp]
    | some ptr =>
      cases ptr with
      | null => simp only [hp]
      | dev dev => simp only [hp, hcancel]

theorem children_devices_of_length_zero (cs : ChildList) (h : cs.length = 0) :
    cs.devices = [] := by
  cases cs with
  | nil => rfl
  | cons c rest => simp [ChildList.length] at h

/-! ### The widgets of DTVDeviceConfigGroup -/

theorem insertDevices_append (m : devid_to_setting_t) (l1 l2 : List DiSEqCDevDevice) :
    insertDevices m (l1 ++ l2) = insertDevices (insertDevices m l1) l2 := by
  induction l1 generalizing m with
  | nil => rfl
  | cons d rest ih =>
    show insertDevices _ (rest ++ l2) = insertDevices (insertDevices _ rest) l2
    exact ih _

mutual
/-- `AddNodes` leaves in `m_devs` one assignment for each device it reaches that gets a
widget, in the order of the walk. -/
theorem AddNodes_devs (se : Bool) : ∀ (node : DevicePtr) (group : ConfigurationGroup)
    (trigger : String) (m : devid_to_setting_t),
    (DTVDeviceConfigGroup.AddNodes se node group trigger m).2 = insertDevices m node.devices
  | .null, group, trigger, m => by
    rw [DTVDeviceConfigGroup.AddNodes, DevicePtr.devices, insertDevices]
  | .dev d, group, trigger, m => by
    rw [DTVDeviceConfigGroup.AddNodes, DevicePtr.devices, AddNodesDevice_devs se d group trigger m]
/-- The same for the body of `AddNodes`. -/
theorem AddNodesDevice_devs (se : Bool) : ∀ (d : DiSEqCDevDevice) (group : ConfigurationGroup)
    (trigger : String) (m : devid_to_setting_t),
    (DTVDeviceConfigGroup.AddNodesDevice se d group trigger m).2 = insertDevices m d.devices
  | .lnb m_devid m_desc, group, trigger, m => by
    rw [DTVDeviceConfigGroup.AddNodesDevice, DiSEqCDevDevice.devices]
    rfl
  | .node m_devid m_desc kind m_children, group, trigger, m => by
    rw [DiSEqCDevDevice.devices]
    cases kind with
    | Switch =>
      simp only [DTVDeviceConfigGroup.AddNodesDevice, AddNodesChildren_devs se true m_children,
        insertDevices, settingClassOf, DiSEqCDevDevice.GetDeviceID]
    | Rotor type =>
      cases type <;> by_cases hlen : m_children.length = 0 <;>
        simp [DTVDeviceConfigGroup.AddNodesDevice, hlen,
          AddNodesChildren_devs se false m_children, insertDevices, settingClassOf,
          DiSEqCDevDevice.GetDeviceID, children_devices_of_length_zero]
    | SCR =>
      by_cases hlen : m_children.length = 0 <;>
        simp [DTVDeviceConfigGroup.AddNodesDevice, hlen,
          AddNodesChildren_devs se false m_children, insertDevices, settingClassOf,
          DiSEqCDevDevice.GetDeviceID, children_devices_of_length_zero]
/-- The same for the loops over the child slots. -/
theorem AddNodesChildren_devs (se : Bool) (byPort : Bool) : ∀ (cs : ChildList) (i : Nat)
    (cgrp : ConfigurationGroup) (m : devid_to_setting_t),
    (DTVDeviceConfigGroup.AddNodesChildren se byPort cs i cgrp m).2 = insertDevices m cs.devices
  | .nil, i, cgrp, m => by
    rw [DTVDeviceConfigGroup.AddNodesChildren, ChildList.devices, insertDevices]
  | .cons child rest, i, cgrp, m => by
    rw [DTVDeviceConfigGroup.AddNodesChildren, ChildList.devices, insertDevices_append]
    simp only [AddNodesChildren_devs se byPort rest, AddNodes_devs se child]
end

theorem insertDevices_not_mem (l : List DiSEqCDevDevice) :
    ∀ (m : devid_to_setting_t) (k : Nat), k ∉ l.map DiSEqCDevDevice.GetDeviceID →
      insertDevices m l k = m k := by
  induction l with
  | nil => intro m k _; rfl
  | cons d rest ih =>
    intro m k hk
    simp only [List.map_cons, List.mem_cons, not_or] at hk
    rw [insertDevices, ih _ k hk.2]
    cases settingClassOf d with
    | none => rfl
    | some cls => simp [devid_to_setting_t.insert, hk.1]

/-- With pairwise distinct ids, each device of the list that gets a widget is bound to
that widget, and the ids of the others are bound to what they were bound to before. -/
theorem insertDevices_mem (l : List DiSEqCDevDevice) :
    ∀ (m : devid_to_setting_t), (l.map DiSEqCDevDevice.GetDeviceID).Nodup →
      ∀ d ∈ l, insertDevices m l d.GetDeviceID =
        match settingClassOf d with
        | some cls => some cls
        | none => m d.GetDeviceID := by
  induction l with
  | nil => intro m _ d hd; cases hd
  | cons a rest ih =>
    intro m hnodup d hd
    simp only [List.map_cons, List.nodup_cons] at hnodup
    rw [insertDevices]
    rcases List.mem_cons.mp hd with rfl | hmem
    · rw [insertDevices_not_mem rest _ _ hnodup.1]
      cases settingClassOf d with
      | none => rfl
      | some cls => simp [devid_to_setting_t.insert]
    · rw [ih _ hnodup.2 d hmem]
      have hne : d.GetDeviceID ≠ a.GetDeviceID := fun h =>
        hnodup.1 (h ▸ List.mem_map_of_mem _ hmem)
      cases settingClassOf d with
      | some cls => rfl
      | none =>
        cases settingClassOf a with
        | none => rfl
        | some cls => simp [devid_to_setting_t.insert, hne]

theorem DiSEqCDevDevice.self_mem_devices (d : DiSEqCDevDevice) : d ∈ d.devices := by
  cases d <;> simp [DiSEqCDevDevice.devices]

theorem DiSEqCDevDevice.children_devices_subset (x d : DiSEqCDevDevice)
    (h : d ∈ x.children.devices) : d ∈ x.devices := by
  cases x with
  | node _ _ _ cs => simp only [DiSEqCDevDevice.devices, List.mem_cons]; exact Or.inr h
  | lnb _ _ => simp [DiSEqCDevDevice.children, ChildList.devices] at h

theorem ChildList.devices_of_get? : ∀ (cs : ChildList) (k : Nat) (c : DevicePtr)
    (d : DiSEqCDevDevice), cs.get? k = some c → d ∈ c.devices → d ∈ cs.devices
  | .nil, _, _, _, h, _ => by simp [ChildList.get?] at h
  | .cons c0 rest, 0, c, d, h, hd => by
    simp only [ChildList.get?, Option.some.injEq] at h
    subst h
    simp only [ChildList.devices, List.mem_append]
    exact Or.inl hd
  | .cons c0 rest, k + 1, c, d, h, hd => by
    simp only [ChildList.get?] at h
    simp only [ChildList.devices, List.mem_append]
    exact Or.inr (ChildList.devices_of_get? rest k c d h hd)

/-- Every device at the end of a path through non-empty slots is among `devices`. -/
theorem devices_of_ptrAt : ∀ (path : DevPath) (root : DevicePtr) (d : DiSEqCDevDevice),
    ptrAt path root = some (.dev d) → d ∈ root.devices := by
  intro path
  induction path with
  | nil =>
    intro root d h
    simp only [ptrAt, Option.some.injEq] at h
    subst h
    exact DiSEqCDevDevice.self_mem_devices d
  | cons k rest ih =>
    intro root d h
    cases root with
    | null => simp [ptrAt] at h
    | dev x =>
      simp only [ptrAt] at h
      cases hc : x.children.get? k with
      | none => simp [hc] at h
      | some c =>
        simp only [hc] at h
        exact DiSEqCDevDevice.children_devices_subset x d
          (ChildList.devices_of_get? _ k c d hc (ih c d h))

mutual
/-- Every device among `devices` sits at the end of a path through non-empty slots. -/
theorem DiSEqCDevDevice.ptrAt_of_devices_device : ∀ (x d : DiSEqCDevDevice), d ∈ x.devices →
    ∃ path, ptrAt path (.dev x) = some (.dev d)
  | .node m_devid m_desc kind cs, d, h => by
    rw [DiSEqCDevDevice.devices, List.mem_cons] at h
    rcases h with rfl | h
    · exact ⟨[], rfl⟩
    · obtain ⟨k, c, rest, hc, hp⟩ := ChildList.ptrAt_of_devices_slots cs d h
      exact ⟨k :: rest, by simp only [ptrAt, DiSEqCDevDevice.children, hc, hp]⟩
  | .lnb m_devid m_desc, d, h => by
    rw [DiSEqCDevDevice.devices, List.mem_singleton] at h
    subst h
    exact ⟨[], rfl⟩
/-- The same below a child pointer. -/
theorem DevicePtr.ptrAt_of_devices_ptr : ∀ (c : DevicePtr) (d : DiSEqCDevDevice), d ∈ c.devices →
    ∃ path, ptrAt path c = some (.dev d)
  | .null, d, h => by simp [DevicePtr.devices] at h
  | .dev x, d, h => by
    rw [DevicePtr.devices] at h
    exact DiSEqCDevDevice.ptrAt_of_devices_device x d h
/-- The same below a list of child slots. -/
theorem ChildList.ptrAt_of_devices_slots : ∀ (cs : ChildList) (d : DiSEqCDevDevice), d ∈ cs.devices →
    ∃ k c rest, cs.get? k = some c ∧ ptrAt rest c = some (.dev d)
  | .nil, d, h => by simp [ChildList.devices] at h
  | .cons c0 tail, d, h => by
    rw [ChildList.devices, List.mem_append] at h
    rcases h with h | h
    · obtain ⟨path, hp⟩ := DevicePtr.ptrAt_of_devices_ptr c0 d h
      exact ⟨0, c0, path, rfl, hp⟩
    · obtain ⟨k, c, rest, hc, hp⟩ := ChildList.ptrAt_of_devices_slots tail d h
      exact ⟨k + 1, c, rest, by simpa [ChildList.get?] using hc, hp⟩
end

mutual
/-- An id that no reachable device has is not found. -/
theorem DiSEqCDevDevice.FindDevice_none_device : ∀ (d : DiSEqCDevDevice) (dev_id : Nat),
    dev_id ∉ d.devices.map DiSEqCDevDevice.GetDeviceID → d.FindDevice dev_id = none
  | .node m_devid m_desc kind cs, dev_id, h => by
    simp only [DiSEqCDevDevice.devices, List.map_cons, List.mem_cons, not_or,
      DiSEqCDevDevice.GetDeviceID] at h
    rw [DiSEqCDevDevice.FindDevice, if_neg (fun e => h.1 e.symm)]
    exact ChildList.FindDevice_none_slots cs 0 dev_id h.2
  | .lnb m_devid m_desc, dev_id, h => by
    simp only [DiSEqCDevDevice.devices, List.map_cons, List.mem_cons, not_or,
      DiSEqCDevDevice.GetDeviceID] at h
    rw [DiSEqCDevDevice.FindDevice, if_neg (fun e => h.1 e.symm)]
/-- The same below a child pointer. -/
theorem DevicePtr.FindDevice_none_ptr : ∀ (c : DevicePtr) (dev_id : Nat),
    dev_id ∉ c.devices.map DiSEqCDevDevice.GetDeviceID → c.FindDevice dev_id = none
  | .null, _, _ => by rw [DevicePtr.FindDevice]
  | .dev d, dev_id, h => by
    rw [DevicePtr.FindDevice]
    exact DiSEqCDevDevice.FindDevice_none_device d dev_id (by simpa [DevicePtr.devices] using h)
/-- The same through a list of child slots. -/
theorem ChildList.FindDevice_none_slots : ∀ (cs : ChildList) (ch dev_id : Nat),
    dev_id ∉ cs.devices.map DiSEqCDevDevice.GetDeviceID → cs.FindDevice ch dev_id = none
  | .nil, _, _, _ => by rw [ChildList.FindDevice]
  | .cons c0 tail, ch, dev_id, h => by
    simp only [ChildList.devices, List.map_append, List.mem_append, not_or] at h
    rw [ChildList.FindDevice, DevicePtr.FindDevice_none_ptr c0 dev_id h.1]
    exact ChildList.FindDevice_none_slots tail (ch + 1) dev_id h.2
end

/-- With distinct ids, what is found below slot `k` is found through the slots. -/
theorem ChildList.FindDevice_of_get? : ∀ (cs : ChildList) (ch k dev_id : Nat) (c : DevicePtr)
    (rest : DevPath), (cs.devices.map DiSEqCDevDevice.GetDeviceID).Nodup →
    cs.get? k = some c → dev_id ∈ c.devices.map DiSEqCDevDevice.GetDeviceID →
    c.FindDevice dev_id = some rest → cs.FindDevice ch dev_id = some ((ch + k) :: rest)
  | .nil, _, _, _, _, _, _, h, _, _ => by simp [ChildList.get?] at h
  | .cons c0 tail, ch, 0, dev_id, c, rest, _, h, _, hf => by
    simp only [ChildList.get?, Option.some.injEq] at h
    subst h
    rw [ChildList.FindDevice, hf]
    rfl
  | .cons c0 tail, ch, k + 1, dev_id, c, rest, hnodup, h, hmem, hf => by
    simp only [ChildList.get?] at h
    simp only [ChildList.devices, List.map_append] at hnodup
    have hintail : dev_id ∈ tail.devices.map DiSEqCDevDevice.GetDeviceID := by
      obtain ⟨d, hd, hdid⟩ := List.mem_map.mp hmem
      exact List.mem_map.mpr ⟨d, ChildList.devices_of_get? tail k c d h hd, hdid⟩
    have hnot : dev_id ∉ c0.devices.map DiSEqCDevDevice.GetDeviceID := fun hin =>
      (List.nodup_append.mp hnodup).2.2 hin hintail
    rw [ChildList.FindDevice, DevicePtr.FindDevice_none_ptr c0 dev_id hnot,
      ChildList.FindDevice_of_get? tail (ch + 1) k dev_id c rest
        (List.nodup_append.mp hnodup).2.1 h hmem hf]
    have harith : ch + 1 + k = ch + (k + 1) := by omega
    rw [harith]

/-- The ids below one slot are distinct when the ids below all slots are. -/
theorem ChildList.nodup_of_get? : ∀ (cs : ChildList) (k : Nat) (c : DevicePtr),
    (cs.devices.map DiSEqCDevDevice.GetDeviceID).Nodup → cs.get? k = some c →
    (c.devices.map DiSEqCDevDevice.GetDeviceID).Nodup
  | .nil, _, _, _, h => by simp [ChildList.get?] at h
  | .cons c0 tail, 0, c, hnodup, h => by
    simp only [ChildList.get?, Option.some.injEq] at h
    subst h
    simp only [ChildList.devices, List.map_append] at hnodup
    exact (List.nodup_append.mp hnodup).1
  | .cons c0 tail, k + 1, c, hnodup, h => by
    simp only [ChildList.get?] at h
    simp only [ChildList.devices, List.map_append] at hnodup
    exact ChildList.nodup_of_get? tail k c (List.nodup_append.mp hnodup).2.1 h

/-- In a tree with pairwise distinct ids, `FindDevice` on the id of the device at the
end of a path answers that path. -/
theorem FindDevice_of_ptrAt : ∀ (path : DevPath) (root : DevicePtr) (d : DiSEqCDevDevice),
    (root.devices.map DiSEqCDevDevice.GetDeviceID).Nodup →
    ptrAt path root = some (.dev d) → root.FindDevice d.GetDeviceID = some path := by
  intro path
  induction path with
  | nil =>
    intro root d _ h
    simp only [ptrAt, Option.some.injEq] at h
    subst h
    cases d <;> simp [DevicePtr.FindDevice, DiSEqCDevDevice.FindDevice,
      DiSEqCDevDevice.GetDeviceID]
  | cons k rest ih =>
    intro root d hnodup h
    cases root with
    | null => simp [ptrAt] at h
    | dev x =>
      simp only [ptrAt] at h
      cases hc : x.children.get? k with
      | none => simp [hc] at h
      | some c =>
        simp only [hc] at h
        cases x with
        | lnb _ _ => simp [DiSEqCDevDevice.children, ChildList.get?] at hc
        | node m_devid m_desc kind cs =>
          simp only [DiSEqCDevDevice.children] at hc
          simp only [DevicePtr.devices, DiSEqCDevDevice.devices, List.map_cons,
            List.nodup_cons, DiSEqCDevDevice.GetDeviceID] at hnodup
          have hdc : d ∈ c.devices := devices_of_ptrAt rest c d h
          have hmem : d.GetDeviceID ∈ c.devices.map DiSEqCDevDevice.GetDeviceID :=
            List.mem_map_of_mem _ hdc
          have hincs : d.GetDeviceID ∈ cs.devices.map DiSEqCDevDevice.GetDeviceID :=
            List.mem_map_of_mem _ (ChildList.devices_of_get? cs k c d hc hdc)
          have hne : ¬ m_devid = d.GetDeviceID := fun e => hnodup.1 (e ▸ hincs)
          have hrest := ih c d (ChildList.nodup_of_get? cs k c hnodup.2 hc) h
          rw [DevicePtr.FindDevice, DiSEqCDevDevice.FindDevice, if_neg hne,
            ChildList.FindDevice_of_get? cs 0 k _ c rest hnodup.2 hc hmem hrest, Nat.zero_add]

/-- C20: in a device tree whose device ids are pairwise distinct, after the
constructor has run `AddNodes` on the root, `m_devs` binds the id of every switch,
rotor and SCR unit that is reachable from the root through non-empty child slots to
one widget and binds no other id, in particular the id of no LNB; the widget of a
switch is a `SwitchSetting`, of a DiSEqC 1.2 rotor the position list `RotorSetting`,
of every other rotor the longitude and hemisphere pair `USALSRotorSetting`, and of an
SCR unit an `SCRPositionSetting`. -/
theorem C20_AddNodes_widgets (m_tree : DiSEqCDevTree) (switches_enabled : Bool)
    (hids : (m_tree.m_root.devices.map DiSEqCDevDevice.GetDeviceID).Nodup) :
    (∀ path d, ptrAt path m_tree.m_root = some (.dev d) →
      (DTVDeviceConfigGroup.create m_tree switches_enabled).2 d.GetDeviceID =
        match d.GetDeviceType with
        | .kTypeSwitch => some .SwitchSetting
        | .kTypeRotor =>
          (match d with
            | .node _ _ (.Rotor .kTypeDiSEqC_1_2) _ => some .RotorSetting
            | _ => some .USALSRotorSetting)
        | .kTypeSCR => some .SCRPositionSetting
        | .kTypeLNB => none) ∧
    (∀ k, (DTVDeviceConfigGroup.create m_tree switches_enabled).2 k ≠ none →
      ∃ path d, ptrAt path m_tree.m_root = some (.dev d) ∧ d.GetDeviceID = k ∧
        d.GetDeviceType ≠ .kTypeLNB) := by
  have hdevs : (DTVDeviceConfigGroup.create m_tree switches_enabled).2
      = insertDevices (fun _ => none) m_tree.m_root.devices := by
    simp only [DTVDeviceConfigGroup.create, DiSEqCDevTree.Root, AddNodes_devs]
  rw [hdevs]
  constructor
  · intro path d hp
    rw [insertDevices_mem _ _ hids d (devices_of_ptrAt path _ d hp)]
    cases d with
    | lnb _ _ => rfl
    | node _ _ kind _ =>
      cases kind with
      | Switch => rfl
      | SCR => rfl
      | Rotor type => cases type <;> rfl
  · intro k hk
    by_cases hmem : k ∈ m_tree.m_root.devices.map DiSEqCDevDevice.GetDeviceID
    · obtain ⟨d, hd, hdk⟩ := List.mem_map.mp hmem
      obtain ⟨path, hp⟩ := DevicePtr.ptrAt_of_devices_ptr _ d hd
      refine ⟨path, d, hp, hdk, ?_⟩
      intro hlnb
      rw [← hdk, insertDevices_mem _ _ hids d hd] at hk
      cases d with
      | lnb _ _ => exact hk rfl
      | node _ _ kind _ => cases kind <;> simp [DiSEqCDevDevice.GetDeviceType] at hlnb
    · exact absurd (insertDevices_not_mem _ _ k hmem) hk

/-- C20 (witness): the tree `fullRoot`, ids 1 to 6. -/
theorem C20_AddNodes_widgets_witness :
    ((fullRoot.devices).map DiSEqCDevDevice.GetDeviceID).Nodup ∧
    (List.range 8).map (DTVDeviceConfigGroup.create ⟨fullRoot⟩ true).2
      = [none, some .SwitchSetting, some .RotorSetting, none, some .SCRPositionSetting,
          some .USALSRotorSetting, none, none] ∧
    (DTVDeviceConfigGroup.create ⟨fullRoot⟩ true).2 (DiSEqCDevDevice.lnb 3 "LNB").GetDeviceID
      = none :=
  ⟨by decide, by decide,
    (C20_AddNodes_widgets ⟨fullRoot⟩ true (by decide)).1 [0, 0] (.lnb 3 "LNB") (by decide)⟩

/-- C17: `parent` being the device found for `parentid` and its child slot
`child_num` being empty, when `CreateNewNodeDialog` has placed a newly created device
in that slot and `EditNodeDialog` on it answers `false` (the configuration dialog is
cancelled), the tree afterwards is the tree before: the slot is empty again and every
other node and slot is as it was; the browser shows the rows of that tree. -/
theorem C17_cancel_restores_tree (env : DialogEnv) (s : DeviceTree)
    (parentid child_num : Nat) (parent : DevPath) (type : dvbdev_t) (dev : DiSEqCDevDevice)
    (hparent : s.m_tree.FindDevice parentid = some parent)
    (hslot : ptrAt (parent ++ [child_num]) s.m_tree.m_root = some .null)
    (htype : env.RunTypeDialog = some type) (hnew : env.CreateByType type = .dev dev)
    (hfalse : ∀ tree1, s.m_tree.SetChild parent child_num (.dev dev) = some tree1 →
      (DeviceTree.EditNodeDialog env { s with m_tree := tree1 } dev.GetDeviceID).1 = false) :
    (∃ tree1, s.m_tree.SetChild parent child_num (.dev dev) = some tree1 ∧
      ptrAt (parent ++ [child_num]) tree1.m_root = some (.dev dev)) ∧
    (DeviceTree.CreateNewNodeDialog env s parentid child_num).m_tree = s.m_tree ∧
    ptrAt (parent ++ [child_num])
      (DeviceTree.CreateNewNodeDialog env s parentid child_num).m_tree.m_root = some .null ∧
    (DeviceTree.CreateNewNodeDialog env s parentid child_num).selections
      = rowsOfTree s.m_tree.m_root := by
  obtain ⟨root1, hroot1⟩ := setAt_isSome (parent ++ [child_num]) s.m_tree.m_root .null
    (.dev dev) hslot
  have hset1 : s.m_tree.SetChild parent child_num (.dev dev) = some { m_root := root1 } := by
    simp only [DiSEqCDevTree.SetChild, hroot1]
  have hedit := hfalse _ hset1
  have hstate := EditNodeDialog_false env _ _ hedit
  have hback : setAt (parent ++ [child_num]) root1 .null = some s.m_tree.m_root :=
    setAt_undo _ _ _ _ _ hslot hroot1
  have hresult : DeviceTree.CreateNewNodeDialog env s parentid child_num
      = DeviceTree.PopulateTree s := by
    have hset2 : DiSEqCDevTree.SetChild { m_root := root1 } parent child_num .null
        = some s.m_tree := by
      simp only [DiSEqCDevTree.SetChild, hback]
    simp only [DeviceTree.CreateNewNodeDialog, hparent, htype, hnew, hset1, hedit, hstate,
      if_true, hset2]
  refine ⟨⟨_, hset1, ptrAt_setAt_eq _ _ _ _ hroot1⟩, ?_, ?_, ?_⟩
  · rw [hresult]; rfl
  · rw [hresult]; exact hslot
  · rw [hresult]
    exact (PopulateTree_rows s)

/-- C17 (witness): in the sample tree the user opens the unconnected port 1 of the
switch (id 1), picks "LNB" and cancels its dialog: the tree is the sample tree again. -/
theorem C17_cancel_restores_tree_witness :
    (sampleBrowser 3).m_tree.FindDevice 1 = some [] ∧
    ptrAt ([] ++ [1]) (sampleBrowser 3).m_tree.m_root = some .null ∧
    (DeviceTree.CreateNewNodeDialog cancellingUser (sampleBrowser 3) 1 1).m_tree
      = (sampleBrowser 3).m_tree ∧
    (DeviceTree.CreateNewNodeDialog cancellingUser (sampleBrowser 3) 1 1).selections
      = [("Switch", "1"), ("        Rotor", "2"), ("                LNB", "3"),
          ("        (Unconnected)", "1:1")] :=
  ⟨by decide, by decide,
    (C17_cancel_restores_tree cancellingUser (sampleBrowser 3) 1 1 [] .kTypeLNB (.lnb 9 "LNB")
      (by decide) (by decide) rfl rfl
      (fun _ _ => EditNodeDialog_cancel cancellingUser _ _ (fun _ => rfl))).2.1,
    ((C17_cancel_restores_tree cancellingUser (sampleBrowser 3) 1 1 [] .kTypeLNB (.lnb 9 "LNB")
      (by decide) (by decide) rfl rfl
      (fun _ _ => EditNodeDialog_cancel cancellingUser _ _ (fun _ => rfl))).2.2.2).trans
      (by decide)⟩

/-- C18: `DeviceTree::del`. With the row of a real node selected (the key is its
decimal device id, ids being pairwise distinct) the device that `del` looks up is
that node. On the row of a device that has a parent, the child slot of the parent at
the ordinal of the device is empty afterwards and every slot that does not lie at or
below that slot is as before; on the row of the root device the root is cleared; on a
row whose key has a colon, and on a key whose device id is not in the tree, nothing
changes. -/
theorem C18_del_detaches (s : DeviceTree) :
    (∀ path d, (s.m_tree.m_root.devices.map DiSEqCDevDevice.GetDeviceID).Nodup →
      ptrAt path s.m_tree.m_root = some (.dev d) → d.GetDeviceID < 4294967296 →
      s.getValue = QString.number d.GetDeviceID →
      ':' ∉ s.getValue.data ∧
        s.m_tree.FindDevice (QString.toUInt s.getValue) = some path) ∧
    (∀ dev parent, ':' ∉ s.getValue.data →
      s.m_tree.FindDevice (QString.toUInt s.getValue) = some dev →
      GetParent dev = some parent →
      ptrAt (parent ++ [GetOrdinal dev]) (DeviceTree.del s).m_tree.m_root = some .null ∧
      ∀ q, ¬ (parent ++ [GetOrdinal dev]) <+: q →
        slotInfoAt q (DeviceTree.del s).m_tree.m_root = slotInfoAt q s.m_tree.m_root) ∧
    (∀ dev, ':' ∉ s.getValue.data →
      s.m_tree.FindDevice (QString.toUInt s.getValue) = some dev →
      GetParent dev = none →
      dev = [] ∧ (DeviceTree.del s).m_tree.m_root = .null) ∧
    (':' ∈ s.getValue.data → DeviceTree.del s = s) ∧
    (s.m_tree.FindDevice (QString.toUInt s.getValue) = none → DeviceTree.del s = s) := by
  refine ⟨?_, ?_, ?_, ?_, ?_⟩
  · intro path d hnodup hp hlt hval
    rw [hval, QString.toUInt_number hlt]
    exact ⟨QString.no_colon_number _, FindDevice_of_ptrAt path _ d hnodup hp⟩
  · intro dev parent hkey hfind hpar
    have hdev := parent_ordinal dev parent hpar
    obtain ⟨x, hx, -⟩ := DevicePtr.FindDevice_valid_ptr s.m_tree.m_root _ dev hfind
    obtain ⟨root1, hroot1⟩ := setAt_isSome dev s.m_tree.m_root (.dev x) .null hx
    have hdel : (DeviceTree.del s).m_tree.m_root = root1 := by
      simp only [DeviceTree.del, hkey, not_false_eq_true, if_true, hfind, hpar,
        DiSEqCDevTree.SetChild, hdev, hroot1]
      rfl
    rw [hdel, hdev]
    exact ⟨ptrAt_setAt_eq _ _ _ _ hroot1, fun q hq => slotInfoAt_setAt _ _ _ _ q hroot1 hq⟩
  · intro dev hkey hfind hpar
    have hnil : dev = [] := by
      unfold GetParent at hpar
      by_contra hne
      simp [hne] at hpar
    refine ⟨hnil, ?_⟩
    simp only [DeviceTree.del, hkey, not_false_eq_true, if_true, hfind, hpar]
    rfl
  · intro hkey
    simp only [DeviceTree.del, hkey, not_true_eq_false, if_false]
  · intro hfind
    unfold DeviceTree.del
    simp only [hfind]
    split <;> rfl

/-- `del` in the sample tree: on the row of the rotor (id 2) port 0 of the switch
becomes unconnected; on the row "1:1" of the unconnected port nothing changes; on
the row of the switch (the root) the tree is emptied. -/
theorem del_examples :
    (DeviceTree.del (sampleBrowser 1)).selections
      = [("Switch", "1"), ("        (Unconnected)", "1:0"), ("        (Unconnected)", "1:1")] ∧
    (DeviceTree.del (sampleBrowser 3)).selections = (sampleBrowser 3).selections ∧
    (DeviceTree.del (sampleBrowser 0)).selections = [("(Unconnected)", ":0")] := by
  decide

/-! ## The claims about saved LNB values -/

/-- The kHz value that `Save` stores after `Load` showed `k / 1000`. -/
theorem load_save_value {k : Nat} (hk : k < 4294967296) :
    uintMul (QString.toUInt (QString.number (k / 1000))) 1000 = 1000 * (k / 1000) := by
  rw [QString.toUInt_number (by omega)]
  unfold uintMul
  rw [Nat.mod_eq_of_lt (by omega)]
  omega

/-- C24: for every stored LNB frequency `k` in kHz (an `uint`), `Load` followed by
`Save` with no edit in between stores `1000 * (k / 1000)` in each of the three LOF
fields: `k` rounded down to whole MHz, which is `k` itself if and only if `k` is a
multiple of 1000. -/
theorem C24_Load_Save_rounds_down (lnb : DiSEqCDevLNB) (w : LineEditSetting)
    (hsw : lnb.m_lof_switch < 4294967296) (hlo : lnb.m_lof_lo < 4294967296)
    (hhi : lnb.m_lof_hi < 4294967296) :
    ((LNBLOFSwitchSetting.Save (LNBLOFSwitchSetting.Load lnb w) lnb).m_lof_switch
        = 1000 * (lnb.m_lof_switch / 1000) ∧
      ((LNBLOFSwitchSetting.Save (LNBLOFSwitchSetting.Load lnb w) lnb).m_lof_switch
        = lnb.m_lof_switch ↔ lnb.m_lof_switch % 1000 = 0)) ∧
    ((LNBLOFLowSetting.Save (LNBLOFLowSetting.Load lnb w) lnb).m_lof_lo
        = 1000 * (lnb.m_lof_lo / 1000) ∧
      ((LNBLOFLowSetting.Save (LNBLOFLowSetting.Load lnb w) lnb).m_lof_lo
        = lnb.m_lof_lo ↔ lnb.m_lof_lo % 1000 = 0)) ∧
    ((LNBLOFHighSetting.Save (LNBLOFHighSetting.Load lnb w) lnb).m_lof_hi
        = 1000 * (lnb.m_lof_hi / 1000) ∧
      ((LNBLOFHighSetting.Save (LNBLOFHighSetting.Load lnb w) lnb).m_lof_hi
        = lnb.m_lof_hi ↔ lnb.m_lof_hi % 1000 = 0)) := by
  have e1 : (LNBLOFSwitchSetting.Save (LNBLOFSwitchSetting.Load lnb w) lnb).m_lof_switch
      = 1000 * (lnb.m_lof_switch / 1000) := load_save_value hsw
  have e2 : (LNBLOFLowSetting.Save (LNBLOFLowSetting.Load lnb w) lnb).m_lof_lo
      = 1000 * (lnb.m_lof_lo / 1000) := load_save_value hlo
  have e3 : (LNBLOFHighSetting.Save (LNBLOFHighSetting.Load lnb w) lnb).m_lof_hi
      = 1000 * (lnb.m_lof_hi / 1000) := load_save_value hhi
  rw [e1, e2, e3]
  refine ⟨⟨rfl, ?_⟩, ⟨rfl, ?_⟩, ⟨rfl, ?_⟩⟩ <;> omega

/-- C24 (witness): a stored LOF low of 9750500 kHz comes back as 9750000 kHz, a stored
LOF switch of 11700000 kHz comes back unchanged. -/
theorem C24_Load_Save_rounds_down_witness :
    oddLNB.m_lof_switch < 4294967296 ∧ oddLNB.m_lof_lo < 4294967296 ∧
    oddLNB.m_lof_hi < 4294967296 ∧ oddLNB.m_lof_lo = 9750500 ∧
    (LNBLOFLowSetting.Save (LNBLOFLowSetting.Load oddLNB ⟨"", true⟩) oddLNB).m_lof_lo
      = 1000 * (oddLNB.m_lof_lo / 1000) ∧
    1000 * (oddLNB.m_lof_lo / 1000) = 9750000 ∧
    ((LNBLOFSwitchSetting.Save (LNBLOFSwitchSetting.Load oddLNB ⟨"", true⟩) oddLNB).m_lof_switch
      = oddLNB.m_lof_switch ↔ oddLNB.m_lof_switch % 1000 = 0) :=
  ⟨by decide, by decide, by decide, by decide,
    (C24_Load_Save_rounds_down oddLNB ⟨"", true⟩ (by decide) (by decide) (by decide)).2.1.1,
    by decide,
    (C24_Load_Save_rounds_down oddLNB ⟨"", true⟩ (by decide) (by decide) (by decide)).1.2⟩

/-- The LNB saved from the dialog that `SetPreset` leaves for a named preset. -/
theorem Save_SetPreset_named (i : Nat) (p : lnb_preset) (s : LNBConfig) (lnb : DiSEqCDevLNB)
    (hp : lnb_presets.get? i = some p) (hname : p.name ≠ "") :
    LNBConfig.Save (LNBConfig.SetPreset (QString.number i) s) lnb =
      { m_type := p.type
        m_lof_switch := uintMul (QString.toUInt (QString.number (p.lof_sw / 1000))) 1000
        m_lof_lo := uintMul (QString.toUInt (QString.number (p.lof_lo / 1000))) 1000
        m_lof_hi := uintMul (QString.toUInt (QString.number (p.lof_hi / 1000))) 1000
        m_pol_inv := p.pol_inv } := by
  rw [SetPreset_named_eq i p s hp hname]
  simp only [LNBConfig.Save, LNBTypeSetting.Save, type_of_selection,
    LNBLOFSwitchSetting.Save, LNBLOFLowSetting.Save, LNBLOFHighSetting.Save,
    LNBPolarityInvertedSetting.Save]

/-- The frequencies of the presets are `uint` values and whole numbers of MHz. -/
theorem preset_frequencies {i : Nat} {p : lnb_preset} (hp : lnb_presets.get? i = some p) :
    (p.lof_sw < 4294967296 ∧ p.lof_sw % 1000 = 0) ∧
    (p.lof_lo < 4294967296 ∧ p.lof_lo % 1000 = 0) ∧
    (p.lof_hi < 4294967296 ∧ p.lof_hi % 1000 = 0) := by
  have hmem : p ∈ lnb_presets := List.get?_mem hp
  have hall : ∀ q ∈ lnb_presets,
      (q.lof_sw < 4294967296 ∧ q.lof_sw % 1000 = 0) ∧
      (q.lof_lo < 4294967296 ∧ q.lof_lo % 1000 = 0) ∧
      (q.lof_hi < 4294967296 ∧ q.lof_hi % 1000 = 0) := by decide
  exact hall p hmem

/-- Two named presets that agree in the five compared fields have the same index. -/
theorem named_presets_distinct {i j : Nat} {p q : lnb_preset}
    (hp : lnb_presets.get? i = some p) (hq : lnb_presets.get? j = some q)
    (hpn : p.name ≠ "") (hqn : q.name ≠ "") (h : q.fields = p.fields) : j = i := by
  have hi : i ≤ 5 := named_preset_index hp hpn
  have hj : j ≤ 5 := named_preset_index hq hqn
  interval_cases i <;> interval_cases j <;> first
    | rfl
    | (exfalso
       simp [lnb_presets] at hp hq
       subst hp
       subst hq
       revert h
       decide)

/-- C23: for every preset index `i` in 0..5, the entry `lnb_presets[i]` has a name, and
applying it with `SetPreset(i)` and then saving the type, LOF switch, LOF low, LOF
high and polarity adapters yields an LNB that carries exactly the preset's five
values, for which `FindPreset` returns `i` itself: the preset's frequencies are
multiples of 1000 kHz, and no other named preset agrees with it in the five compared
fields. -/
theorem C23_preset_save_FindPreset (i : Nat) (hi : i ≤ 5) (s : LNBConfig)
    (lnb : DiSEqCDevLNB) :
    ∃ p, lnb_presets.get? i = some p ∧ p.name ≠ "" ∧
      LNBConfig.Save (LNBConfig.SetPreset (QString.number i) s) lnb = p.fields ∧
      FindPreset (LNBConfig.Save (LNBConfig.SetPreset (QString.number i) s) lnb) = i ∧
      (p.lof_sw % 1000 = 0 ∧ p.lof_lo % 1000 = 0 ∧ p.lof_hi % 1000 = 0) ∧
      (∀ j q, lnb_presets.get? j = some q → q.name ≠ "" → q.fields = p.fields → j = i) := by
  have hsome : ∃ p, lnb_presets.get? i = some p := by
    have hlen : i < lnb_presets.length := by
      have : lnb_presets.length = 7 := by decide
      omega
    exact ⟨_, List.get?_eq_get hlen⟩
  obtain ⟨p, hp⟩ := hsome
  have hname : p.name ≠ "" := by
    interval_cases i <;> simp [lnb_presets] at hp <;> subst hp <;> decide
  obtain ⟨⟨hsw, hsw0⟩, ⟨hlo, hlo0⟩, ⟨hhi, hhi0⟩⟩ := preset_frequencies hp
  have hsaved : LNBConfig.Save (LNBConfig.SetPreset (QString.number i) s) lnb = p.fields := by
    rw [Save_SetPreset_named i p s lnb hp hname, load_save_value hsw, load_save_value hlo,
      load_save_value hhi]
    have e1 : 1000 * (p.lof_sw / 1000) = p.lof_sw := by omega
    have e2 : 1000 * (p.lof_lo / 1000) = p.lof_lo := by omega
    have e3 : 1000 * (p.lof_hi / 1000) = p.lof_hi := by omega
    rw [e1, e2, e3]
    rfl
  have hfind : FindPreset p.fields = i := by
    interval_cases i <;> simp [lnb_presets] at hp <;> subst hp <;> decide
  refine ⟨p, hp, hname, hsaved, ?_, ⟨hsw0, hlo0, hhi0⟩, ?_⟩
  · rw [hsaved]; exact hfind
  · intro j q hq hqn hqp
    exact named_presets_distinct hp hq hname hqn hqp

/-- C23 (witness): "DishPro Bandstacked" is preset 5; applied to a dialog and saved
over a "C Band" LNB it gives an LNB that `FindPreset` recognises as preset 5. -/
theorem C23_preset_save_FindPreset_witness :
    (5 : Nat) ≤ 5 ∧
    ∃ p, lnb_presets.get? 5 = some p ∧ p.name ≠ "" ∧
      LNBConfig.Save (LNBConfig.SetPreset (QString.number 5) someDialog) cBandLNB
        = p.fields ∧
      FindPreset (LNBConfig.Save (LNBConfig.SetPreset (QString.number 5) someDialog)
        cBandLNB) = 5 ∧
      (p.lof_sw % 1000 = 0 ∧ p.lof_lo % 1000 = 0 ∧ p.lof_hi % 1000 = 0) ∧
      (∀ j q, lnb_presets.get? j = some q → q.name ≠ "" → q.fields = p.fields → j = 5) :=
  ⟨by decide, C23_preset_save_FindPreset 5 (by decide) someDialog cBandLNB⟩

/-! ## The claim about `DeviceTree::edit` -/

/-- A text without the separator is its own single piece. -/
theorem splitChars_of_not_mem (sep : Char) :
    ∀ (l : List Char), sep ∉ l → splitChars sep l = [l] := by
  intro l
  induction l with
  | nil => intro _; rfl
  | cons c cs ih =>
    intro h
    simp only [List.mem_cons, not_or] at h
    rw [splitChars, if_neg (fun e => h.1 e.symm), ih h.2]

/-- A text is cut at its first separator. -/
theorem splitChars_append (sep : Char) :
    ∀ (l1 l2 : List Char), sep ∉ l1 →
      splitChars sep (l1 ++ sep :: l2) = l1 :: splitChars sep l2 := by
  intro l1
  induction l1 with
  | nil => intro l2 _; simp [splitChars]
  | cons c cs ih =>
    intro l2 h
    simp only [List.mem_cons, not_or] at h
    rw [List.cons_append, splitChars, if_neg (fun e => h.1 e.symm), ih l2 h.2]

/-- The decimal text of a number is not empty. -/
theorem QString.number_data_ne_nil (n : Nat) : (QString.number n).data ≠ [] := by
  obtain ⟨l, hl, hne, -⟩ := QString.toDigitsCore_parse (n + 1) n [] (by omega)
  have hdata : (QString.number n).data = l := by
    simp [QString.number, toString, Nat.repr, Nat.toDigits, hl, List.asString]
  rw [hdata]
  exact hne

/-- The two pieces of a key `p:c`. -/
theorem split_slot_key (p c : Nat) :
    QString.split (QString.number p ++ ":" ++ QString.number c) ':' =
      [QString.number p, QString.number c] := by
  have hdata : (QString.number p ++ ":" ++ QString.number c).data =
      (QString.number p).data ++ ':' :: (QString.number c).data := by
    simp [String.data_append]
  rw [QString.split, hdata, splitChars_append _ _ _ (QString.no_colon_number p),
    splitChars_of_not_mem _ _ (QString.no_colon_number c)]
  rfl

/-- On the key of a real node `edit` runs `EditNodeDialog` with the id of the node. -/
theorem edit_node_key (env : DialogEnv) (s : DeviceTree) (id : Nat) (hid : id < 4294967296)
    (hkey : s.getValue = QString.number id) :
    DeviceTree.edit env s = (DeviceTree.EditNodeDialog env s id).2 := by
  have hno : ':' ∉ s.getValue.data := by rw [hkey]; exact QString.no_colon_number id
  simp only [DeviceTree.edit, hno, not_false_eq_true, if_true]
  rw [hkey, QString.toUInt_number hid]

/-- On the key `p:c` of an empty slot `edit` runs `CreateNewNodeDialog` with `p` and
`c`. -/
theorem edit_slot_key (env : DialogEnv) (s : DeviceTree) (p c : Nat) (hp : p < 4294967296)
    (hc : c < 4294967296) (hkey : s.getValue = QString.number p ++ ":" ++ QString.number c) :
    DeviceTree.edit env s = DeviceTree.CreateNewNodeDialog env s p c := by
  have hdata : (QString.number p ++ ":" ++ QString.number c).data =
      (QString.number p).data ++ ':' :: (QString.number c).data := by
    simp [String.data_append]
  have hcolon : ¬ (':' ∉ s.getValue.data) := by
    rw [hkey, hdata]; simp
  have hne : (QString.number p).isEmpty = false := by
    rw [Bool.eq_false_iff, ne_eq, String.isEmpty_iff]
    intro h
    exact QString.number_data_ne_nil p (by rw [h])
  simp only [DeviceTree.edit, hcolon, if_false]
  rw [hkey, split_slot_key]
  simp only [List.getD_cons_zero, List.getD_cons_succ, hne, Bool.false_eq_true, if_false,
    QString.toUInt_number hp, QString.toUInt_number hc]

/-- On the key `:0` of an absent root `edit` runs `CreateRootNodeDialog`. -/
theorem edit_root_key (env : DialogEnv) (s : DeviceTree) (hkey : s.getValue = ":0") :
    DeviceTree.edit env s = DeviceTree.CreateRootNodeDialog env s := by
  have hcolon : ¬ (':' ∉ s.getValue.data) := by rw [hkey]; decide
  have hsplit : QString.split ":0" ':' = ["", "0"] := by decide
  simp only [DeviceTree.edit, hcolon, if_false]
  rw [hkey, hsplit]
  rfl

/-- A slot that holds a pointer lies below the number of slots. -/
theorem ChildList.lt_length_of_get? : ∀ (cs : ChildList) (k : Nat) (c : DevicePtr),
    cs.get? k = some c → k < cs.length
  | .nil, _, _, h => by simp [ChildList.get?] at h
  | .cons _ _, 0, _, _ => by simp [ChildList.length]
  | .cons _ rest, k + 1, c, h => by
    have := ChildList.lt_length_of_get? rest k c (by simpa [ChildList.get?] using h)
    simp only [ChildList.length]
    omega

mutual
/-- Every row below a device comes from a device reachable from it, whose decimal id
is the key, or from an empty slot `c` of such a device `x`, with the key `x:c`. -/
theorem rowsOfDevice_origin : ∀ (d : DiSEqCDevDevice) (depth : Nat) (row : String × String),
    row ∈ rowsOfDevice d depth →
    (∃ path x, ptrAt path (.dev d) = some (.dev x) ∧
      row.2 = QString.number x.GetDeviceID) ∨
    (∃ path x c, ptrAt path (.dev d) = some (.dev x) ∧ x.children.get? c = some .null ∧
      row.2 = QString.number x.GetDeviceID ++ ":" ++ QString.number c)
  | .node m_devid m_desc kind cs, depth, row, h => by
    rw [rowsOfDevice, List.mem_cons] at h
    rcases h with rfl | h
    · exact Or.inl ⟨[], _, rfl, rfl⟩
    · rcases rowsOfSlots_origin cs m_devid 0 (depth + 1) row h with
        ⟨k, child, path, x, hk, hp, hrow⟩ | ⟨k, child, path, x, c, hk, hp, hc, hrow⟩ |
        ⟨k, hk, hrow⟩
      · exact Or.inl ⟨k :: path, x,
          by simp only [ptrAt, DiSEqCDevDevice.children, hk, hp], hrow⟩
      · exact Or.inr ⟨k :: path, x, c,
          by simp only [ptrAt, DiSEqCDevDevice.children, hk, hp], hc, hrow⟩
      · rw [Nat.zero_add] at hrow
        exact Or.inr ⟨[], _, k, rfl, hk, hrow⟩
  | .lnb m_devid m_desc, depth, row, h => by
    rw [rowsOfDevice, List.mem_singleton] at h
    subst h
    exact Or.inl ⟨[], _, rfl, rfl⟩
/-- The same for the rows of one child slot, which may itself be the empty slot `c`
of the parent with id `p`. -/
theorem rowsOfSlot_origin : ∀ (child : DevicePtr) (p c depth : Nat) (row : String × String),
    row ∈ rowsOfSlot child p c depth →
    (∃ path x, ptrAt path child = some (.dev x) ∧
      row.2 = QString.number x.GetDeviceID) ∨
    (∃ path x c1, ptrAt path child = some (.dev x) ∧ x.children.get? c1 = some .null ∧
      row.2 = QString.number x.GetDeviceID ++ ":" ++ QString.number c1) ∨
    (child = .null ∧ row.2 = QString.number p ++ ":" ++ QString.number c)
  | .dev d, p, c, depth, row, h => by
    rw [rowsOfSlot] at h
    rcases rowsOfDevice_origin d depth row h with h1 | h2
    · exact Or.inl h1
    · exact Or.inr (Or.inl h2)
  | .null, p, c, depth, row, h => by
    rw [rowsOfSlot, List.mem_singleton] at h
    subst h
    exact Or.inr (Or.inr ⟨rfl, rfl⟩)
/-- The same for the rows of the child slots from slot `c` on. -/
theorem rowsOfSlots_origin : ∀ (cs : ChildList) (p c depth : Nat) (row : String × String),
    row ∈ rowsOfSlots cs p c depth →
    (∃ k child path x, cs.get? k = some child ∧ ptrAt path child = some (.dev x) ∧
      row.2 = QString.number x.GetDeviceID) ∨
    (∃ k child path x c1, cs.get? k = some child ∧ ptrAt path child = some (.dev x) ∧
      x.children.get? c1 = some .null ∧
      row.2 = QString.number x.GetDeviceID ++ ":" ++ QString.number c1) ∨
    (∃ k, cs.get? k = some .null ∧
      row.2 = QString.number p ++ ":" ++ QString.number (c + k))
  | .nil, _, _, _, row, h => by simp [rowsOfSlots] at h
  | .cons c0 tail, p, c, depth, row, h => by
    rw [rowsOfSlots, List.mem_append] at h
    rcases h with h | h
    · rcases rowsOfSlot_origin c0 p c depth row h with
        ⟨path, x, hp, hrow⟩ | ⟨path, x, c1, hp, hc, hrow⟩ | ⟨hnull, hrow⟩
      · exact Or.inl ⟨0, c0, path, x, rfl, hp, hrow⟩
      · exact Or.inr (Or.inl ⟨0, c0, path, x, c1, rfl, hp, hc, hrow⟩)
      · exact Or.inr (Or.inr ⟨0, by rw [hnull]; rfl, hrow⟩)
    · rcases rowsOfSlots_origin tail p (c + 1) depth row h with
        ⟨k, child, path, x, hk, hp, hrow⟩ | ⟨k, child, path, x, c1, hk, hp, hc, hrow⟩ |
        ⟨k, hk, hrow⟩
      · exact Or.inl ⟨k + 1, child, path, x, by simpa [ChildList.get?] using hk, hp, hrow⟩
      · exact Or.inr (Or.inl
          ⟨k + 1, child, path, x, c1, by simpa [ChildList.get?] using hk, hp, hc, hrow⟩)
      · have harith : c + 1 + k = c + (k + 1) := by omega
        rw [harith] at hrow
        exact Or.inr (Or.inr ⟨k + 1, by simpa [ChildList.get?] using hk, hrow⟩)
end

/-- C22: `DeviceTree::edit` decodes every row key that `PopulateTree` generates back to
the origin of the row (device ids and slot counts being `uint` values). The selected
row is that of a real node of the tree, its key is the decimal device id without a
colon and `edit` runs `EditNodeDialog` with exactly that id; or it is that of an empty
child slot `c` of a device `p` of the tree, its key is `p:c` and `edit` runs
`CreateNewNodeDialog` with the id of `p` and with `c`; or the root is absent, the key
is `:0` and `edit` runs `CreateRootNodeDialog`. -/
theorem C22_edit_decodes_key (env : DialogEnv) (s : DeviceTree) (row : String × String)
    (hrows : s.selections = (DeviceTree.PopulateTree s).selections)
    (hids : ∀ d ∈ s.m_tree.m_root.devices,
      d.GetDeviceID < 4294967296 ∧ d.GetChildCount ≤ 4294967296)
    (hcur : s.selections.get? s.current = some row) :
    s.getValue = row.2 ∧
    ((∃ path d, ptrAt path s.m_tree.m_root = some (.dev d) ∧
        row.2 = QString.number d.GetDeviceID ∧ ':' ∉ row.2.data ∧
        DeviceTree.edit env s = (DeviceTree.EditNodeDialog env s d.GetDeviceID).2) ∨
      (∃ path p c, ptrAt path s.m_tree.m_root = some (.dev p) ∧
        c < p.GetChildCount ∧ p.GetChild c = .null ∧
        row.2 = QString.number p.GetDeviceID ++ ":" ++ QString.number c ∧
        DeviceTree.edit env s = DeviceTree.CreateNewNodeDialog env s p.GetDeviceID c) ∨
      (s.m_tree.m_root = .null ∧ row.2 = ":0" ∧
        DeviceTree.edit env s = DeviceTree.CreateRootNodeDialog env s)) := by
  have hval : s.getValue = row.2 := by simp only [DeviceTree.getValue, hcur]
  have hmem : row ∈ rowsOfTree s.m_tree.m_root := by
    rw [← PopulateTree_rows s, ← hrows]
    exact List.get?_mem hcur
  refine ⟨hval, ?_⟩
  cases hroot : s.m_tree.m_root with
  | null =>
    rw [hroot, rowsOfTree, List.mem_singleton] at hmem
    have hkey : row.2 = ":0" := by rw [hmem]
    exact Or.inr (Or.inr ⟨rfl, hkey, edit_root_key env s (hval.trans hkey)⟩)
  | dev r =>
    rw [hroot, rowsOfTree] at hmem
    rw [hroot] at hids
    rcases rowsOfDevice_origin r 0 row hmem with
      ⟨path, x, hp, hrow⟩ | ⟨path, x, c, hp, hc, hrow⟩
    · have hx := (hids x (devices_of_ptrAt path _ x hp)).1
      refine Or.inl ⟨path, x, hp, hrow, ?_, edit_node_key env s _ hx (hval.trans hrow)⟩
      rw [hrow]
      exact QString.no_colon_number _
    · have hx := hids x (devices_of_ptrAt path _ x hp)
      have hlt : c < x.GetChildCount := ChildList.lt_length_of_get? _ c _ hc
      have hchild : x.GetChild c = .null := by
        simp only [DiSEqCDevDevice.GetChild, hc]
      exact Or.inr (Or.inl ⟨path, x, c, hp, hlt, hchild, hrow,
        edit_slot_key env s _ c hx.1 (by omega) (hval.trans hrow)⟩)

/-- C22 (witness): in the browser of the sample tree with row 3 selected, the row of
the unconnected port 1 of the switch with id 1, the key is `1:1` and `edit` runs
`CreateNewNodeDialog(1, 1)`. -/
theorem C22_edit_decodes_key_witness :
    (sampleBrowser 3).selections =
      (DeviceTree.PopulateTree (sampleBrowser 3)).selections ∧
    (∀ d ∈ (sampleBrowser 3).m_tree.m_root.devices,
      d.GetDeviceID < 4294967296 ∧ d.GetChildCount ≤ 4294967296) ∧
    (sampleBrowser 3).selections.get? (sampleBrowser 3).current =
      some (indentOf 1 ++ "(Unconnected)", "1:1") ∧
    (sampleBrowser 3).getValue = "1:1" ∧
    ((∃ path d, ptrAt path (sampleBrowser 3).m_tree.m_root = some (.dev d) ∧
        "1:1" = QString.number d.GetDeviceID ∧ ':' ∉ ("1:1" : String).data ∧
        DeviceTree.edit cancellingUser (sampleBrowser 3) =
          (DeviceTree.EditNodeDialog cancellingUser (sampleBrowser 3) d.GetDeviceID).2) ∨
      (∃ path p c, ptrAt path (sampleBrowser 3).m_tree.m_root = some (.dev p) ∧
        c < p.GetChildCount ∧ p.GetChild c = .null ∧
        "1:1" = QString.number p.GetDeviceID ++ ":" ++ QString.number c ∧
        DeviceTree.edit cancellingUser (sampleBrowser 3) =
          DeviceTree.CreateNewNodeDialog cancellingUser (sampleBrowser 3) p.GetDeviceID c) ∨
      ((sampleBrowser 3).m_tree.m_root = .null ∧ "1:1" = ":0" ∧
        DeviceTree.edit cancellingUser (sampleBrowser 3) =
          DeviceTree.CreateRootNodeDialog cancellingUser (sampleBrowser 3))) :=
  ⟨by decide, by decide, by decide,
    C22_edit_decodes_key cancellingUser (sampleBrowser 3)
      (indentOf 1 ++ "(Unconnected)", "1:1") (by decide) (by decide) (by decide)⟩

/-! ## `USALSRotorSetting`: the hemisphere logic of `Load` and `Save` -/

/-- `AngleToFloat` without translation on a text that ends in the character `c` after
a non-empty `body`. -/
theorem AngleToFloat_concat_plain {α : Type} [Zero α] [Neg α] (isLetter : Char → Bool)
    (toUpper : Char → Char) (west : Char) (toDouble : String → α)
    (body : List Char) (c : Char) (hbody : body ≠ []) :
    AngleToFloat isLetter toUpper west toDouble (String.mk (body ++ [c])) false =
      if isLetter c then
        (if toUpper c = 'W' then -toDouble (String.mk body) else toDouble (String.mk body))
      else toDouble (String.mk (body ++ [c])) := by
  have hlen : ¬ (String.mk (body ++ [c])).length < 2 := by
    cases body with
    | nil => exact absurd rfl hbody
    | cons b bs => simp [String.length]
  unfold AngleToFloat
  rw [if_neg hlen]
  simp

/-- What `Load` shows: the pair `(a, E)` for `a > 0`, the pair `(-a, W)` otherwise. -/
theorem USALS_Load_shows {α : Type} [Zero α] [Neg α] [LT α] [DecidableRel (α := α) (· < ·)]
    (number : α → String) (m_settings : Nat → α) (devid : Nat) (w : USALSRotorSetting) :
    ((0 : α) < m_settings devid →
      (USALSRotorSetting.Load number m_settings devid w).numeric.value
          = number (m_settings devid) ∧
        USALSRotorSetting.getValue
          (USALSRotorSetting.Load number m_settings devid w).hemisphere = "E") ∧
    (¬ (0 : α) < m_settings devid →
      (USALSRotorSetting.Load number m_settings devid w).numeric.value
          = number (-m_settings devid) ∧
        USALSRotorSetting.getValue
          (USALSRotorSetting.Load number m_settings devid w).hemisphere = "W") := by
  constructor
  · intro h
    have hidx : USALSRotorSetting.getValueIndex "E" = some 0 := by decide
    simp only [USALSRotorSetting.Load, AngleToEdit, h, if_true, hidx]
    exact ⟨trivial, rfl⟩
  · intro h
    have hidx : USALSRotorSetting.getValueIndex "W" = some 1 := by decide
    simp only [USALSRotorSetting.Load, AngleToEdit, h, if_false, hidx]
    exact ⟨trivial, rfl⟩

/-- What `Save` stores, `E` and `W` being letters of which only `W` has the upper
case `W`: for a shown text `t` whose number `n = toDouble t` has a non-empty text that
reads back as `m`, the pair `(t, E)` gives `m` and `(t, W)` gives `-m`. -/
theorem USALS_Save_stores {α : Type} [Zero α] [Neg α] (isLetter : Char → Bool)
    (toUpper : Char → Char) (west : Char) (number : α → String)
    (toDouble : String → α) (w : USALSRotorSetting) (m_settings : Nat → α) (devid : Nat)
    (hE : isLetter 'E' = true) (hW : isLetter 'W' = true)
    (hupE : toUpper 'E' ≠ 'W') (hupW : toUpper 'W' = 'W')
    (hne : (number (toDouble w.numeric.value)).data ≠ []) :
    (USALSRotorSetting.getValue w.hemisphere = "E" →
      USALSRotorSetting.Save isLetter toUpper west number toDouble w m_settings devid devid
        = toDouble (number (toDouble w.numeric.value))) ∧
    (USALSRotorSetting.getValue w.hemisphere = "W" →
      USALSRotorSetting.Save isLetter toUpper west number toDouble w m_settings devid devid
        = -toDouble (number (toDouble w.numeric.value))) := by
  constructor
  · intro h
    have e : number (toDouble w.numeric.value) ++ "E"
        = String.mk ((number (toDouble w.numeric.value)).data ++ ['E']) := rfl
    simp only [USALSRotorSetting.Save, h, if_true, e]
    rw [AngleToFloat_concat_plain isLetter toUpper west toDouble _ _ hne]
    simp only [hE, hupE, if_true, if_false]
  · intro h
    have e : number (toDouble w.numeric.value) ++ "W"
        = String.mk ((number (toDouble w.numeric.value)).data ++ ['W']) := rfl
    simp only [USALSRotorSetting.Save, h, if_true, e]
    rw [AngleToFloat_concat_plain isLetter toUpper west toDouble _ _ hne]
    simp only [hW, hupW, if_true]

end MythTV
